import Mathlib

/-!
TypedArray builtins.

A shallow embedding of `src/builtins/builtins-typed-array-gen.cc` (the CodeStubAssembler
builtins for `%TypedArray%`): the length/byteLength/byteOffset getters, `set`, `slice`,
`subarray`, `filter` and the iteration entry points, together with the helpers they call.

Conventions of the embedding.
* A builtin is a function from its receiver, its argument list and the current `World`
  to an `Outcome`: the world it leaves behind, the trace of the calls it made to code
  outside this file, and a `Completion` (a returned value or a thrown exception).
* Code outside this file that can run arbitrary user code or that is implemented elsewhere
  (coercions, runtime functions, C helpers, species lookup, callbacks) is a field of `Host`;
  every theorem quantifies over all hosts.
* Machine words (`IntPtrT`, `UintPtrT`) are naturals below `Arch.kWordModulus`; the
  arithmetic nodes wrap explicitly.
-/

namespace TypedArrayBuiltins

/-! ## Platform constants -/

/-- The two pointer widths the file is compiled for (the comment at lines 47-53 of the source
speaks of 32 bit and 64 bit platforms). -/
inductive Arch where
  | ia32
  | x64
  deriving DecidableEq, Repr

/-- Modelled from the spec: the size of the machine word (two to the pointer width), which the
source takes from the build configuration. -/
def Arch.kWordModulus : Arch → Nat
  | .ia32 => 4294967296
  | .x64 => 18446744073709551616

/-- Modelled from the spec: `Smi::kMaxValue`, the largest small integer ("within representable
range"): 31-bit small integers on 32-bit platforms, 32-bit small integers on 64-bit ones. -/
def Smi.kMaxValue : Arch → Nat
  | .ia32 => 1073741823
  | .x64 => 2147483647

/-! ## Element kinds -/

/-- The element kinds of typed arrays, in the order of the `TYPED_ARRAYS` list. -/
inductive ElementsKind where
  | UINT8_ELEMENTS
  | INT8_ELEMENTS
  | UINT16_ELEMENTS
  | INT16_ELEMENTS
  | UINT32_ELEMENTS
  | INT32_ELEMENTS
  | FLOAT32_ELEMENTS
  | FLOAT64_ELEMENTS
  | UINT8_CLAMPED_ELEMENTS
  | BIGUINT64_ELEMENTS
  | BIGINT64_ELEMENTS
  deriving DecidableEq, Repr

/-- The element kinds a `JSArray` can have, as far as `SetJSArraySource` distinguishes them. -/
inductive JSArrayElementsKind where
  | PACKED_SMI_ELEMENTS
  | HOLEY_SMI_ELEMENTS
  | PACKED_ELEMENTS
  | HOLEY_ELEMENTS
  | PACKED_DOUBLE_ELEMENTS
  | HOLEY_DOUBLE_ELEMENTS
  | DICTIONARY_ELEMENTS
  deriving DecidableEq, Repr

open ElementsKind in
/-- Modelled from the spec: `sizeof(ctype)` of the `TYPED_ARRAYS` list, which is declared outside
this file: "Each kind has a fixed byte width (1,2,4, or 8)" - 8/16/32/64-bit integers, two
floating kinds, a clamped 8-bit kind and two 64-bit big-integer kinds. -/
def sizeofCtype : ElementsKind → Nat
  | UINT8_ELEMENTS => 1
  | INT8_ELEMENTS => 1
  | UINT16_ELEMENTS => 2
  | INT16_ELEMENTS => 2
  | UINT32_ELEMENTS => 4
  | INT32_ELEMENTS => 4
  | FLOAT32_ELEMENTS => 4
  | FLOAT64_ELEMENTS => 8
  | UINT8_CLAMPED_ELEMENTS => 1
  | BIGUINT64_ELEMENTS => 8
  | BIGINT64_ELEMENTS => 8

/-- The native-context slot `Context::TYPE##_ARRAY_FUN_INDEX` of a kind; the slot is named by
its kind. -/
structure ContextSlot where
  TYPE_ARRAY_FUN_INDEX : ElementsKind
  deriving DecidableEq, Repr

/-- `DispatchTypedArrayByElementsKind` (lines 690-728): calls `case_function` with the kind, the
size of its C type and its constructor slot. The `if_unknown_type` label is `Unreachable()`; the
type `ElementsKind` has no such value. -/
def DispatchTypedArrayByElementsKind {α : Type} (elements_kind : ElementsKind)
    (case_function : ElementsKind → Nat → ContextSlot → α) : α :=
  case_function elements_kind (sizeofCtype elements_kind) ⟨elements_kind⟩

/-- `IsUint8ElementsKind` (lines 311-315). -/
def IsUint8ElementsKind (kind : ElementsKind) : Bool :=
  (kind == ElementsKind.UINT8_ELEMENTS) || (kind == ElementsKind.UINT8_CLAMPED_ELEMENTS)

/-- `IsBigInt64ElementsKind` (lines 317-321). -/
def IsBigInt64ElementsKind (kind : ElementsKind) : Bool :=
  (kind == ElementsKind.BIGINT64_ELEMENTS) || (kind == ElementsKind.BIGUINT64_ELEMENTS)

/-- `GetTypedArrayElementSize` (lines 323-334). -/
def GetTypedArrayElementSize (elements_kind : ElementsKind) : Nat :=
  DispatchTypedArrayByElementsKind elements_kind (fun _ size _ => size)

/-! ## Machine words -/

/-- Modelled from the spec: the machine node `IntPtrAdd` of the code-stub assembler (not in
this file): word addition, wrapping at the word size. -/
def IntPtrAdd (arch : Arch) (a b : Nat) : Nat := (a + b) % arch.kWordModulus

/-- Modelled from the spec: the machine node `IntPtrMul` of the code-stub assembler (not in
this file): word multiplication, wrapping at the word size. -/
def IntPtrMul (arch : Arch) (a b : Nat) : Nat := (a * b) % arch.kWordModulus

/-- The value of a word read as a signed (two's complement) integer. -/
def Signed (arch : Arch) (a : Nat) : Int :=
  if 2 * (a % arch.kWordModulus) < arch.kWordModulus then ((a % arch.kWordModulus : Nat) : Int)
  else ((a % arch.kWordModulus : Nat) : Int) - (arch.kWordModulus : Int)

/-- Modelled from the spec: the machine node `IntPtrGreaterThan` of the code-stub assembler
(not in this file): the signed comparison of two words. -/
def IntPtrGreaterThan (arch : Arch) (a b : Nat) : Bool :=
  decide (Signed arch b < Signed arch a)

/-! ## Objects and values -/

/-- The result of `ToInteger`: a mathematical integer or an infinity. -/
inductive Integer where
  | finite (i : Int)
  | posInf
  | negInf
  deriving DecidableEq, Repr

/-- A `JSTypedArray`. The fields are the ones the builtins load; none of them is written after
construction (detaching changes the buffer, not the view), so a view is carried by value.
`id` is the identity of the object, `buffer` the identity of its `JSArrayBuffer`, and `data_ptr`
the address `LoadDataPtr` computes from its elements object. -/
structure JSTypedArray where
  id : Nat
  elements_kind : ElementsKind
  length : Nat
  byte_offset : Nat
  byte_length : Nat
  buffer : Nat
  data_ptr : Nat
  deriving DecidableEq, Repr

/-- The kinds of array iterator (`IterationKind`). -/
inductive IterationKind where
  | kKeys
  | kValues
  | kEntries
  deriving DecidableEq, Repr

/-- A tagged value. Heap numbers are kept only as far as the builtins produce them (an integral
value outside the small-integer range, or an infinity); every other heap object is `heapObject`
with its identity. -/
inductive Value where
  | smi (n : Int)
  | heapNumber (x : Integer)
  | undefined
  | typedArray (a : JSTypedArray)
  | arrayBuffer (ref : Nat)
  | jsArray (ref : Nat)
  | typedArrayFunction (slot : ContextSlot)
  | arrayIterator (a : JSTypedArray) (kind : IterationKind)
  | heapObject (ref : Nat)
  deriving DecidableEq, Repr

/-- The state of a `JSArrayBuffer` that the builtins read. -/
structure JSArrayBuffer where
  was_detached : Bool
  backing_store : Nat
  byte_length : Nat
  deriving DecidableEq, Repr

/-- The state of a `JSArray` that `set` reads: whether the checks of `BranchIfFastJSArray`
pass for it, its elements kind and its length. -/
structure JSArray where
  is_fast : Bool
  elements_kind : JSArrayElementsKind
  length : Nat
  deriving DecidableEq, Repr

/-- The mutable state the builtins run against: raw memory (one byte per address), the
array buffers and arrays by identity, for every typed array (by `id`) whether the prototype of
its map is still the initial `%TypedArray%` prototype of its kind, and the isolate flags. -/
structure World where
  memory : Nat → Nat
  buffers : Nat → JSArrayBuffer
  js_arrays : Nat → JSArray
  prototype_is_typed_array_prototype : Nat → Bool
  typed_array_species_protector_invalid : Bool
  array_iterator_protector_valid : Bool
  force_slow_path : Bool

/-! ## Completions, traces and the host -/

/-- The message templates this file throws with. -/
inductive MessageTemplate where
  | kNotTypedArray
  | kIncompatibleMethodReceiver
  | kDetachedOperation
  | kTypedArraySetOffsetOutOfBounds
  | kTypedArraySetSourceTooLarge
  | kBigIntMixedTypes
  | kTypedArrayTooShort
  | kCalledNonCallable
  | kNotConstructor
  | kIteratorSymbolNonCallable
  | kInvalidTypedArrayLength
  deriving DecidableEq, Repr

/-- An exception: one of the errors this file throws itself, or one thrown by code it called
(user code, a runtime function, another builtin) and propagated unchanged. -/
inductive Exception where
  | TypeError (message : MessageTemplate)
  | RangeError (message : MessageTemplate)
  | propagated (payload : Nat)
  deriving DecidableEq, Repr

/-- How a call ends. -/
inductive Completion (α : Type) where
  | normal (value : α)
  | throw (e : Exception)
  deriving DecidableEq, Repr

/-- How a call into the host ends: with a value, or with an exception of the host. -/
inductive HostCompletion (α : Type) where
  | normal (value : α)
  | throw (payload : Nat)
  deriving DecidableEq, Repr

/-- The property keys `from` reads with `GetProperty`: the string `length` and an index. -/
inductive PropertyKey where
  | length
  | index (i : Nat)
  deriving DecidableEq, Repr

/-- One call made to code outside this file, with its arguments, or one store of an element
(`StoreElement`, with the bytes stored). `CallCMemmove`, `CopyTypedArrayElementsToTypedArray`,
`CopyFastNumberJSArrayElementsToTypedArray`, `CopyTypedArrayElementsSlice`,
`RuntimeTypedArraySet`, `RuntimeTypedArrayCopyElements`, `RuntimeTypedArrayCopyElementsObject`,
`LoadElement` and `StoreElement` are the ones that read or write element memory. -/
inductive Event where
  | ToInteger (input : Value)
  | CallCMemmove (dest_ptr src_ptr byte_length : Nat)
  | CopyTypedArrayElementsToTypedArray (source dest : JSTypedArray) (source_length offset : Nat)
  | CopyFastNumberJSArrayElementsToTypedArray (source : Nat) (dest : JSTypedArray)
      (source_length offset : Nat)
  | CopyTypedArrayElementsSlice (source dest : JSTypedArray) (start end_index : Nat)
  | RuntimeTypedArraySet (receiver : JSTypedArray) (source : Value) (offset : Nat)
  | RuntimeTypedArrayGetBuffer (array : JSTypedArray)
  | RuntimeTypedArrayCopyElements (target : JSTypedArray) (source : List Value) (length : Nat)
  | CreateTypedArray (target new_target arg0 arg1 arg2 : Value)
  | SpeciesConstructor (exemplar : JSTypedArray) (default_constructor : Value)
  | Construct (ctor : Value) (args : List Value)
  | LoadElement (array : JSTypedArray) (index : Nat)
  | Call (callable this_arg : Value) (args : List Value)
  | RuntimeTypedArrayCopyElementsObject (target : JSTypedArray) (source : Value) (length : Nat)
  | PrepareValueForWriteToTypedArray (input : Value) (kind : ElementsKind)
  | ToBigInt (input : Value)
  | StoreElement (array : JSTypedArray) (index : Nat) (bytes : List Nat)
  | GetMethod (object : Value)
  | IterableToList (iterable iterator_fn : Value)
  | GetProperty (object : Value) (key : PropertyKey)
  | ToLength (input : Value)
  deriving DecidableEq, Repr

/-- What a call leaves behind. -/
structure Outcome (α : Type) where
  world : World
  trace : List Event
  result : Completion α

/-- The code this file calls but does not define. Functions that can run user code or allocate
return a new world and a completion; the C helpers return only a new world; `IsCallable`,
`ToBoolean`, `ElementAsTagged`, `IsConstructor` and `IsTypedArrayPrototypeValues` are pure.
The two conversions for a store (`PrepareValueForWriteToTypedArray`, `ToBigInt`) return the
converted value as the bytes that are stored for it; `GetIteratorMethod` returns `none` for a
method that is undefined or null; `IterableToList` returns the identity of the list it
built. -/
structure Host where
  ToInteger : Value → World → World × HostCompletion Integer
  RuntimeTypedArraySet : JSTypedArray → Value → Nat → World → World × HostCompletion Value
  RuntimeTypedArrayGetBuffer : JSTypedArray → World → World × HostCompletion Nat
  RuntimeTypedArrayCopyElements :
    JSTypedArray → List Value → Nat → World → World × HostCompletion Unit
  CopyTypedArrayElementsToTypedArray : JSTypedArray → JSTypedArray → Nat → Nat → World → World
  CopyFastNumberJSArrayElementsToTypedArray : Nat → JSTypedArray → Nat → Nat → World → World
  CopyTypedArrayElementsSlice : JSTypedArray → JSTypedArray → Nat → Nat → World → World
  CreateTypedArray : Value → Value → Value → Value → Value → World →
    World × HostCompletion JSTypedArray
  SpeciesConstructor : JSTypedArray → Value → World → World × HostCompletion Value
  Construct : Value → List Value → World → World × HostCompletion Value
  Call : Value → Value → List Value → World → World × HostCompletion Value
  IsCallable : Value → Bool
  ToBoolean : Value → Bool
  ElementAsTagged : ElementsKind → List Nat → Value
  IsConstructor : Value → Bool
  IsTypedArrayPrototypeValues : Value → Bool
  RuntimeTypedArrayCopyElementsObject :
    JSTypedArray → Value → Nat → World → World × HostCompletion Unit
  PrepareValueForWriteToTypedArray :
    Value → ElementsKind → World → World × HostCompletion (List Nat)
  ToBigInt : Value → World → World × HostCompletion (List Nat)
  GetIteratorMethod : Value → World → World × HostCompletion (Option Value)
  IterableToList : Value → Value → World → World × HostCompletion Nat
  GetProperty : Value → PropertyKey → World → World × HostCompletion Value
  ToLength : Value → World → World × HostCompletion Nat

/-- The outcome of one call into the host: the event is recorded and a host exception becomes a
propagated exception. -/
def fromHost {α : Type} (e : Event) (r : World × HostCompletion α) : Outcome α :=
  match r.2 with
  | .normal v => ⟨r.1, [e], .normal v⟩
  | .throw payload => ⟨r.1, [e], .throw (.propagated payload)⟩

/-- The outcome `r` of a continuation, with the trace of what ran before it put in front. -/
def Outcome.after {β : Type} (earlier : List Event) (r : Outcome β) : Outcome β :=
  ⟨r.world, earlier ++ r.trace, r.result⟩

/-- Sequencing: run `k` on the value of `o` in the world `o` left; an exception of `o` ends the
builtin. -/
def Outcome.andThen {α β : Type} (o : Outcome α) (k : α → World → Outcome β) : Outcome β :=
  match o.result with
  | .throw e => ⟨o.world, o.trace, .throw e⟩
  | .normal v => Outcome.after o.trace (k v o.world)

/-- A `Return`. -/
def Return {α : Type} (v : α) (w : World) : Outcome α := ⟨w, [], .normal v⟩

/-- A throw of this file (`ThrowTypeError` and `ThrowRangeError`). -/
def Throw {α : Type} (e : Exception) (w : World) : Outcome α := ⟨w, [], .throw e⟩

/-- Whether the event is a call of `memmove`. -/
def Event.isCallCMemmove : Event → Bool
  | .CallCMemmove _ _ _ => true
  | _ => false

/-- Whether the event reads or writes element memory. -/
def Event.accessesElements : Event → Bool
  | .CallCMemmove _ _ _ => true
  | .CopyTypedArrayElementsToTypedArray _ _ _ _ => true
  | .CopyFastNumberJSArrayElementsToTypedArray _ _ _ _ => true
  | .CopyTypedArrayElementsSlice _ _ _ _ => true
  | .RuntimeTypedArraySet _ _ _ => true
  | .RuntimeTypedArrayCopyElements _ _ _ => true
  | .RuntimeTypedArrayCopyElementsObject _ _ _ => true
  | .LoadElement _ _ => true
  | .StoreElement _ _ _ => true
  | _ => false

/-- The index of the element an event stores, if it is a store. -/
def Event.storeIndex : Event → Option Nat
  | .StoreElement _ index _ => some index
  | _ => none

/-- The event, if it is a call of a user function. -/
def Event.isCall : Event → Bool
  | .Call _ _ _ => true
  | _ => false

/-! ## CodeStubAssembler helpers used by the builtins -/

/-- Modelled from the spec: `CodeStubArguments::GetOptionalArgumentValue(index,
default_value)` (not in this file): the argument at `index`, or the default when the call has
no such argument ("an omitted offset"). -/
def GetOptionalArgumentValue (args : List Value) (index : Nat) (default_value : Value) : Value :=
  args.getD index default_value

/-- Modelled from the spec: `IsDetachedBuffer` of the code-stub assembler (not in this file),
"is_detached(buffer) -> bool": the detached state of the buffer, a one-way flag. -/
def IsDetachedBuffer (w : World) (buffer : Nat) : Bool := (w.buffers buffer).was_detached

/-- `LoadDataPtr` (lines 191-196). -/
def LoadDataPtr (typed_array : JSTypedArray) : Nat := typed_array.data_ptr

/-- Modelled from the spec: `ThrowIfNotInstanceType(context, value, JS_TYPED_ARRAY_TYPE,
method_name)` of the code-stub assembler (not in this file), the error "not a typed view (wrong
receiver type)": a small integer or an object of another instance type throws a `TypeError`;
otherwise the value is the typed array the caller then casts it to. -/
def ThrowIfNotInstanceType (value : Value) (w : World) : Outcome JSTypedArray :=
  match value with
  | .typedArray a => Return a w
  | _ => Throw (.TypeError .kIncompatibleMethodReceiver) w

/-- Modelled from the spec: `ThrowIfArrayBufferIsDetached` of the code-stub assembler (not in
this file), the error "detached buffer (operation attempted on or during detachment)". -/
def ThrowIfArrayBufferIsDetached (buffer : Nat) (w : World) : Outcome Unit :=
  if IsDetachedBuffer w buffer then Throw (.TypeError .kDetachedOperation) w else Return () w

/-- Modelled from the spec: `ThrowIfArrayBufferViewBufferIsDetached` of the code-stub
assembler (not in this file): `ThrowIfArrayBufferIsDetached` on the buffer of the view. -/
def ThrowIfArrayBufferViewBufferIsDetached (array : JSTypedArray) (w : World) : Outcome Unit :=
  ThrowIfArrayBufferIsDetached array.buffer w

/-- Modelled from the spec: `ChangeUintPtrToTagged` of the code-stub assembler (not in this
file): the number with the value of the word, a small integer when the word fits one and a heap
number otherwise. -/
def ChangeUintPtrToTagged (arch : Arch) (value : Nat) : Value :=
  if value ≤ Smi.kMaxValue arch then .smi value else .heapNumber (.finite value)

/-- The integer a number value stands for. -/
def NumberValue : Value → Option Int
  | .smi n => some n
  | .heapNumber (.finite n) => some n
  | _ => none

/-- Modelled from the spec: `ToInteger_Inline` of the code-stub assembler ("to_integer(value) ->
integer"; it "may execute arbitrary user code as a side effect"). A number is converted without
leaving the builtin; every other value goes through the host. -/
def ToInteger_Inline (host : Host) (input : Value) (w : World) : Outcome Integer :=
  match input with
  | .smi n => Return (.finite n) w
  | .heapNumber x => Return x w
  | v => fromHost (.ToInteger v) (host.ToInteger v w)

/-- Modelled from the spec: `TaggedIsPositiveSmi` of the code-stub assembler (not in this
file), "a non-negative integer within representable range", on the result of `ToInteger`, which
"always returns a Smi if the given value is within Smi range" (line 760). -/
def TaggedIsPositiveSmi (arch : Arch) (x : Integer) : Bool :=
  match x with
  | .finite i => decide (0 ≤ i) && decide (i ≤ (Smi.kMaxValue arch : Int))
  | _ => false

/-- Modelled from the spec: `SmiUntag` of the code-stub assembler (not in this file), on a
non-negative small integer: its value as a word. -/
def SmiUntag (x : Integer) : Nat :=
  match x with
  | .finite i => i.toNat
  | _ => 0

/-- Modelled from the spec: `memmove` of the C library, the "overlap-safe move" that must
"behave as if the source were fully read before any byte is written": `byte_length` bytes from
`src_ptr` to `dest_ptr`. -/
def memmove (memory : Nat → Nat) (dest_ptr src_ptr byte_length : Nat) : Nat → Nat :=
  fun address =>
    if dest_ptr ≤ address ∧ address < dest_ptr + byte_length
    then memory (src_ptr + (address - dest_ptr))
    else memory address

/-- `CallCMemmove` (lines 623-631). -/
def CallCMemmove (dest_ptr src_ptr byte_length : Nat) (w : World) : Outcome Unit :=
  ⟨{ w with memory := memmove w.memory dest_ptr src_ptr byte_length },
   [.CallCMemmove dest_ptr src_ptr byte_length], .normal ()⟩

/-- `CallCCopyTypedArrayElementsToTypedArray` (lines 669-678). -/
def CallCCopyTypedArrayElementsToTypedArray (host : Host) (source dest : JSTypedArray)
    (source_length offset : Nat) (w : World) : Outcome Unit :=
  ⟨host.CopyTypedArrayElementsToTypedArray source dest source_length offset w,
   [.CopyTypedArrayElementsToTypedArray source dest source_length offset], .normal ()⟩

/-- `CallCCopyFastNumberJSArrayElementsToTypedArray` (lines 653-667). -/
def CallCCopyFastNumberJSArrayElementsToTypedArray (host : Host) (source : Nat)
    (dest : JSTypedArray) (source_length offset : Nat) (w : World) : Outcome Unit :=
  ⟨host.CopyFastNumberJSArrayElementsToTypedArray source dest source_length offset w,
   [.CopyFastNumberJSArrayElementsToTypedArray source dest source_length offset], .normal ()⟩

/-- `CallCCopyTypedArrayElementsSlice` (lines 680-688). -/
def CallCCopyTypedArrayElementsSlice (host : Host) (source dest : JSTypedArray)
    (start end_index : Nat) (w : World) : Outcome Unit :=
  ⟨host.CopyTypedArrayElementsSlice source dest start end_index w,
   [.CopyTypedArrayElementsSlice source dest start end_index], .normal ()⟩

/-! ## The getters -/

/-- `TypedArrayPrototypeByteLength` (lines 257-273). -/
def TypedArrayPrototypeByteLength (arch : Arch) (receiver : Value) (w : World) : Outcome Value :=
  (ThrowIfNotInstanceType receiver w).andThen fun receiver w =>
    let receiver_buffer := receiver.buffer
    let byte_length := if IsDetachedBuffer w receiver_buffer then 0 else receiver.byte_length
    Return (ChangeUintPtrToTagged arch byte_length) w

/-- `TypedArrayPrototypeByteOffset` (lines 275-291). -/
def TypedArrayPrototypeByteOffset (arch : Arch) (receiver : Value) (w : World) : Outcome Value :=
  (ThrowIfNotInstanceType receiver w).andThen fun receiver w =>
    let receiver_buffer := receiver.buffer
    let byte_offset := if IsDetachedBuffer w receiver_buffer then 0 else receiver.byte_offset
    Return (ChangeUintPtrToTagged arch byte_offset) w

/-- `TypedArrayPrototypeLength` (lines 293-309). The length is stored as a small integer and is
returned as it is. -/
def TypedArrayPrototypeLength (receiver : Value) (w : World) : Outcome Value :=
  (ThrowIfNotInstanceType receiver w).andThen fun receiver w =>
    let receiver_buffer := receiver.buffer
    let length : Value := if IsDetachedBuffer w receiver_buffer then .smi 0 else .smi receiver.length
    Return length w

/-! ## `%TypedArray%.prototype.set` -/

/-- The ways control leaves `SetTypedArraySource` and `SetJSArraySource` without throwing:
falling through at `out`, or jumping to one of the two labels passed in by the caller. -/
inductive SetSourceExit where
  | out
  | call_runtime
  | if_source_too_large
  deriving DecidableEq, Repr

/-- `SetTypedArraySource` (lines 502-577). -/
def SetTypedArraySource (host : Host) (arch : Arch) (source target : JSTypedArray)
    (offset : Nat) (w : World) : Outcome SetSourceExit :=
  -- Check for possible range errors.
  let source_length := source.length
  let target_length := target.length
  let required_target_length := IntPtrAdd arch source_length offset
  if IntPtrGreaterThan arch required_target_length target_length then
    Return .if_source_too_large w
  else
    -- Grab pointers and byte lengths we need later on.
    let target_data_ptr := LoadDataPtr target
    let source_data_ptr := LoadDataPtr source
    let source_el_kind := source.elements_kind
    let target_el_kind := target.elements_kind
    let source_el_size := GetTypedArrayElementSize source_el_kind
    let target_el_size := GetTypedArrayElementSize target_el_kind
    let source_byte_length := IntPtrMul arch source_length source_el_size
    let call_memmove : Outcome SetSourceExit :=
      let target_start := IntPtrAdd arch target_data_ptr (IntPtrMul arch offset target_el_size)
      (CallCMemmove target_start source_data_ptr source_byte_length w).andThen fun _ w =>
        Return .out w
    let fast_c_call : Outcome SetSourceExit :=
      if IsBigInt64ElementsKind source_el_kind != IsBigInt64ElementsKind target_el_kind then
        Throw (.TypeError .kBigIntMixedTypes) w
      else
        let source_length := source.length
        (CallCCopyTypedArrayElementsToTypedArray host source target source_length offset
          w).andThen fun _ w => Return .out w
    -- A fast memmove call can be used when the source and target types are are
    -- the same or either Uint8 or Uint8Clamped.
    if source_el_kind = target_el_kind then call_memmove
    else if !IsUint8ElementsKind source_el_kind then fast_c_call
    else if IsUint8ElementsKind target_el_kind then call_memmove
    else fast_c_call

/-- `SetJSArraySource` (lines 579-621); `source` is the identity of a fast `JSArray`. -/
def SetJSArraySource (host : Host) (arch : Arch) (source : Nat) (target : JSTypedArray)
    (offset : Nat) (w : World) : Outcome SetSourceExit :=
  let source_length := (w.js_arrays source).length
  let target_length := target.length
  -- Maybe out of bounds?
  if IntPtrGreaterThan arch (IntPtrAdd arch source_length offset) target_length then
    Return .if_source_too_large w
  -- Nothing to do if {source} is empty.
  else if source_length = 0 then Return .out w
  else
    let fast_c_call : Outcome SetSourceExit :=
      if IsBigInt64ElementsKind target.elements_kind then Return .call_runtime w
      else
        (CallCCopyFastNumberJSArrayElementsToTypedArray host source target source_length offset
          w).andThen fun _ w => Return .out w
    -- Dispatch based on the source elements kind.
    let source_elements_kind := (w.js_arrays source).elements_kind
    match source_elements_kind with
    | .PACKED_SMI_ELEMENTS => fast_c_call
    | .HOLEY_SMI_ELEMENTS => fast_c_call
    | .PACKED_DOUBLE_ELEMENTS => fast_c_call
    | .HOLEY_DOUBLE_ELEMENTS => fast_c_call
    | _ => Return .call_runtime w

/-- The label `call_runtime` of `TypedArrayPrototypeSet` (lines 801-803). -/
def SetCallRuntime (host : Host) (receiver : JSTypedArray) (source : Value) (offset_smi : Nat)
    (w : World) : Outcome Value :=
  fromHost (.RuntimeTypedArraySet receiver source offset_smi)
    (host.RuntimeTypedArraySet receiver source offset_smi w)

/-- Where `TypedArrayPrototypeSet` continues after one of the two source helpers: the return
of `undefined` (lines 790, 798) or the label the helper jumped to (lines 801-809). -/
def SetContinue (host : Host) (receiver : JSTypedArray) (source : Value) (offset_smi : Nat)
    (exit : SetSourceExit) (w : World) : Outcome Value :=
  match exit with
  | .out => Return .undefined w
  | .call_runtime => SetCallRuntime host receiver source offset_smi w
  | .if_source_too_large => Throw (.RangeError .kTypedArraySetSourceTooLarge) w

/-- `TypedArrayPrototypeSet` (lines 737-813). -/
def TypedArrayPrototypeSet (host : Host) (arch : Arch) (receiver : Value) (args : List Value)
    (w : World) : Outcome Value :=
  -- Check the receiver is a typed array.
  match receiver with
  | .typedArray receiver =>
    -- Normalize offset argument (using ToInteger) and handle heap number cases.
    let offset := GetOptionalArgumentValue args 1 (.smi 0)
    (ToInteger_Inline host offset w).andThen fun offset_num w =>
      if !TaggedIsPositiveSmi arch offset_num then
        Throw (.RangeError .kTypedArraySetOffsetOutOfBounds) w
      else
        let offset_smi := SmiUntag offset_num
        -- Check the receiver is not detached.
        (ThrowIfArrayBufferViewBufferIsDetached receiver w).andThen fun _ w =>
          -- Check the source argument is valid and whether a fast path can be taken.
          let source := GetOptionalArgumentValue args 0 .undefined
          match source with
          | .typedArray source_array =>
            -- Check the source argument is not detached.
            (ThrowIfArrayBufferViewBufferIsDetached source_array w).andThen fun _ w =>
              (SetTypedArraySource host arch source_array receiver offset_smi w).andThen
                (SetContinue host receiver source offset_smi)
          | .jsArray source_array =>
            if (w.js_arrays source_array).is_fast then
              (SetJSArraySource host arch source_array receiver offset_smi w).andThen
                (SetContinue host receiver source offset_smi)
            else SetCallRuntime host receiver source offset_smi w
          | _ => SetCallRuntime host receiver source offset_smi w
  | _ => Throw (.TypeError .kNotTypedArray) w

/-! ## Species creation -/

/-- `GetDefaultConstructor` (lines 358-371): the function in the native-context slot of the
exemplar's kind. -/
def GetDefaultConstructor (exemplar : JSTypedArray) : Value :=
  let context_slot :=
    DispatchTypedArrayByElementsKind exemplar.elements_kind
      (fun _ _ typed_array_function_index => typed_array_function_index)
  .typedArrayFunction context_slot

/-- `ValidateTypedArray` (lines 491-500). -/
def ValidateTypedArray (obj : Value) (w : World) : Outcome JSTypedArray :=
  -- If it is not a typed array, throw
  (ThrowIfNotInstanceType obj w).andThen fun array w =>
    -- If the typed array's buffer is detached, throw
    (ThrowIfArrayBufferViewBufferIsDetached array w).andThen fun _ w =>
      Return array w

/-- `TypedArraySpeciesCreate` (lines 373-424) with the argument list `args` (one to three
values). -/
def TypedArraySpeciesCreate (host : Host) (exemplar : JSTypedArray) (args : List Value)
    (w : World) : Outcome JSTypedArray :=
  let default_constructor := GetDefaultConstructor exemplar
  let slow : Outcome JSTypedArray :=
    -- Let constructor be ? SpeciesConstructor(exemplar, defaultConstructor).
    (fromHost (.SpeciesConstructor exemplar default_constructor)
      (host.SpeciesConstructor exemplar default_constructor w)).andThen fun ctor w =>
      -- Let newTypedArray be ? Construct(constructor, argumentList).
      (fromHost (.Construct ctor args) (host.Construct ctor args w)).andThen fun new_object w =>
        -- Perform ? ValidateTypedArray(newTypedArray).
        ValidateTypedArray new_object w
  if !w.prototype_is_typed_array_prototype exemplar.id then slow
  else if w.typed_array_species_protector_invalid then slow
  else
    let arg0 := args.getD 0 .undefined
    let arg1 := args.getD 1 .undefined
    let arg2 := args.getD 2 .undefined
    fromHost (.CreateTypedArray default_constructor default_constructor arg0 arg1 arg2)
      (host.CreateTypedArray default_constructor default_constructor arg0 arg1 arg2 w)

/-- `ThrowIfLengthLessThan` (lines 456-466). -/
def ThrowIfLengthLessThan (typed_array : JSTypedArray) (min_length : Nat) (w : World) :
    Outcome Unit :=
  let new_length := typed_array.length
  if new_length < min_length then Throw (.TypeError .kTypedArrayTooShort) w else Return () w

/-- `TypedArraySpeciesCreateByLength` (lines 426-437). -/
def TypedArraySpeciesCreateByLength (host : Host) (exemplar : JSTypedArray) (len : Nat)
    (w : World) : Outcome JSTypedArray :=
  (TypedArraySpeciesCreate host exemplar [.smi len] w).andThen fun new_typed_array w =>
    (ThrowIfLengthLessThan new_typed_array len w).andThen fun _ w =>
      Return new_typed_array w

/-! ## `%TypedArray%.prototype.slice` -/

/-- Modelled from the spec: `ConvertToRelativeIndex` of the code-stub assembler, which is not
in this file: "normalize `start`/`end` to non-negative indices clamped to `[0, length]`
(negative values count from the end)"; in the words of lines 953-955: let relative be
ToInteger(index); if relative is negative the index is max(length + relative, 0), else it is
min(relative, length). -/
def ConvertToRelativeIndex (host : Host) (index : Value) (length : Nat) (w : World) :
    Outcome Nat :=
  (ToInteger_Inline host index w).andThen fun index_int w =>
    match index_int with
    | .finite relative =>
      if relative < 0 then Return (max ((length : Int) + relative) 0).toNat w
      else Return (min relative (length : Int)).toNat w
    | .posInf => Return length w
    | .negInf => Return 0 w

/-- Lines 830-849 of `TypedArrayPrototypeSlice`: the start index, the end index and the count
for a source of length `source_length`. -/
def SliceIndices (host : Host) (source_length : Nat) (args : List Value) (w : World) :
    Outcome (Nat × Nat × Nat) :=
  -- Convert start offset argument to integer, and calculate relative offset.
  let start := GetOptionalArgumentValue args 0 (.smi 0)
  (ConvertToRelativeIndex host start source_length w).andThen fun start_index w =>
    -- Convert end offset argument to integer, and calculate relative offset.
    -- If end offset is not given or undefined is given, set source_length to
    -- "end_index".
    let end_arg := GetOptionalArgumentValue args 1 .undefined
    (if end_arg = .undefined then Return source_length w
     else ConvertToRelativeIndex host end_arg source_length w).andThen fun end_index w =>
      let count := (max ((end_index : Int) - (start_index : Int)) 0).toNat
      Return (start_index, end_index, count) w

/-- The label `call_c` of `TypedArrayPrototypeSlice` (lines 912-924). -/
def SliceCallC (host : Host) (source result_array : JSTypedArray) (start_index end_index : Nat)
    (w : World) : Outcome Value :=
  if IsBigInt64ElementsKind source.elements_kind
      != IsBigInt64ElementsKind result_array.elements_kind then
    Throw (.TypeError .kBigIntMixedTypes) w
  else
    (CallCCopyTypedArrayElementsSlice host source result_array start_index end_index
      w).andThen fun _ w => Return (.typedArray result_array) w

/-- `TypedArrayPrototypeSlice` (lines 815-925). -/
def TypedArrayPrototypeSlice (host : Host) (arch : Arch) (receiver : Value) (args : List Value)
    (w : World) : Outcome Value :=
  (ValidateTypedArray receiver w).andThen fun source w =>
    let source_length := source.length
    (SliceIndices host source_length args w).andThen fun (start_index, end_index, count) w =>
      -- Create a result array by invoking TypedArraySpeciesCreate.
      (TypedArraySpeciesCreateByLength host source count w).andThen fun result_array w =>
        -- If count is zero, return early.
        if !decide (0 < count) then Return (.typedArray result_array) w
        else
          -- Check the source array is detached or not.
          let receiver_buffer := source.buffer
          (ThrowIfArrayBufferIsDetached receiver_buffer w).andThen fun _ w =>
            -- If the types of source and result array are the same and they are not
            -- sharing the same buffer, use memmove.
            let source_el_kind := source.elements_kind
            let target_el_kind := result_array.elements_kind
            if source_el_kind ≠ target_el_kind then
              SliceCallC host source result_array start_index end_index w
            else
              let target_buffer := result_array.buffer
              if receiver_buffer = target_buffer then
                SliceCallC host source result_array start_index end_index w
              else if w.force_slow_path then
                SliceCallC host source result_array start_index end_index w
              else
                let target_data_ptr := LoadDataPtr result_array
                let source_data_ptr := LoadDataPtr source
                let source_el_size := GetTypedArrayElementSize source_el_kind
                let source_start_bytes := IntPtrMul arch start_index source_el_size
                let source_start := IntPtrAdd arch source_data_ptr source_start_bytes
                let count_bytes := IntPtrMul arch count source_el_size
                (CallCMemmove target_data_ptr source_start count_bytes w).andThen fun _ w =>
                  Return (.typedArray result_array) w

/-! ## `%TypedArray%.prototype.subarray` -/

/-- `GetBuffer` (lines 468-489): the buffer of the array, through the runtime when it is
detached or has no backing store yet. -/
def GetBuffer (host : Host) (array : JSTypedArray) (w : World) : Outcome Nat :=
  let call_runtime : Outcome Nat :=
    fromHost (.RuntimeTypedArrayGetBuffer array) (host.RuntimeTypedArrayGetBuffer array w)
  let buffer := array.buffer
  if IsDetachedBuffer w buffer then call_runtime
  else
    let backing_store := (w.buffers buffer).backing_store
    if backing_store = 0 then call_runtime
    else Return buffer w

/-- Modelled from the spec: the tagging of an integral number by the code-stub assembler (not
in this file): a small integer when the value fits one, a heap number otherwise. -/
def NumberFromInt (arch : Arch) (i : Int) : Value :=
  if -((Smi.kMaxValue arch : Int) + 1) ≤ i ∧ i ≤ (Smi.kMaxValue arch : Int) then .smi i
  else .heapNumber (.finite i)

/-- Modelled from the spec: `SmiMul` of the code-stub assembler (not in this file): the
product of two small integers, as a number. -/
def SmiMul (arch : Arch) (a b : Int) : Value := NumberFromInt arch (a * b)

/-- Modelled from the spec: `NumberAdd` of the code-stub assembler (not in this file), on the
integral numbers `subarray` applies it to ("`byte_offset + start*element_size`"). -/
def NumberAdd (arch : Arch) (a b : Value) : Value :=
  match NumberValue a, NumberValue b with
  | some x, some y => NumberFromInt arch (x + y)
  | _, _ => .undefined

/-- `TypedArrayPrototypeSubArray` (lines 927-996). -/
def TypedArrayPrototypeSubArray (host : Host) (arch : Arch) (receiver : Value)
    (args : List Value) (w : World) : Outcome Value :=
  -- 1. Let O be the this value.
  -- 3. If O does not have a [[TypedArrayName]] internal slot, throw a TypeError exception.
  (ThrowIfNotInstanceType receiver w).andThen fun source w =>
    -- 5. Let buffer be O.[[ViewedArrayBuffer]].
    (GetBuffer host source w).andThen fun buffer w =>
      -- 6. Let srcLength be O.[[ArrayLength]].
      let source_length := source.length
      -- 7., 8. the begin index
      let begin_arg := GetOptionalArgumentValue args 0 (.smi 0)
      (ConvertToRelativeIndex host begin_arg source_length w).andThen fun var_begin w =>
        let end_arg := GetOptionalArgumentValue args 1 .undefined
        -- 9. If end is undefined, let relativeEnd be srcLength; 10. else the end index
        (if end_arg = .undefined then Return source_length w
         else ConvertToRelativeIndex host end_arg source_length w).andThen fun var_end w =>
          -- 11. Let newLength be max(endIndex - beginIndex, 0).
          let new_length := (max ((var_end : Int) - (var_begin : Int)) 0).toNat
          -- 13. Let elementSize be the Element Size value for constructorName.
          let element_kind := source.elements_kind
          let element_size := GetTypedArrayElementSize element_kind
          -- 14. Let srcByteOffset be O.[[ByteOffset]].
          let source_byte_offset := ChangeUintPtrToTagged arch source.byte_offset
          -- 15. Let beginByteOffset be srcByteOffset + beginIndex * elementSize.
          let offset := SmiMul arch var_begin element_size
          let begin_byte_offset := NumberAdd arch source_byte_offset offset
          -- 16., 17. Return ? TypedArraySpeciesCreate(O, buffer, beginByteOffset, newLength).
          (TypedArraySpeciesCreate host source
            [.arrayBuffer buffer, begin_byte_offset, .smi new_length] w).andThen
            fun result w => Return (.typedArray result) w

/-! ## The iteration entry points -/

/-- `GenerateTypedArrayPrototypeIterationMethod` (lines 1041-1056); `CreateArrayIterator`
allocates the iterator over the receiver. -/
def GenerateTypedArrayPrototypeIterationMethod (receiver : Value) (kind : IterationKind)
    (w : World) : Outcome Value :=
  match receiver with
  | .typedArray array =>
    -- Check if the {receiver}'s JSArrayBuffer was detached.
    (ThrowIfArrayBufferViewBufferIsDetached array w).andThen fun _ w =>
      Return (.arrayIterator array kind) w
  | _ => Throw (.TypeError .kNotTypedArray) w

/-- `TypedArrayPrototypeValues` (lines 1058-1065). -/
def TypedArrayPrototypeValues (receiver : Value) (w : World) : Outcome Value :=
  GenerateTypedArrayPrototypeIterationMethod receiver .kValues w

/-- `TypedArrayPrototypeEntries` (lines 1067-1074). -/
def TypedArrayPrototypeEntries (receiver : Value) (w : World) : Outcome Value :=
  GenerateTypedArrayPrototypeIterationMethod receiver .kEntries w

/-- `TypedArrayPrototypeKeys` (lines 1076-1082). -/
def TypedArrayPrototypeKeys (receiver : Value) (w : World) : Outcome Value :=
  GenerateTypedArrayPrototypeIterationMethod receiver .kKeys w

/-! ## `%TypedArray%.prototype.filter` -/

/-- The bytes of element `index` of the elements at `data_ptr`, each `size` bytes wide. -/
def LoadElementBytes (memory : Nat → Nat) (data_ptr index size : Nat) : List Nat :=
  (List.range size).map fun k => memory (data_ptr + index * size + k)

/-- Modelled from the spec: `LoadFixedTypedArrayElementAsTagged` of the code-stub assembler
(not in this file): reads the element at `base + index*size` and boxes it; the decoding of the
bytes of a kind into a number is the host's. -/
def LoadFixedTypedArrayElementAsTagged (host : Host) (array : JSTypedArray) (index : Nat)
    (w : World) : Outcome Value :=
  ⟨w, [.LoadElement array index],
   .normal (host.ElementAsTagged array.elements_kind
     (LoadElementBytes w.memory (LoadDataPtr array) index
       (GetTypedArrayElementSize array.elements_kind)))⟩

/-- The loop of `TypedArrayPrototypeFilter` (lines 1437-1471): `BuildFastLoop` from `index`
over the `remaining` indices, with the values kept so far. -/
def FilterLoop (host : Host) (source : JSTypedArray) (callbackfn this_arg : Value) :
    Nat → Nat → List Value → World → Outcome (List Value)
  | 0, _, values, w => Return values w
  | remaining + 1, index, values, w =>
    if IsDetachedBuffer w source.buffer then Throw (.TypeError .kDetachedOperation) w
    else
      -- b. Let kValue be ? Get(O, Pk).
      (LoadFixedTypedArrayElementAsTagged host source index w).andThen fun value w =>
        -- c. Let selected be ToBoolean(Call(callbackfn, T, kValue, k, O))
        (fromHost (.Call callbackfn this_arg [value, .smi index, .typedArray source])
          (host.Call callbackfn this_arg [value, .smi index, .typedArray source]
            w)).andThen fun selected w =>
          -- d. If selected is true, append kValue to the end of kept.
          let values := if host.ToBoolean selected then values ++ [value] else values
          FilterLoop host source callbackfn this_arg remaining (index + 1) values w

/-- `TypedArrayPrototypeFilter` (lines 1397-1495). -/
def TypedArrayPrototypeFilter (host : Host) (receiver : Value) (args : List Value)
    (w : World) : Outcome Value :=
  -- 1. Let O be the this value.  2. Perform ? ValidateTypedArray(O).
  (ValidateTypedArray receiver w).andThen fun source w =>
    -- 3. Let len be O.[[ArrayLength]].
    let length := source.length
    -- 4. If IsCallable(callbackfn) is false, throw a TypeError exception.
    let callbackfn := GetOptionalArgumentValue args 0 .undefined
    let is_callable :=
      match callbackfn with
      | .smi _ => false
      | v => host.IsCallable v
    if !is_callable then Throw (.TypeError .kCalledNonCallable) w
    else
      -- 5. If thisArg is present, let T be thisArg; else let T be undefined.
      let this_arg := GetOptionalArgumentValue args 1 .undefined
      -- 6. - 9. the loop
      (FilterLoop host source callbackfn this_arg length 0 [] w).andThen fun values_array w =>
        let captured := values_array.length
        -- 10. Let A be ? TypedArraySpeciesCreate(O, captured).
        (TypedArraySpeciesCreateByLength host source captured w).andThen fun result_array w =>
          -- 11., 12. copy the kept values
          (fromHost (.RuntimeTypedArrayCopyElements result_array values_array captured)
            (host.RuntimeTypedArrayCopyElements result_array values_array captured
              w)).andThen fun _ w =>
            -- 13. Return A.
            Return (.typedArray result_array) w

/-! ## Well-formedness of views -/

/-- The elements of the view are addressable: the byte range from its data pointer on, of
`length` elements, ends below the top of the address space. -/
def ElementsAddressable (arch : Arch) (a : JSTypedArray) : Prop :=
  a.data_ptr + a.length * GetTypedArrayElementSize a.elements_kind < arch.kWordModulus

instance (arch : Arch) (a : JSTypedArray) : Decidable (ElementsAddressable arch a) := by
  unfold ElementsAddressable
  infer_instance

/-- Detachment is a one-way transition: a coercion run by the host leaves a detached buffer
detached. -/
def KeepsDetached (host : Host) (buffer : Nat) : Prop :=
  ∀ v w, IsDetachedBuffer w buffer = true → IsDetachedBuffer (host.ToInteger v w).1 buffer = true

/-- The outcome is not the RangeError of the offset check of `set`. -/
def NotOffsetOutOfBounds {α : Type} (o : Outcome α) : Prop :=
  o.result ≠ .throw (.RangeError .kTypedArraySetOffsetOutOfBounds)

/-- The byte ranges of the elements of two views have no address in common. -/
def ByteRangesDisjoint (a b : JSTypedArray) : Prop :=
  a.data_ptr + a.length * GetTypedArrayElementSize a.elements_kind ≤ b.data_ptr ∨
  b.data_ptr + b.length * GetTypedArrayElementSize b.elements_kind ≤ a.data_ptr

instance (a b : JSTypedArray) : Decidable (ByteRangesDisjoint a b) := by
  unfold ByteRangesDisjoint
  infer_instance

/-- A write of the bytes `bytes` to element `index` of the elements at `data_ptr`, each `size`
bytes wide (what `StoreElement` does with the encoded value). -/
def StoreElementBytes (memory : Nat → Nat) (data_ptr index size : Nat) (bytes : List Nat) :
    Nat → Nat :=
  fun address =>
    if data_ptr + index * size ≤ address ∧ address < data_ptr + index * size + size
    then bytes.getD (address - (data_ptr + index * size)) 0
    else memory address

/-! ## Creation by length, and the store of a converted element -/

/-- `TypedArrayCreateByLength` (lines 439-454). -/
def TypedArrayCreateByLength (host : Host) (ctor : Value) (len : Nat) (w : World) :
    Outcome JSTypedArray :=
  -- Let newTypedArray be ? Construct(constructor, argumentList).
  (fromHost (.Construct ctor [.smi len]) (host.Construct ctor [.smi len] w)).andThen
    fun new_object w =>
      -- Perform ? ValidateTypedArray(newTypedArray).
      (ValidateTypedArray new_object w).andThen fun new_typed_array w =>
        (ThrowIfLengthLessThan new_typed_array len w).andThen fun _ w =>
          Return new_typed_array w

/-- The checks `TaggedIsSmi(receiver)` and `IsConstructor(receiver)` of `of` and `from`. -/
def IsConstructor (host : Host) (receiver : Value) : Bool :=
  match receiver with
  | .smi _ => false
  | v => host.IsConstructor v

/-- Modelled from the spec: `StoreElement` of the code-stub assembler (not in this file): the
store of a converted value, as its bytes, at `backing_store + index * size` ("store each
argument by index"). -/
def StoreElement (array : JSTypedArray) (index : Nat) (bytes : List Nat) (w : World) :
    Outcome Unit :=
  ⟨{ w with memory := (StoreElementBytes w.memory (LoadDataPtr array) index
        (GetTypedArrayElementSize array.elements_kind) bytes) },
   [.StoreElement array index bytes], .normal ()⟩

/-- Modelled from the spec: `EmitBigTypedArrayElementStore` of the code-stub assembler (not in
this file), with a label for detachment: the value is converted with `ToBigInt`, which can run
user code; "abort with a detachment error if a conversion side-effect detaches the buffer";
otherwise the converted value is stored at the index. -/
def EmitBigTypedArrayElementStore (host : Host) (object : JSTypedArray) (index : Nat)
    (value : Value) (w : World) : Outcome Unit :=
  (fromHost (.ToBigInt value) (host.ToBigInt value w)).andThen fun bigint_value w =>
    if IsDetachedBuffer w object.buffer then Throw (.TypeError .kDetachedOperation) w
    else StoreElement object index bigint_value w

/-- The store of one item in the loops of `of` (lines 1124-1146) and `from` (lines 1353-1377),
dispatched on the kind of the array: a big-integer kind goes through
`EmitBigTypedArrayElementStore`; any other kind converts the item with
`PrepareValueForWriteToTypedArray`, jumps to `if_detached` when the conversion detached the
buffer, and stores the value otherwise. -/
def StoreConvertedElement (host : Host) (array : JSTypedArray) (index : Nat) (item : Value)
    (w : World) : Outcome Unit :=
  DispatchTypedArrayByElementsKind array.elements_kind fun kind _ _ =>
    if kind = .BIGINT64_ELEMENTS ∨ kind = .BIGUINT64_ELEMENTS then
      EmitBigTypedArrayElementStore host array index item w
    else
      (fromHost (.PrepareValueForWriteToTypedArray item kind)
        (host.PrepareValueForWriteToTypedArray item kind w)).andThen fun value w =>
        -- ToNumber may execute JavaScript code, which could detach the array's buffer.
        if IsDetachedBuffer w array.buffer then Throw (.TypeError .kDetachedOperation) w
        else StoreElement array index value w

/-- The conversion `StoreConvertedElement` starts with: `ToBigInt` for the big-integer kinds,
`PrepareValueForWriteToTypedArray` for the others. -/
def ConvertForKind (host : Host) (kind : ElementsKind) (item : Value) (w : World) :
    Outcome (List Nat) :=
  if kind = .BIGINT64_ELEMENTS ∨ kind = .BIGUINT64_ELEMENTS then
    fromHost (.ToBigInt item) (host.ToBigInt item w)
  else
    fromHost (.PrepareValueForWriteToTypedArray item kind)
      (host.PrepareValueForWriteToTypedArray item kind w)


/-- The event of the conversion `ConvertForKind` makes. -/
def ConversionEvent (kind : ElementsKind) (item : Value) : Event :=
  if kind = .BIGINT64_ELEMENTS ∨ kind = .BIGUINT64_ELEMENTS then .ToBigInt item
  else .PrepareValueForWriteToTypedArray item kind

/-! ## The byte-length guard and the debug assertions of `slice` -/

/-- Modelled from the spec: `SmiUntag` of the code-stub assembler (not in this file) on any
small integer, negative ones included: its value as a machine word, in two's complement. -/
def SmiUntagWord (arch : Arch) (v : Int) : Nat := (v % (arch.kWordModulus : Int)).toNat

/-- Modelled from the spec: the machine node `UintPtrLessThanOrEqual` of the code-stub
assembler (not in this file): the unsigned comparison of two words. -/
def UintPtrLessThanOrEqual (a b : Nat) : Bool := decide (a ≤ b)

/-- Modelled from the spec: the machine node `UintPtrSub` of the code-stub assembler (not in
this file): word subtraction, wrapping at the word size. -/
def UintPtrSub (arch : Arch) (a b : Nat) : Nat :=
  (a % arch.kWordModulus + (arch.kWordModulus - b % arch.kWordModulus)) % arch.kWordModulus

/-- Modelled from the spec: the machine node `Float64LessThanOrEqual` of the code-stub
assembler (not in this file), between the value of a heap number, as far as this embedding
keeps heap numbers (integral values and the infinities), and a finite bound. -/
def Float64LessThanOrEqual (x : Integer) (bound : Nat) : Bool :=
  match x with
  | .finite i => decide (i ≤ (bound : Int))
  | .posInf => false
  | .negInf => true

/-- `ByteLengthIsValid` (lines 198-219). `kMaxByteLength` is
`FixedTypedArrayBase::kMaxByteLength`, a constant declared outside this file ("a fixed maximum
(implementation-defined, platform word-size dependent)") and taken as a parameter; as an
`IntPtrConstant` it is the word `kMaxByteLength % 2^w`, as a `Float64Constant` the number
itself. The argument is a `Number`; for any other value the `CAST` fails and there is no
result. -/
def ByteLengthIsValid (arch : Arch) (kMaxByteLength : Nat) (byte_length : Value) :
    Option Bool :=
  match byte_length with
  | .smi v =>
    let max_byte_length := kMaxByteLength % arch.kWordModulus
    some (UintPtrLessThanOrEqual (SmiUntagWord arch v) max_byte_length)
  | .heapNumber float_value =>
    let max_byte_length_double := kMaxByteLength
    some (Float64LessThanOrEqual float_value max_byte_length_double)
  | _ => none

/-- The two debug assertions at the label `call_memmove` of `TypedArrayPrototypeSlice` (lines
896-906), on the values the label computes from the source, the result, the start index and
the count. -/
def SliceMemmoveAssertions (arch : Arch) (source result_array : JSTypedArray)
    (start_index count : Nat) : Bool :=
  let source_el_size := GetTypedArrayElementSize source.elements_kind
  let source_start_bytes := IntPtrMul arch start_index source_el_size
  let count_bytes := IntPtrMul arch count source_el_size
  let target_byte_length := result_array.byte_length
  let source_byte_length := source.byte_length
  let source_size_in_bytes := UintPtrSub arch source_byte_length source_start_bytes
  UintPtrLessThanOrEqual count_bytes target_byte_length &&
    UintPtrLessThanOrEqual count_bytes source_size_in_bytes

/-- The index of the element an event loads, if it is a load of an element. -/
def Event.loadIndex : Event → Option Nat
  | .LoadElement _ index => some index
  | _ => none

/-- Whether the event is a step of the creation of a view: the lookup of a species
constructor, a construction or a call of `CreateTypedArray`. -/
def Event.createsView : Event → Bool
  | .CreateTypedArray _ _ _ _ _ => true
  | .SpeciesConstructor _ _ => true
  | .Construct _ _ => true
  | _ => false

/-! ## `%TypedArray%.of` -/

/-- The loop of `TypedArrayOf` (lines 1116-1149): `BuildFastLoop` from `index` over the
`remaining` indices; the item at an index is the argument at that index. -/
def OfLoop (host : Host) (new_typed_array : JSTypedArray) (args : List Value) :
    Nat → Nat → World → Outcome Unit
  | 0, _, w => Return () w
  | remaining + 1, index, w =>
    let item := args.getD index .undefined
    (StoreConvertedElement host new_typed_array index item w).andThen fun _ w =>
      OfLoop host new_typed_array args remaining (index + 1) w

/-- `TypedArrayOf` (lines 1084-1160). -/
def TypedArrayOf (host : Host) (receiver : Value) (args : List Value) (w : World) :
    Outcome Value :=
  -- 1. Let len be the actual number of arguments passed to this function.
  let length := args.length
  -- 3. Let C be the this value.
  -- 4. If IsConstructor(C) is false, throw a TypeError exception.
  if !IsConstructor host receiver then Throw (.TypeError .kNotConstructor) w
  else
    -- 5. Let newObj be ? TypedArrayCreate(C, len).
    (TypedArrayCreateByLength host receiver length w).andThen fun new_typed_array w =>
      -- 6. - 7. the loop
      (OfLoop host new_typed_array args length 0 w).andThen fun _ w =>
        -- 8. Return newObj.
        Return (.typedArray new_typed_array) w

/-! ## `%TypedArray%.from` -/

/-- Modelled from the spec: `ToSmiLength` of the code-stub assembler (not in this file),
"to_length(value) -> non-negative integer": the length, or `none` (the label
`if_length_not_smi`) when it is not a small integer. A small integer is converted without
leaving the builtin; every other value goes through the host. -/
def ToSmiLength (host : Host) (arch : Arch) (input : Value) (w : World) :
    Outcome (Option Nat) :=
  (match input with
   | .smi n => Return n.toNat w
   | v => fromHost (.ToLength v) (host.ToLength v w)).andThen fun len w =>
    if len ≤ Smi.kMaxValue arch then Return (some len) w else Return none w

/-- The label `check_iterator` of `TypedArrayFrom` (lines 1269-1294). -/
def FromCheckIterator (host : Host) (arch : Arch) (source iterator_fn : Value) (w : World) :
    Outcome (Value × Nat) :=
  -- 6. Let usingIterator be ? GetMethod(source, @@iterator).
  if !host.IsCallable iterator_fn then Throw (.TypeError .kIteratorSymbolNonCallable) w
  else
    -- 7. a. Let values be ? IterableToList(source, usingIterator).
    (fromHost (.IterableToList source iterator_fn)
      (host.IterableToList source iterator_fn w)).andThen fun values w =>
      let raw_length := (w.js_arrays values).length
      if raw_length ≤ Smi.kMaxValue arch then Return (.jsArray values, raw_length) w
      else Throw (.RangeError .kInvalidTypedArrayLength) w

/-- The label `from_array_like` of `TypedArrayFrom` (lines 1296-1311). -/
def FromArrayLike (host : Host) (arch : Arch) (source : Value) (w : World) :
    Outcome (Value × Nat) :=
  let final_source := source
  -- 10. Let len be ? ToLength(? Get(arrayLike, "length")).
  (fromHost (.GetProperty final_source .length)
    (host.GetProperty final_source .length w)).andThen fun raw_length w =>
    (ToSmiLength host arch raw_length w).andThen fun final_length w =>
      match final_length with
      | some final_length => Return (final_source, final_length) w
      | none => Throw (.RangeError .kInvalidTypedArrayLength) w

/-- Lines 1212-1311 of `TypedArrayFrom`: from the label `check_typedarray` to the jump to
`create_typed_array`, with the final source and the final length. -/
def FromSource (host : Host) (arch : Arch) (source : Value) (w : World) :
    Outcome (Value × Nat) :=
  -- Get the iterator function
  (fromHost (.GetMethod source) (host.GetIteratorMethod source w)).andThen fun method w =>
    match method with
    | none => FromArrayLike host arch source w
    | some (.smi _) => Throw (.TypeError .kIteratorSymbolNonCallable) w
    | some iterator_fn =>
      match source with
      | .typedArray source_array =>
        -- Check that the source is a TypedArray
        if IsDetachedBuffer w source_array.buffer then
          FromCheckIterator host arch source iterator_fn w
        -- Check that the iterator function is Builtins::kTypedArrayPrototypeValues
        else if !host.IsTypedArrayPrototypeValues iterator_fn then
          FromCheckIterator host arch source iterator_fn w
        -- Check that the ArrayIterator prototype's "next" method hasn't been overridden
        else if !w.array_iterator_protector_valid then
          FromCheckIterator host arch source iterator_fn w
        else
          -- Source is a TypedArray with unmodified iterator behavior.
          Return (source, source_array.length) w
      | _ => FromCheckIterator host arch source iterator_fn w

/-- The loop of the label `slow_path` of `TypedArrayFrom` (lines 1342-1379): `BuildFastLoop`
from `index` over the `remaining` indices. -/
def FromLoop (host : Host) (target_obj : JSTypedArray) (final_source map_fn this_arg : Value) :
    Nat → Nat → World → Outcome Unit
  | 0, _, w => Return () w
  | remaining + 1, index, w =>
    (fromHost (.GetProperty final_source (.index index))
      (host.GetProperty final_source (.index index) w)).andThen fun k_value w =>
      (fromHost (.Call map_fn this_arg [k_value, .smi index])
        (host.Call map_fn this_arg [k_value, .smi index] w)).andThen fun mapped_value w =>
        (StoreConvertedElement host target_obj index mapped_value w).andThen fun _ w =>
          FromLoop host target_obj final_source map_fn this_arg remaining (index + 1) w

/-- The decision on `mapping` of `TypedArrayFrom` (lines 1187-1198): `none` stands for the
jump to `if_map_fn_not_callable`. -/
def FromMapping (host : Host) (map_fn : Value) : Option Bool :=
  match map_fn with
  | .undefined => some false
  | .smi _ => none
  | v => if host.IsCallable v then some true else none

/-- `TypedArrayFrom` (lines 1162-1395). -/
def TypedArrayFrom (host : Host) (arch : Arch) (receiver : Value) (args : List Value)
    (w : World) : Outcome Value :=
  let source := GetOptionalArgumentValue args 0 .undefined
  -- 5. If thisArg is present, let T be thisArg; else let T be undefined.
  let this_arg := GetOptionalArgumentValue args 2 .undefined
  -- 1. Let C be the this value.
  -- 2. If IsConstructor(C) is false, throw a TypeError exception.
  if !IsConstructor host receiver then Throw (.TypeError .kNotConstructor) w
  else
    -- 3. If mapfn is present and mapfn is not undefined, then
    let map_fn := GetOptionalArgumentValue args 1 .undefined
    match FromMapping host map_fn with
    | none => Throw (.TypeError .kCalledNonCallable) w
    | some mapping =>
      (FromSource host arch source w).andThen fun (final_source, final_length) w =>
        -- 7c/11. Let targetObj be ? TypedArrayCreate(C, len).
        (TypedArrayCreateByLength host receiver final_length w).andThen fun target_obj w =>
          if mapping then
            -- 7e/13 : Copy the elements
            (FromLoop host target_obj final_source map_fn this_arg final_length 0
              w).andThen fun _ w => Return (.typedArray target_obj) w
          else if final_length = 0 then Return (.typedArray target_obj) w
          else
            (fromHost (.RuntimeTypedArrayCopyElementsObject target_obj final_source final_length)
              (host.RuntimeTypedArrayCopyElementsObject target_obj final_source final_length
                w)).andThen fun _ w => Return (.typedArray target_obj) w

/-! ## Assumptions on the host used by the theorems -/

/-- The step from `w` to `w1` leaves the view `a` alone: its buffer stays attached and each of
its elements keeps its bytes. -/
def LeavesView (a : JSTypedArray) (w w1 : World) : Prop :=
  (IsDetachedBuffer w a.buffer = false → IsDetachedBuffer w1 a.buffer = false) ∧
  ∀ j, j < a.length →
    LoadElementBytes w1.memory a.data_ptr j (GetTypedArrayElementSize a.elements_kind)
      = LoadElementBytes w.memory a.data_ptr j (GetTypedArrayElementSize a.elements_kind)

/-- In every world the conversion of `item` for a store into `a` returns `bytes` and leaves
the view `a` alone. -/
def ConvertsTo (host : Host) (a : JSTypedArray) (item : Value) (bytes : List Nat) : Prop :=
  ∀ w, (ConvertForKind host a.elements_kind item w).result = .normal bytes ∧
    LeavesView a w (ConvertForKind host a.elements_kind item w).world

/-- In every world reading `final_source[k]` returns `value` and leaves the view `a` alone. -/
def ReadsTo (host : Host) (a : JSTypedArray) (final_source : Value) (k : Nat) (value : Value) :
    Prop :=
  ∀ w, (host.GetProperty final_source (.index k) w).2 = .normal value ∧
    LeavesView a w (host.GetProperty final_source (.index k) w).1

/-- In every world the call of `map_fn` with `this_arg` on `(value, k)` returns `mapped` and
leaves the view `a` alone. -/
def MapsTo (host : Host) (a : JSTypedArray) (map_fn this_arg value : Value) (k : Nat)
    (mapped : Value) : Prop :=
  ∀ w, (host.Call map_fn this_arg [value, .smi k] w).2 = .normal mapped ∧
    LeavesView a w (host.Call map_fn this_arg [value, .smi k] w).1

/-! ## Concrete worlds, hosts and views used as instances -/

/-- A world in which every buffer is attached, memory holds the address modulo 256 at every
address, every array is a fast array of three small integers, and nothing was customised. -/
def exampleWorld : World where
  memory := fun address => address % 256
  buffers := fun buffer => ⟨false, 4096 * (buffer + 1), 64⟩
  js_arrays := fun _ => ⟨true, .PACKED_SMI_ELEMENTS, 3⟩
  prototype_is_typed_array_prototype := fun _ => true
  typed_array_species_protector_invalid := false
  array_iterator_protector_valid := true
  force_slow_path := false

/-- The world `exampleWorld` with buffer 7 detached. -/
def detachedWorld : World :=
  { exampleWorld with
    buffers := fun buffer =>
      if buffer = 7 then ⟨true, 0, 0⟩ else ⟨false, 4096 * (buffer + 1), 64⟩ }

/-- A typed array of kind `kind` and `length` elements over the bytes of `buffer` from
`byte_offset` on; the backing store of example buffer `b` is at address `4096 * (b + 1)`. -/
def exampleTypedArray (kind : ElementsKind) (id buffer byte_offset length : Nat) :
    JSTypedArray :=
  ⟨id, kind, length, byte_offset, length * sizeofCtype kind, buffer,
   4096 * (buffer + 1) + byte_offset⟩

/-- An `Int8Array`, as `exampleTypedArray`. -/
def exampleInt8Array (id buffer byte_offset length : Nat) : JSTypedArray :=
  exampleTypedArray .INT8_ELEMENTS id buffer byte_offset length

/-- The bytes of the integer `n` in a little-endian element of `size` bytes. -/
def littleEndian (size : Nat) (n : Int) : List Nat :=
  (List.range size).map fun k => ((n / (256 : Int) ^ k) % 256).toNat

/-- A host that leaves the world alone: coercions give 0, the runtime functions return,
construction gives a fresh `Int8Array` of the requested length over buffer 9, callbacks return
their first argument, only `typedArrayFunction` values are callable or constructors, a small
integer is stored as its little-endian bytes, nothing is iterable and every property is 0. -/
def exampleHost : Host where
  ToInteger := fun _ w => (w, .normal (.finite 0))
  RuntimeTypedArraySet := fun _ _ _ w => (w, .normal .undefined)
  RuntimeTypedArrayGetBuffer := fun array w => (w, .normal array.buffer)
  RuntimeTypedArrayCopyElements := fun _ _ _ w => (w, .normal ())
  CopyTypedArrayElementsToTypedArray := fun _ _ _ _ w => w
  CopyFastNumberJSArrayElementsToTypedArray := fun _ _ _ _ w => w
  CopyTypedArrayElementsSlice := fun _ _ _ _ w => w
  CreateTypedArray := fun _ _ arg0 _ _ w =>
    (w, .normal (exampleInt8Array 100 9 0 ((NumberValue arg0).getD 0).toNat))
  SpeciesConstructor := fun _ default_constructor w => (w, .normal default_constructor)
  Construct := fun _ args w =>
    (w, .normal (.typedArray
      (exampleInt8Array 100 9 0 ((NumberValue (args.getD 0 .undefined)).getD 0).toNat)))
  Call := fun _ _ args w => (w, .normal (args.getD 0 .undefined))
  IsCallable := fun v => match v with
    | .typedArrayFunction _ => true
    | _ => false
  ToBoolean := fun v => match v with
    | .smi 0 => false
    | .undefined => false
    | _ => true
  ElementAsTagged := fun _ bytes => .smi (bytes.getD 0 0)
  IsConstructor := fun v => match v with
    | .typedArrayFunction _ => true
    | _ => false
  IsTypedArrayPrototypeValues := fun _ => false
  RuntimeTypedArrayCopyElementsObject := fun _ _ _ w => (w, .normal ())
  PrepareValueForWriteToTypedArray := fun input kind w =>
    (w, .normal (littleEndian (sizeofCtype kind) ((NumberValue input).getD 0)))
  ToBigInt := fun input w => (w, .normal (littleEndian 8 ((NumberValue input).getD 0)))
  GetIteratorMethod := fun _ w => (w, .normal none)
  IterableToList := fun _ _ w => (w, .normal 0)
  GetProperty := fun _ _ w => (w, .normal (.smi 0))
  ToLength := fun _ w => (w, .normal 0)

/-- The world `exampleWorld` after the typed-array species protector was invalidated. -/
def customisedWorld : World :=
  { exampleWorld with typed_array_species_protector_invalid := true }

/-- The host `exampleHost` with a species constructor (the object 50) that, when constructed
with a length, returns an `Int8Array` of that length over the start of buffer 1. -/
def aliasingHost : Host :=
  { exampleHost with
    SpeciesConstructor := fun _ _ w => (w, .normal (.heapObject 50))
    Construct := fun _ args w =>
      (w, .normal (.typedArray
        (exampleInt8Array 101 1 0 ((NumberValue (args.getD 0 .undefined)).getD 0).toNat))) }

/-- The host `exampleHost` with a species constructor (the object 50) that returns an
`Int8Array` of one element over buffer 9, whatever length is asked for. -/
def shortHost : Host :=
  { exampleHost with
    SpeciesConstructor := fun _ _ w => (w, .normal (.heapObject 50))
    Construct := fun _ _ w => (w, .normal (.typedArray (exampleInt8Array 101 9 0 1))) }

/-- The world `detachedWorld` after the typed-array species protector was invalidated. -/
def customisedDetachedWorld : World :=
  { detachedWorld with typed_array_species_protector_invalid := true }

/-- The host `exampleHost` with a `CreateTypedArray` that allocates: buffer 9, over which its
result lies, is a fresh attached buffer in the world it returns. -/
def allocatingHost : Host :=
  { exampleHost with
    CreateTypedArray := fun _ _ arg0 _ _ w =>
      ({ w with buffers := fun buffer =>
          if buffer = 9 then ⟨false, 4096 * (9 + 1), 64⟩ else w.buffers buffer },
       .normal (exampleInt8Array 100 9 0 ((NumberValue arg0).getD 0).toNat)) }

/-- The host `exampleHost` with a `CreateTypedArray` that binds: called with a typed-array
function, a buffer, a byte offset and a length, it returns the view of that kind over that
buffer at that offset and of that length. -/
def bindingHost : Host :=
  { exampleHost with
    CreateTypedArray := fun target _ arg0 arg1 arg2 w =>
      match target, arg0 with
      | .typedArrayFunction slot, .arrayBuffer buffer =>
        (w, .normal (exampleTypedArray slot.TYPE_ARRAY_FUN_INDEX 100 buffer
          ((NumberValue arg1).getD 0).toNat ((NumberValue arg2).getD 0).toNat))
      | _, _ => (w, .normal (exampleInt8Array 100 9 0 ((NumberValue arg0).getD 0).toNat)) }

/-- The host `allocatingHost` with a species constructor (the object 50) that, constructed
with a buffer, an offset and a length, returns an `Int8Array` of that length over the start of
buffer 7. -/
def sameBufferHost : Host :=
  { allocatingHost with
    SpeciesConstructor := fun _ _ w => (w, .normal (.heapObject 50))
    Construct := fun _ args w =>
      (w, .normal (.typedArray
        (exampleInt8Array 101 7 0 ((NumberValue (args.getD 2 .undefined)).getD 0).toNat))) }

/-- The host `allocatingHost` with a species constructor (the object 50) that copies:
constructed with a buffer, a byte offset and a length, it returns an `Int8Array` at that byte
offset and of that length over buffer 7, whatever the buffer it was given. -/
def copyingHost : Host :=
  { allocatingHost with
    SpeciesConstructor := fun _ _ w => (w, .normal (.heapObject 50))
    Construct := fun _ args w =>
      (w, .normal (.typedArray
        (exampleInt8Array 101 7 ((NumberValue (args.getD 1 .undefined)).getD 0).toNat
          ((NumberValue (args.getD 2 .undefined)).getD 0).toNat))) }

/-- The world `w` after buffer 9 was detached. -/
def detachNine (w : World) : World :=
  { w with buffers := fun buffer => if buffer = 9 then ⟨true, 0, 0⟩ else w.buffers buffer }

/-- The host `exampleHost` with the built-in constructors: constructing a typed-array function
with a length gives a view of its kind and of that length over buffer 9. -/
def constructingHost : Host :=
  { exampleHost with
    Construct := fun ctor args w =>
      match ctor with
      | .typedArrayFunction slot =>
        (w, .normal (.typedArray (exampleTypedArray slot.TYPE_ARRAY_FUN_INDEX 100 9 0
          ((NumberValue (args.getD 0 .undefined)).getD 0).toNat)))
      | _ => exampleHost.Construct ctor args w }

/-- The host `constructingHost` with an object, 66, whose conversion to a number detaches
buffer 9; a callable, the object 72, that returns the object 66 at index 1 and its first
argument at every other index; and array-like sources of length 2 whose property at an index
is that index. -/
def detachingHost : Host :=
  { constructingHost with
    PrepareValueForWriteToTypedArray := fun input kind w =>
      match input with
      | .heapObject 66 => (detachNine w, .normal (littleEndian (sizeofCtype kind) 0))
      | _ => (w, .normal (littleEndian (sizeofCtype kind) ((NumberValue input).getD 0)))
    IsCallable := fun v => match v with
      | .typedArrayFunction _ => true
      | .heapObject 72 => true
      | _ => false
    Call := fun _ _ args w =>
      match args.getD 1 .undefined with
      | .smi 1 => (w, .normal (.heapObject 66))
      | _ => (w, .normal (args.getD 0 .undefined))
    GetProperty := fun _ key w =>
      match key with
      | .length => (w, .normal (.smi 2))
      | .index i => (w, .normal (.smi i)) }

/-- The world `exampleWorld` in which every array is a fast array of two doubles. -/
def pairWorld : World :=
  { exampleWorld with js_arrays := fun _ => ⟨true, .PACKED_DOUBLE_ELEMENTS, 2⟩ }

/-- The host `constructingHost` set up for `from([1.5, 2.5], x => x * 2)`: the heap objects 15
and 25 stand for the numbers 1.5 and 2.5; an array is iterable, with the iterator method 70,
and draining it gives the list 6, whose elements are 15 and 25; the callable 71 doubles its
first argument (15 to 3, 25 to 5); and 3 and 5, stored as doubles, are the bytes of 3.0 and
5.0. -/
def mappingHost : Host :=
  { constructingHost with
    GetIteratorMethod := fun source w =>
      match source with
      | .jsArray _ => (w, .normal (some (.heapObject 70)))
      | _ => (w, .normal none)
    IsCallable := fun v => match v with
      | .typedArrayFunction _ => true
      | .heapObject 70 => true
      | .heapObject 71 => true
      | _ => false
    IterableToList := fun _ _ w => (w, .normal 6)
    GetProperty := fun object key w =>
      match object, key with
      | .jsArray 6, .index 0 => (w, .normal (.heapObject 15))
      | .jsArray 6, .index 1 => (w, .normal (.heapObject 25))
      | _, _ => (w, .normal (.smi 0))
    Call := fun callable _ args w =>
      match callable, args.getD 0 .undefined with
      | .heapObject 71, .heapObject 15 => (w, .normal (.smi 3))
      | .heapObject 71, .heapObject 25 => (w, .normal (.smi 5))
      | _, v => (w, .normal v)
    PrepareValueForWriteToTypedArray := fun input kind w =>
      match kind, input with
      | .FLOAT64_ELEMENTS, .smi 3 => (w, .normal [0, 0, 0, 0, 0, 0, 8, 64])
      | .FLOAT64_ELEMENTS, .smi 5 => (w, .normal [0, 0, 0, 0, 0, 0, 20, 64])
      | _, _ => (w, .normal (littleEndian (sizeofCtype kind) ((NumberValue input).getD 0))) }

/-- The host `mappingHost` in which a typed array, too, is iterable with the iterator method
70, and 70 is the built-in `%TypedArray%.prototype.values`. -/
def shortcutHost : Host :=
  { mappingHost with
    GetIteratorMethod := fun source w =>
      match source with
      | .jsArray _ => (w, .normal (some (.heapObject 70)))
      | .typedArray _ => (w, .normal (some (.heapObject 70)))
      | _ => (w, .normal none)
    IsTypedArrayPrototypeValues := fun v => match v with
      | .heapObject 70 => true
      | _ => false }

/-- In every world the call of the callback of `filter` with `this_arg` on
`(value, k, source)` returns `selected` and leaves the view `source` alone. -/
def SelectsTo (host : Host) (source : JSTypedArray) (callbackfn this_arg value : Value)
    (k : Nat) (selected : Value) : Prop :=
  ∀ w, (host.Call callbackfn this_arg [value, .smi k, .typedArray source] w).2
      = .normal selected ∧
    LeavesView source w
      (host.Call callbackfn this_arg [value, .smi k, .typedArray source] w).1

/-- The world `exampleWorld` whose buffer 1 starts with the bytes 5, 1, 4, 2, 3 (and is 0
elsewhere). -/
def filterWorld : World :=
  { exampleWorld with memory := fun address => [5, 1, 4, 2, 3].getD (address - 8192) 0 }

/-- The host `exampleHost` with a callable, the object 73, that tests `v > 2`: called on a
small integer greater than 2 it returns 1, otherwise 0; and a callable, the object 74, that
detaches buffer 9 and returns 1. -/
def filterHost : Host :=
  { exampleHost with
    IsCallable := fun v => match v with
      | .typedArrayFunction _ => true
      | .heapObject 73 => true
      | .heapObject 74 => true
      | _ => false
    Call := fun callable _ args w =>
      match callable with
      | .heapObject 74 => (detachNine w, .normal (.smi 1))
      | _ =>
        match args.getD 0 .undefined with
        | .smi v => (w, .normal (.smi (if 2 < v then 1 else 0)))
        | _ => (w, .normal (.smi 0)) }

/-- Modelled from the spec: the ViewBinder, which "computes the effective data pointer from the
buffer's base address and the view's byte offset", and the view invariant
"`byte_offset + length*element_size(kind) <= buffer.byte_length`": in the world `w` the view
`a` is bound to its buffer. -/
def ViewBound (w : World) (a : JSTypedArray) : Prop :=
  a.data_ptr = (w.buffers a.buffer).backing_store + a.byte_offset ∧
  a.byte_offset + a.length * GetTypedArrayElementSize a.elements_kind
    ≤ (w.buffers a.buffer).byte_length

instance (w : World) (a : JSTypedArray) : Decidable (ViewBound w a) := by
  unfold ViewBound
  infer_instance

/-- Modelled from the spec: the BufferManager "owns raw byte storage", each buffer a block of
its own: in the world `w` the blocks of the two buffers have no address in common. -/
def BuffersApart (w : World) (b1 b2 : Nat) : Prop :=
  (w.buffers b1).backing_store + (w.buffers b1).byte_length ≤ (w.buffers b2).backing_store ∨
  (w.buffers b2).backing_store + (w.buffers b2).byte_length ≤ (w.buffers b1).backing_store

instance (w : World) (b1 b2 : Nat) : Decidable (BuffersApart w b1 b2) := by
  unfold BuffersApart
  infer_instance


/-- The host `shortcutHost` in which the property of a typed array at an index is the byte its
data holds there in the world of the read, and with a callable, the object 75, that returns its
first argument and, when it is called for index 0, first writes 77 to the byte at address 8193
(element 1 of an `Int8Array` at the start of buffer 1). -/
def writingHost : Host :=
  { shortcutHost with
    IsCallable := fun v => match v with
      | .typedArrayFunction _ => true
      | .heapObject 70 => true
      | .heapObject 75 => true
      | _ => false
    GetProperty := fun object key w =>
      match object, key with
      | .typedArray a, .index k => (w, .normal (.smi ((w.memory (a.data_ptr + k) : Nat) : Int)))
      | _, _ => (w, .normal (.smi 0))
    Call := fun callable _ args w =>
      match callable, args.getD 1 .undefined with
      | .heapObject 75, .smi 0 =>
        ({ w with memory := StoreElementBytes w.memory 8192 1 1 [77] },
          .normal (args.getD 0 .undefined))
      | _, _ => (w, .normal (args.getD 0 .undefined)) }

/-! ## Lemmas on the machine arithmetic -/

theorem Signed_of_small (arch : Arch) (a : Nat) (h : 2 * a < arch.kWordModulus) :
    Signed arch a = (a : Int) := by
  have hlt : a < arch.kWordModulus := by omega
  simp [Signed, Nat.mod_eq_of_lt hlt, h]

theorem two_kMaxValue_lt (arch : Arch) : 4 * (Smi.kMaxValue arch + 1) ≤ arch.kWordModulus := by
  cases arch <;> simp [Smi.kMaxValue, Arch.kWordModulus]

/-- The length check of `set` does not overflow: for small integers it is the comparison of
the mathematical sum. -/
theorem IntPtrGreaterThan_IntPtrAdd (arch : Arch) (a b c : Nat)
    (ha : a ≤ Smi.kMaxValue arch) (hb : b ≤ Smi.kMaxValue arch) (hc : c ≤ Smi.kMaxValue arch) :
    IntPtrGreaterThan arch (IntPtrAdd arch a b) c = decide (c < a + b) := by
  have hM := two_kMaxValue_lt arch
  have hab : a + b < arch.kWordModulus := by omega
  have h1 : Signed arch (IntPtrAdd arch a b) = ((a + b : Nat) : Int) := by
    unfold IntPtrAdd
    rw [Nat.mod_eq_of_lt hab]
    exact Signed_of_small arch (a + b) (by omega)
  have h2 : Signed arch c = (c : Int) := Signed_of_small arch c (by omega)
  unfold IntPtrGreaterThan
  rw [h1, h2]
  simp
  omega

theorem IsUint8ElementsKind_not_bigint (kind : ElementsKind)
    (h : IsUint8ElementsKind kind = true) : IsBigInt64ElementsKind kind = false := by
  cases kind <;> simp_all [IsUint8ElementsKind, IsBigInt64ElementsKind]

/-! ## Lemmas on `memmove` -/

theorem LoadElementBytes_add (memory : Nat → Nat) (data_ptr offset i size : Nat) :
    LoadElementBytes memory data_ptr (offset + i) size
      = LoadElementBytes memory (data_ptr + offset * size) i size := by
  unfold LoadElementBytes
  apply List.map_congr_left
  intro k _
  have h : (offset + i) * size = offset * size + i * size := Nat.add_mul offset i size
  rw [h]
  congr 1
  omega

/-- Inside the destination range `memmove` leaves the bytes the source had before. -/
theorem memmove_LoadElementBytes_inside (memory : Nat → Nat) (dest src size n i : Nat)
    (hi : i < n) :
    LoadElementBytes (memmove memory dest src (n * size)) dest i size
      = LoadElementBytes memory src i size := by
  unfold LoadElementBytes
  apply List.map_congr_left
  intro k hk
  have hk' : k < size := List.mem_range.mp hk
  have h1 : (i + 1) * size ≤ n * size := Nat.mul_le_mul_right size hi
  have h2 : (i + 1) * size = i * size + size := by
    rw [Nat.add_mul, Nat.one_mul]
  have hin : dest ≤ dest + i * size + k ∧ dest + i * size + k < dest + n * size := by
    constructor <;> omega
  have hsub : src + (dest + i * size + k - dest) = src + i * size + k := by omega
  simp only [memmove, hin, and_self, if_true, hsub]

/-- Outside the destination range `memmove` leaves every byte as it was. -/
theorem memmove_LoadElementBytes_outside (memory : Nat → Nat)
    (data_ptr src size offset n j : Nat) (hj : j < offset ∨ offset + n ≤ j) :
    LoadElementBytes (memmove memory (data_ptr + offset * size) src (n * size)) data_ptr j size
      = LoadElementBytes memory data_ptr j size := by
  unfold LoadElementBytes
  apply List.map_congr_left
  intro k hk
  have hk' : k < size := List.mem_range.mp hk
  have hout : ¬ (data_ptr + offset * size ≤ data_ptr + j * size + k ∧
      data_ptr + j * size + k < data_ptr + offset * size + n * size) := by
    rcases hj with hj | hj
    · have h1 : (j + 1) * size ≤ offset * size := Nat.mul_le_mul_right size hj
      have h2 : (j + 1) * size = j * size + size := by
        rw [Nat.add_mul, Nat.one_mul]
      omega
    · have h1 : (offset + n) * size ≤ j * size := Nat.mul_le_mul_right size hj
      have h2 : (offset + n) * size = offset * size + n * size := Nat.add_mul offset n size
      omega
  simp only [memmove, hout, if_false]

/-! ## `set`: the length check (C1) -/

/-- C1: a `set` call that reaches the length check with a typed-array source or a fast array
source - the receiver is a typed array, the offset converts to a small integer `offset >= 0`
in the world `w1`, and the receiver (and a typed-array source) is attached there - throws the
RangeError `kTypedArraySetSourceTooLarge` whenever `offset + source.length > target.length`,
and does nothing else: the world is the one the conversion of the offset left (`w`
itself for a numeric or omitted offset) and no call is made after the conversion, so no byte
of the target is written. -/
theorem set_source_too_large (host : Host) (arch : Arch) (target : JSTypedArray)
    (args : List Value) (w w1 : World) (tr : List Event) (offset : Nat)
    (hcoerce : ToInteger_Inline host (GetOptionalArgumentValue args 1 (.smi 0)) w
      = ⟨w1, tr, .normal (.finite (offset : Int))⟩)
    (hoffset : offset ≤ Smi.kMaxValue arch)
    (htarget : target.length ≤ Smi.kMaxValue arch)
    (hattached : IsDetachedBuffer w1 target.buffer = false)
    (hsource :
      (∃ source, GetOptionalArgumentValue args 0 .undefined = .typedArray source ∧
        IsDetachedBuffer w1 source.buffer = false ∧ source.length ≤ Smi.kMaxValue arch ∧
        target.length < offset + source.length) ∨
      (∃ source, GetOptionalArgumentValue args 0 .undefined = .jsArray source ∧
        (w1.js_arrays source).is_fast = true ∧
        (w1.js_arrays source).length ≤ Smi.kMaxValue arch ∧
        target.length < offset + (w1.js_arrays source).length)) :
    TypedArrayPrototypeSet host arch (.typedArray target) args w
      = ⟨w1, tr, .throw (.RangeError .kTypedArraySetSourceTooLarge)⟩ := by
  have hpos : TaggedIsPositiveSmi arch (.finite (offset : Int)) = true := by
    simp [TaggedIsPositiveSmi, hoffset]
  rcases hsource with ⟨source, harg, hsatt, hslen, hlarge⟩ | ⟨source, harg, hfast, hslen, hlarge⟩
  · have hcheck := IntPtrGreaterThan_IntPtrAdd arch source.length offset target.length
      hslen hoffset htarget
    have hdec : decide (target.length < source.length + offset) = true := by
      simp; omega
    simp [TypedArrayPrototypeSet, hcoerce, Outcome.andThen, Outcome.after, hpos,
      ThrowIfArrayBufferViewBufferIsDetached, ThrowIfArrayBufferIsDetached, hattached, hsatt,
      harg, Return, Throw, SetTypedArraySource, SmiUntag, hcheck, hdec, SetContinue]
  · have hcheck := IntPtrGreaterThan_IntPtrAdd arch (w1.js_arrays source).length offset
      target.length hslen hoffset htarget
    have hdec : decide (target.length < (w1.js_arrays source).length + offset) = true := by
      simp; omega
    simp [TypedArrayPrototypeSet, hcoerce, Outcome.andThen, Outcome.after, hpos,
      ThrowIfArrayBufferViewBufferIsDetached, ThrowIfArrayBufferIsDetached, hattached, hfast,
      harg, Return, Throw, SetJSArraySource, SmiUntag, hcheck, hdec, SetContinue]

/-- C1, an instance: a three-element source does not fit a two-element target at offset 0. -/
theorem set_source_too_large_witness :
    TypedArrayPrototypeSet exampleHost .x64 (.typedArray (exampleInt8Array 1 1 0 2))
        [.typedArray (exampleInt8Array 2 2 0 3)] exampleWorld
      = ⟨exampleWorld, [], .throw (.RangeError .kTypedArraySetSourceTooLarge)⟩ :=
  set_source_too_large exampleHost .x64 (exampleInt8Array 1 1 0 2)
    [.typedArray (exampleInt8Array 2 2 0 3)] exampleWorld exampleWorld [] 0 rfl
    (by decide) (by decide) rfl
    (Or.inl ⟨exampleInt8Array 2 2 0 3, rfl, rfl, by decide, by decide⟩)

/-! ## `set`: mixing big-integer and numeric kinds (C2) -/

/-- C2, as stated, fails: with a `BigInt64Array` source of three elements and an attached
`Int8Array` target of two elements, `set` at offset 0 throws the RangeError of the length
check, which comes first, and not a TypeError. -/
theorem set_mixed_bigint_counterexample :
    IsBigInt64ElementsKind (exampleTypedArray .BIGINT64_ELEMENTS 2 2 0 3).elements_kind = true ∧
    IsBigInt64ElementsKind (exampleInt8Array 1 1 0 2).elements_kind = false ∧
    IsDetachedBuffer exampleWorld (exampleTypedArray .BIGINT64_ELEMENTS 2 2 0 3).buffer = false ∧
    IsDetachedBuffer exampleWorld (exampleInt8Array 1 1 0 2).buffer = false ∧
    (TypedArrayPrototypeSet exampleHost .x64 (.typedArray (exampleInt8Array 1 1 0 2))
        [.typedArray (exampleTypedArray .BIGINT64_ELEMENTS 2 2 0 3), .smi 0] exampleWorld).result
      = .throw (.RangeError .kTypedArraySetSourceTooLarge) ∧
    ∀ message,
      (TypedArrayPrototypeSet exampleHost .x64 (.typedArray (exampleInt8Array 1 1 0 2))
        [.typedArray (exampleTypedArray .BIGINT64_ELEMENTS 2 2 0 3), .smi 0] exampleWorld).result
      ≠ .throw (.TypeError message) := by
  have hrun :
      (TypedArrayPrototypeSet exampleHost .x64 (.typedArray (exampleInt8Array 1 1 0 2))
        [.typedArray (exampleTypedArray .BIGINT64_ELEMENTS 2 2 0 3), .smi 0] exampleWorld).result
      = .throw (.RangeError .kTypedArraySetSourceTooLarge) := by
    rfl
  refine ⟨rfl, rfl, rfl, rfl, hrun, ?_⟩
  intro message h
  rw [hrun] at h
  cases h

/-- C2, amended: when exactly one of source and target has a big-integer kind, both are
attached once the offset is converted, the offset is a small integer `offset >= 0` and the
length check passes (`offset + source.length <= target.length`), `set` throws the TypeError
`kBigIntMixedTypes` and does nothing else: the world is the one the conversion of the offset
left and no call is made after it, so nothing is written to the target. -/
theorem set_mixed_bigint_throws (host : Host) (arch : Arch) (source target : JSTypedArray)
    (args : List Value) (w w1 : World) (tr : List Event) (offset : Nat)
    (hcoerce : ToInteger_Inline host (GetOptionalArgumentValue args 1 (.smi 0)) w
      = ⟨w1, tr, .normal (.finite (offset : Int))⟩)
    (hoffset : offset ≤ Smi.kMaxValue arch)
    (harg : GetOptionalArgumentValue args 0 .undefined = .typedArray source)
    (htarget : IsDetachedBuffer w1 target.buffer = false)
    (hsource : IsDetachedBuffer w1 source.buffer = false)
    (hslen : source.length ≤ Smi.kMaxValue arch)
    (htlen : target.length ≤ Smi.kMaxValue arch)
    (hfits : offset + source.length ≤ target.length)
    (hmixed : IsBigInt64ElementsKind source.elements_kind
      ≠ IsBigInt64ElementsKind target.elements_kind) :
    TypedArrayPrototypeSet host arch (.typedArray target) args w
      = ⟨w1, tr, .throw (.TypeError .kBigIntMixedTypes)⟩ := by
  have hpos : TaggedIsPositiveSmi arch (.finite (offset : Int)) = true := by
    simp [TaggedIsPositiveSmi, hoffset]
  have hcheck := IntPtrGreaterThan_IntPtrAdd arch source.length offset target.length
    hslen hoffset htlen
  have hdec : decide (target.length < source.length + offset) = false := by
    simp; omega
  have hne : source.elements_kind ≠ target.elements_kind := by
    intro h
    exact hmixed (by rw [h])
  have huint8 : ¬ (IsUint8ElementsKind source.elements_kind = true ∧
      IsUint8ElementsKind target.elements_kind = true) := by
    rintro ⟨hs, ht⟩
    exact hmixed (by
      rw [IsUint8ElementsKind_not_bigint _ hs, IsUint8ElementsKind_not_bigint _ ht])
  have hbne : (IsBigInt64ElementsKind source.elements_kind
      != IsBigInt64ElementsKind target.elements_kind) = true := by
    simpa using hmixed
  by_cases hs : IsUint8ElementsKind source.elements_kind = true
  · have ht : IsUint8ElementsKind target.elements_kind = false := by
      cases h : IsUint8ElementsKind target.elements_kind
      · rfl
      · exact absurd ⟨hs, h⟩ huint8
    simp [TypedArrayPrototypeSet, hcoerce, Outcome.andThen, Outcome.after, hpos,
      ThrowIfArrayBufferViewBufferIsDetached, ThrowIfArrayBufferIsDetached, htarget, hsource,
      harg, Return, Throw, SetTypedArraySource, SmiUntag, hcheck, hdec, hne, hs, ht, hbne]
  · have hs' : IsUint8ElementsKind source.elements_kind = false := by
      simpa using hs
    simp [TypedArrayPrototypeSet, hcoerce, Outcome.andThen, Outcome.after, hpos,
      ThrowIfArrayBufferViewBufferIsDetached, ThrowIfArrayBufferIsDetached, htarget, hsource,
      harg, Return, Throw, SetTypedArraySource, SmiUntag, hcheck, hdec, hne, hs', hbne]

/-- C2, amended, an instance: a one-element `BigInt64Array` set into a two-element
`Int8Array` at offset 1. -/
theorem set_mixed_bigint_throws_witness :
    TypedArrayPrototypeSet exampleHost .x64 (.typedArray (exampleInt8Array 1 1 0 2))
        [.typedArray (exampleTypedArray .BIGINT64_ELEMENTS 2 2 0 1), .smi 1] exampleWorld
      = ⟨exampleWorld, [], .throw (.TypeError .kBigIntMixedTypes)⟩ :=
  set_mixed_bigint_throws exampleHost .x64 (exampleTypedArray .BIGINT64_ELEMENTS 2 2 0 1)
    (exampleInt8Array 1 1 0 2)
    [.typedArray (exampleTypedArray .BIGINT64_ELEMENTS 2 2 0 1), .smi 1] exampleWorld
    exampleWorld [] 1 rfl (by decide) rfl rfl rfl (by decide) (by decide) (by decide)
    (by decide)

/-! ## `set`: the overlap-safety law (C3) -/

/-- What `set` does on the `memmove` path: with an attached source of the same kind as the
attached target, a small-integer (or omitted) offset and a source that fits, it returns
`undefined` after the single call `memmove(target_start, source_data_ptr, byte_length)` with
`target_start = target.data_ptr + offset * size` and `byte_length = source.length * size`. -/
theorem set_same_kind_run (host : Host) (arch : Arch) (source target : JSTypedArray)
    (args : List Value) (w : World) (offset : Nat)
    (hoffarg : GetOptionalArgumentValue args 1 (.smi 0) = .smi (offset : Int))
    (harg : GetOptionalArgumentValue args 0 .undefined = .typedArray source)
    (hkind : source.elements_kind = target.elements_kind)
    (htarget : IsDetachedBuffer w target.buffer = false)
    (hsource : IsDetachedBuffer w source.buffer = false)
    (hslen : source.length ≤ Smi.kMaxValue arch)
    (htlen : target.length ≤ Smi.kMaxValue arch)
    (hfits : offset + source.length ≤ target.length)
    (hspace_s : ElementsAddressable arch source)
    (hspace_t : ElementsAddressable arch target) :
    TypedArrayPrototypeSet host arch (.typedArray target) args w
      = ⟨{ w with memory := (memmove w.memory
            (target.data_ptr + offset * GetTypedArrayElementSize target.elements_kind)
            source.data_ptr
            (source.length * GetTypedArrayElementSize target.elements_kind)) },
         [.CallCMemmove
            (target.data_ptr + offset * GetTypedArrayElementSize target.elements_kind)
            source.data_ptr
            (source.length * GetTypedArrayElementSize target.elements_kind)],
         .normal .undefined⟩ := by
  have hoffset : offset ≤ Smi.kMaxValue arch := by omega
  have hpos : TaggedIsPositiveSmi arch (.finite (offset : Int)) = true := by
    simp [TaggedIsPositiveSmi, hoffset]
  have hcheck := IntPtrGreaterThan_IntPtrAdd arch source.length offset target.length
    hslen hoffset htlen
  have hdec : decide (target.length < source.length + offset) = false := by
    simp; omega
  unfold ElementsAddressable at hspace_s hspace_t
  rw [hkind] at hspace_s
  have hmul1 : offset * GetTypedArrayElementSize target.elements_kind
      ≤ target.length * GetTypedArrayElementSize target.elements_kind :=
    Nat.mul_le_mul_right _ (by omega)
  have hb : IntPtrMul arch source.length (GetTypedArrayElementSize target.elements_kind)
      = source.length * GetTypedArrayElementSize target.elements_kind :=
    Nat.mod_eq_of_lt (by omega)
  have ho : IntPtrMul arch offset (GetTypedArrayElementSize target.elements_kind)
      = offset * GetTypedArrayElementSize target.elements_kind :=
    Nat.mod_eq_of_lt (by omega)
  have hs : IntPtrAdd arch target.data_ptr
        (offset * GetTypedArrayElementSize target.elements_kind)
      = target.data_ptr + offset * GetTypedArrayElementSize target.elements_kind :=
    Nat.mod_eq_of_lt (by omega)
  simp [TypedArrayPrototypeSet, hoffarg, ToInteger_Inline, Outcome.andThen, Outcome.after, hpos,
    ThrowIfArrayBufferViewBufferIsDetached, ThrowIfArrayBufferIsDetached, htarget, hsource,
    harg, Return, SetTypedArraySource, SmiUntag, hcheck, hdec, hkind, SetContinue,
    CallCMemmove, LoadDataPtr, hb, ho, hs]

/-- C3: the overlap-safety law. For a source and a target of the same kind, however their byte
ranges lie to each other (in particular over the same buffer and overlapping), a successful
`target.set(source, offset)` leaves in the target elements `offset .. offset+source.length-1`
the elements the source had before the call, and leaves every other target element as it
was. -/
theorem set_overlap_safety (host : Host) (arch : Arch) (source target : JSTypedArray)
    (args : List Value) (w : World) (offset : Nat)
    (hoffarg : GetOptionalArgumentValue args 1 (.smi 0) = .smi (offset : Int))
    (harg : GetOptionalArgumentValue args 0 .undefined = .typedArray source)
    (hkind : source.elements_kind = target.elements_kind)
    (htarget : IsDetachedBuffer w target.buffer = false)
    (hsource : IsDetachedBuffer w source.buffer = false)
    (hslen : source.length ≤ Smi.kMaxValue arch)
    (htlen : target.length ≤ Smi.kMaxValue arch)
    (hfits : offset + source.length ≤ target.length)
    (hspace_s : ElementsAddressable arch source)
    (hspace_t : ElementsAddressable arch target) :
    (TypedArrayPrototypeSet host arch (.typedArray target) args w).result = .normal .undefined ∧
    (∀ i, i < source.length →
      LoadElementBytes (TypedArrayPrototypeSet host arch (.typedArray target) args w).world.memory
          target.data_ptr (offset + i) (GetTypedArrayElementSize target.elements_kind)
        = LoadElementBytes w.memory source.data_ptr i
            (GetTypedArrayElementSize source.elements_kind)) ∧
    (∀ j, j < target.length → (j < offset ∨ offset + source.length ≤ j) →
      LoadElementBytes (TypedArrayPrototypeSet host arch (.typedArray target) args w).world.memory
          target.data_ptr j (GetTypedArrayElementSize target.elements_kind)
        = LoadElementBytes w.memory target.data_ptr j
            (GetTypedArrayElementSize target.elements_kind)) := by
  rw [set_same_kind_run host arch source target args w offset hoffarg harg hkind htarget
    hsource hslen htlen hfits hspace_s hspace_t]
  refine ⟨rfl, ?_, ?_⟩
  · intro i hi
    rw [hkind]
    show LoadElementBytes (memmove _ _ _ _) _ _ _ = _
    rw [LoadElementBytes_add]
    exact memmove_LoadElementBytes_inside _ _ _ _ _ _ hi
  · intro j _ hj
    exact memmove_LoadElementBytes_outside _ _ _ _ _ _ _ hj

/-- C3, an instance with overlapping ranges: the eight-byte view at 8192 receives, at offset 3,
its own four-element subarray that starts at element 2. -/
theorem set_overlap_safety_witness :
    (TypedArrayPrototypeSet exampleHost .x64 (.typedArray (exampleInt8Array 1 1 0 8))
      [.typedArray (exampleInt8Array 2 1 2 4), .smi 3] exampleWorld).result = .normal .undefined ∧
    (∀ i, i < (exampleInt8Array 2 1 2 4).length →
      LoadElementBytes (TypedArrayPrototypeSet exampleHost .x64
            (.typedArray (exampleInt8Array 1 1 0 8))
            [.typedArray (exampleInt8Array 2 1 2 4), .smi 3] exampleWorld).world.memory
          (exampleInt8Array 1 1 0 8).data_ptr (3 + i)
          (GetTypedArrayElementSize (exampleInt8Array 1 1 0 8).elements_kind)
        = LoadElementBytes exampleWorld.memory (exampleInt8Array 2 1 2 4).data_ptr i
            (GetTypedArrayElementSize (exampleInt8Array 2 1 2 4).elements_kind)) ∧
    (∀ j, j < (exampleInt8Array 1 1 0 8).length →
      (j < 3 ∨ 3 + (exampleInt8Array 2 1 2 4).length ≤ j) →
      LoadElementBytes (TypedArrayPrototypeSet exampleHost .x64
            (.typedArray (exampleInt8Array 1 1 0 8))
            [.typedArray (exampleInt8Array 2 1 2 4), .smi 3] exampleWorld).world.memory
          (exampleInt8Array 1 1 0 8).data_ptr j
          (GetTypedArrayElementSize (exampleInt8Array 1 1 0 8).elements_kind)
        = LoadElementBytes exampleWorld.memory (exampleInt8Array 1 1 0 8).data_ptr j
            (GetTypedArrayElementSize (exampleInt8Array 1 1 0 8).elements_kind)) :=
  set_overlap_safety exampleHost .x64 (exampleInt8Array 2 1 2 4) (exampleInt8Array 1 1 0 8)
    [.typedArray (exampleInt8Array 2 1 2 4), .smi 3] exampleWorld 3 rfl rfl rfl rfl rfl
    (by decide) (by decide) (by decide) (by decide) (by decide)

/-! ## `set`: when the raw byte move is used (C4) -/

/-- C4: in `SetTypedArraySource`, once the length check has passed, `memmove` is called if and
only if the source and target kinds are equal or both are one of Uint8 and Uint8Clamped; and
whenever `memmove` is called, source and target are both of a big-integer kind or both of a
numeric kind, so no raw byte copy is made between a numeric and a big-integer view. -/
theorem set_memmove_iff (host : Host) (arch : Arch) (source target : JSTypedArray)
    (offset : Nat) (w : World)
    (hpass : IntPtrGreaterThan arch (IntPtrAdd arch source.length offset) target.length
      = false) :
    ((SetTypedArraySource host arch source target offset w).trace.any Event.isCallCMemmove = true
      ↔ (source.elements_kind = target.elements_kind ∨
          (IsUint8ElementsKind source.elements_kind = true ∧
           IsUint8ElementsKind target.elements_kind = true))) ∧
    ((SetTypedArraySource host arch source target offset w).trace.any Event.isCallCMemmove = true
      → IsBigInt64ElementsKind source.elements_kind
          = IsBigInt64ElementsKind target.elements_kind) := by
  have key : (SetTypedArraySource host arch source target offset w).trace.any
        Event.isCallCMemmove = true
      ↔ (source.elements_kind = target.elements_kind ∨
          (IsUint8ElementsKind source.elements_kind = true ∧
           IsUint8ElementsKind target.elements_kind = true)) := by
    by_cases hk : source.elements_kind = target.elements_kind
    · simp [SetTypedArraySource, hpass, hk, Outcome.andThen, Outcome.after, CallCMemmove,
        Return, Event.isCallCMemmove]
    · by_cases hs : IsUint8ElementsKind source.elements_kind = true
      · by_cases ht : IsUint8ElementsKind target.elements_kind = true
        · simp [SetTypedArraySource, hpass, hk, hs, ht, Outcome.andThen, Outcome.after,
            CallCMemmove, Return, Event.isCallCMemmove]
        · have ht' : IsUint8ElementsKind target.elements_kind = false := by simpa using ht
          by_cases hb : IsBigInt64ElementsKind source.elements_kind
              = IsBigInt64ElementsKind target.elements_kind
          · simp [SetTypedArraySource, hpass, hk, hs, ht', hb, Outcome.andThen, Outcome.after,
              CallCCopyTypedArrayElementsToTypedArray, Return, Event.isCallCMemmove]
          · have hb' : (IsBigInt64ElementsKind source.elements_kind
                != IsBigInt64ElementsKind target.elements_kind) = true := by simpa using hb
            simp [SetTypedArraySource, hpass, hk, hs, ht', hb', Throw]
      · have hs' : IsUint8ElementsKind source.elements_kind = false := by simpa using hs
        by_cases hb : IsBigInt64ElementsKind source.elements_kind
            = IsBigInt64ElementsKind target.elements_kind
        · simp [SetTypedArraySource, hpass, hk, hs', hb, Outcome.andThen, Outcome.after,
            CallCCopyTypedArrayElementsToTypedArray, Return, Event.isCallCMemmove]
        · have hb' : (IsBigInt64ElementsKind source.elements_kind
              != IsBigInt64ElementsKind target.elements_kind) = true := by simpa using hb
          simp [SetTypedArraySource, hpass, hk, hs', hb', Throw]
  refine ⟨key, ?_⟩
  intro h
  rcases key.mp h with hk | ⟨hs, ht⟩
  · rw [hk]
  · rw [IsUint8ElementsKind_not_bigint _ hs, IsUint8ElementsKind_not_bigint _ ht]

/-- C4, an instance: a Uint8 source and a Uint8Clamped target of the same length. -/
theorem set_memmove_iff_witness :
    ((SetTypedArraySource exampleHost .x64 (exampleTypedArray .UINT8_ELEMENTS 2 2 0 4)
        (exampleTypedArray .UINT8_CLAMPED_ELEMENTS 1 1 0 4) 0 exampleWorld).trace.any
        Event.isCallCMemmove = true
      ↔ ((exampleTypedArray .UINT8_ELEMENTS 2 2 0 4).elements_kind
            = (exampleTypedArray .UINT8_CLAMPED_ELEMENTS 1 1 0 4).elements_kind ∨
          (IsUint8ElementsKind (exampleTypedArray .UINT8_ELEMENTS 2 2 0 4).elements_kind = true ∧
           IsUint8ElementsKind
             (exampleTypedArray .UINT8_CLAMPED_ELEMENTS 1 1 0 4).elements_kind = true))) ∧
    ((SetTypedArraySource exampleHost .x64 (exampleTypedArray .UINT8_ELEMENTS 2 2 0 4)
        (exampleTypedArray .UINT8_CLAMPED_ELEMENTS 1 1 0 4) 0 exampleWorld).trace.any
        Event.isCallCMemmove = true
      → IsBigInt64ElementsKind (exampleTypedArray .UINT8_ELEMENTS 2 2 0 4).elements_kind
          = IsBigInt64ElementsKind
              (exampleTypedArray .UINT8_CLAMPED_ELEMENTS 1 1 0 4).elements_kind) :=
  set_memmove_iff exampleHost .x64 (exampleTypedArray .UINT8_ELEMENTS 2 2 0 4)
    (exampleTypedArray .UINT8_CLAMPED_ELEMENTS 1 1 0 4) 0 exampleWorld (by decide)

/-! ## The getters (C5) -/

/-- C5: on a typed array the `length`, `byteLength` and `byteOffset` getters return 0 when the
buffer of the view is detached, whatever the view stores, and otherwise the stored length,
byte length and byte offset: the number returned for a stored word `n` has the value `n`. None
of them changes the world or calls out. -/
theorem getters_default_to_zero (arch : Arch) (a : JSTypedArray) (w : World) :
    TypedArrayPrototypeLength (.typedArray a) w
      = ⟨w, [], .normal (.smi (if IsDetachedBuffer w a.buffer = true then 0
          else (a.length : Int)))⟩ ∧
    TypedArrayPrototypeByteLength arch (.typedArray a) w
      = ⟨w, [], .normal (ChangeUintPtrToTagged arch
          (if IsDetachedBuffer w a.buffer = true then 0 else a.byte_length))⟩ ∧
    TypedArrayPrototypeByteOffset arch (.typedArray a) w
      = ⟨w, [], .normal (ChangeUintPtrToTagged arch
          (if IsDetachedBuffer w a.buffer = true then 0 else a.byte_offset))⟩ ∧
    ChangeUintPtrToTagged arch 0 = .smi 0 ∧
    ∀ n : Nat, NumberValue (ChangeUintPtrToTagged arch n) = some (n : Int) := by
  refine ⟨?_, ?_, ?_, ?_, ?_⟩
  · cases h : IsDetachedBuffer w a.buffer <;>
      simp [TypedArrayPrototypeLength, ThrowIfNotInstanceType, Outcome.andThen, Outcome.after,
        Return, h]
  · simp [TypedArrayPrototypeByteLength, ThrowIfNotInstanceType, Outcome.andThen, Outcome.after,
      Return]
  · simp [TypedArrayPrototypeByteOffset, ThrowIfNotInstanceType, Outcome.andThen, Outcome.after,
      Return]
  · simp [ChangeUintPtrToTagged]
  · intro n
    unfold ChangeUintPtrToTagged
    split <;> simp [NumberValue]

/-! ## Receivers with a detached buffer (C6) -/

/-- What the conversion of an argument leaves: nothing for a number, one host call otherwise. -/
theorem ToInteger_Inline_normal (host : Host) (v : Value) (w w1 : World) (tr : List Event)
    (x : Integer) (h : ToInteger_Inline host v w = ⟨w1, tr, .normal x⟩) :
    (w1 = w ∧ tr = []) ∨ (w1 = (host.ToInteger v w).1 ∧ tr = [.ToInteger v]) := by
  cases v with
  | smi n =>
    left
    simp only [ToInteger_Inline, Return, Outcome.mk.injEq] at h
    exact ⟨h.1.symm, h.2.1.symm⟩
  | heapNumber y =>
    left
    simp only [ToInteger_Inline, Return, Outcome.mk.injEq] at h
    exact ⟨h.1.symm, h.2.1.symm⟩
  | _ =>
    right
    simp only [ToInteger_Inline, fromHost] at h
    split at h <;> simp only [Outcome.mk.injEq] at h
    · exact ⟨h.1.symm, h.2.1.symm⟩
    · exact absurd h.2.2 (by simp)

/-- C6, as stated, fails for `set`: on a receiver whose buffer is detached, `set` with the
offset -1 throws the RangeError of the offset check, which comes before the detached check. -/
theorem detached_receiver_counterexample :
    IsDetachedBuffer detachedWorld (exampleInt8Array 1 7 0 2).buffer = true ∧
    (TypedArrayPrototypeSet exampleHost .x64 (.typedArray (exampleInt8Array 1 7 0 2))
        [.undefined, .smi (-1)] detachedWorld).result
      = .throw (.RangeError .kTypedArraySetOffsetOutOfBounds) ∧
    (TypedArrayPrototypeSet exampleHost .x64 (.typedArray (exampleInt8Array 1 7 0 2))
        [.undefined, .smi (-1)] detachedWorld).result
      ≠ .throw (.TypeError .kDetachedOperation) := by
  refine ⟨rfl, rfl, ?_⟩
  intro h
  have hrun : (TypedArrayPrototypeSet exampleHost .x64 (.typedArray (exampleInt8Array 1 7 0 2))
        [.undefined, .smi (-1)] detachedWorld).result
      = .throw (.RangeError .kTypedArraySetOffsetOutOfBounds) := rfl
  rw [hrun] at h
  cases h

/-- C6, amended: on a receiver whose buffer is detached at the call, `slice` and `filter` throw
the TypeError `kDetachedOperation` for every argument list, before anything else happens (the
world is unchanged and no call is made); `set` throws it whenever its offset converts to a
non-negative small integer, and throws the RangeError of its offset check, which comes first,
when the offset converts to a negative integer; `set` makes no call but that conversion, so
none of the three reads or writes element memory. (A detached buffer stays detached across the
conversion.) -/
theorem detached_receiver_throws (host : Host) (arch : Arch) (a : JSTypedArray)
    (args : List Value) (w : World) (hdetached : IsDetachedBuffer w a.buffer = true) :
    TypedArrayPrototypeSlice host arch (.typedArray a) args w
      = ⟨w, [], .throw (.TypeError .kDetachedOperation)⟩ ∧
    TypedArrayPrototypeFilter host (.typedArray a) args w
      = ⟨w, [], .throw (.TypeError .kDetachedOperation)⟩ ∧
    (KeepsDetached host a.buffer →
      ∀ w1 tr x,
        ToInteger_Inline host (GetOptionalArgumentValue args 1 (.smi 0)) w
          = ⟨w1, tr, .normal x⟩ →
        tr.any Event.accessesElements = false ∧
        (TaggedIsPositiveSmi arch x = true →
          TypedArrayPrototypeSet host arch (.typedArray a) args w
            = ⟨w1, tr, .throw (.TypeError .kDetachedOperation)⟩) ∧
        ((x = .negInf ∨ ∃ i, x = .finite i ∧ i < 0) →
          TypedArrayPrototypeSet host arch (.typedArray a) args w
            = ⟨w1, tr, .throw (.RangeError .kTypedArraySetOffsetOutOfBounds)⟩)) := by
  refine ⟨?_, ?_, ?_⟩
  · simp [TypedArrayPrototypeSlice, ValidateTypedArray, ThrowIfNotInstanceType,
      ThrowIfArrayBufferViewBufferIsDetached, ThrowIfArrayBufferIsDetached, hdetached,
      Outcome.andThen, Outcome.after, Return, Throw]
  · simp [TypedArrayPrototypeFilter, ValidateTypedArray, ThrowIfNotInstanceType,
      ThrowIfArrayBufferViewBufferIsDetached, ThrowIfArrayBufferIsDetached, hdetached,
      Outcome.andThen, Outcome.after, Return, Throw]
  · intro hkeeps w1 tr x hcoerce
    have hstill : IsDetachedBuffer w1 a.buffer = true ∧ tr.any Event.accessesElements = false := by
      rcases ToInteger_Inline_normal host _ w w1 tr x hcoerce with ⟨hw, ht⟩ | ⟨hw, ht⟩
      · subst hw ht
        exact ⟨hdetached, rfl⟩
      · subst hw ht
        exact ⟨hkeeps _ w hdetached, rfl⟩
    refine ⟨hstill.2, ?_, ?_⟩
    · intro hpos
      simp [TypedArrayPrototypeSet, hcoerce, hpos, ThrowIfArrayBufferViewBufferIsDetached,
        ThrowIfArrayBufferIsDetached, hstill.1, Outcome.andThen, Outcome.after, Throw]
    · intro hneg
      have hnot : TaggedIsPositiveSmi arch x = false := by
        rcases hneg with h | ⟨i, h, hi⟩
        · subst h; rfl
        · subst h
          simp only [TaggedIsPositiveSmi, Bool.and_eq_false_iff, decide_eq_false_iff_not]
          omega
      simp [TypedArrayPrototypeSet, hcoerce, hnot, Outcome.andThen, Outcome.after, Throw]

/-- C6, amended, an instance: `slice`, `filter` and `set` with offset 1 on a view over the
detached buffer 7. -/
theorem detached_receiver_throws_witness :
    TypedArrayPrototypeSlice exampleHost .x64 (.typedArray (exampleInt8Array 1 7 0 2))
        [.smi 0, .smi 1] detachedWorld
      = ⟨detachedWorld, [], .throw (.TypeError .kDetachedOperation)⟩ ∧
    TypedArrayPrototypeFilter exampleHost (.typedArray (exampleInt8Array 1 7 0 2))
        [.smi 0, .smi 1] detachedWorld
      = ⟨detachedWorld, [], .throw (.TypeError .kDetachedOperation)⟩ ∧
    TypedArrayPrototypeSet exampleHost .x64 (.typedArray (exampleInt8Array 1 7 0 2))
        [.smi 0, .smi 1] detachedWorld
      = ⟨detachedWorld, [], .throw (.TypeError .kDetachedOperation)⟩ :=
  have h := detached_receiver_throws exampleHost .x64 (exampleInt8Array 1 7 0 2)
    [.smi 0, .smi 1] detachedWorld rfl
  ⟨h.1, h.2.1, (h.2.2 (fun _ _ hd => hd) detachedWorld [] (.finite 1) rfl).2.1 rfl⟩

/-! ## `set`: the offset check (C7) -/

theorem NotOffsetOutOfBounds_Return {α : Type} (v : α) (w : World) :
    NotOffsetOutOfBounds (Return v w) := by
  simp [NotOffsetOutOfBounds, Return]

theorem NotOffsetOutOfBounds_fromHost {α : Type} (e : Event) (r : World × HostCompletion α) :
    NotOffsetOutOfBounds (fromHost e r) := by
  unfold NotOffsetOutOfBounds fromHost
  split <;> simp

theorem NotOffsetOutOfBounds_andThen {α β : Type} (o : Outcome α) (k : α → World → Outcome β)
    (ho : NotOffsetOutOfBounds o) (hk : ∀ v w, NotOffsetOutOfBounds (k v w)) :
    NotOffsetOutOfBounds (o.andThen k) := by
  unfold NotOffsetOutOfBounds Outcome.andThen at *
  split
  · rename_i e he
    simpa [he] using ho
  · rename_i v hv
    exact hk v o.world

theorem NotOffsetOutOfBounds_SetTypedArraySource (host : Host) (arch : Arch)
    (source target : JSTypedArray) (offset : Nat) (w : World) :
    NotOffsetOutOfBounds (SetTypedArraySource host arch source target offset w) := by
  unfold SetTypedArraySource
  simp only []
  split_ifs <;>
    first
    | exact NotOffsetOutOfBounds_Return _ _
    | (apply NotOffsetOutOfBounds_andThen
       · simp [NotOffsetOutOfBounds, CallCMemmove, CallCCopyTypedArrayElementsToTypedArray]
       · intro _ _
         exact NotOffsetOutOfBounds_Return _ _)
    | simp [NotOffsetOutOfBounds, Throw]

theorem NotOffsetOutOfBounds_SetJSArraySource (host : Host) (arch : Arch) (source : Nat)
    (target : JSTypedArray) (offset : Nat) (w : World) :
    NotOffsetOutOfBounds (SetJSArraySource host arch source target offset w) := by
  unfold SetJSArraySource
  simp only []
  split_ifs <;> try exact NotOffsetOutOfBounds_Return _ _
  all_goals
    split <;>
      first
      | exact NotOffsetOutOfBounds_Return _ _
      | (apply NotOffsetOutOfBounds_andThen
         · simp [NotOffsetOutOfBounds, CallCCopyFastNumberJSArrayElementsToTypedArray]
         · intro _ _
           exact NotOffsetOutOfBounds_Return _ _)

theorem NotOffsetOutOfBounds_SetContinue (host : Host) (receiver : JSTypedArray)
    (source : Value) (offset_smi : Nat) (exit : SetSourceExit) (w : World) :
    NotOffsetOutOfBounds (SetContinue host receiver source offset_smi exit w) := by
  cases exit
  · exact NotOffsetOutOfBounds_Return _ _
  · exact NotOffsetOutOfBounds_fromHost _ _
  · simp [NotOffsetOutOfBounds, SetContinue, Throw]

/-- The part of `set` after the offset check never throws the RangeError of the offset
check. -/
theorem NotOffsetOutOfBounds_after_check (host : Host) (arch : Arch) (receiver : JSTypedArray)
    (source : Value) (offset_smi : Nat) (w : World) :
    NotOffsetOutOfBounds
      ((ThrowIfArrayBufferViewBufferIsDetached receiver w).andThen fun _ w =>
        match source with
        | .typedArray source_array =>
          (ThrowIfArrayBufferViewBufferIsDetached source_array w).andThen fun _ w =>
            (SetTypedArraySource host arch source_array receiver offset_smi w).andThen
              (SetContinue host receiver source offset_smi)
        | .jsArray source_array =>
          if (w.js_arrays source_array).is_fast then
            (SetJSArraySource host arch source_array receiver offset_smi w).andThen
              (SetContinue host receiver source offset_smi)
          else SetCallRuntime host receiver source offset_smi w
        | _ => SetCallRuntime host receiver source offset_smi w) := by
  have hdet : ∀ (a : JSTypedArray) (w : World),
      NotOffsetOutOfBounds (ThrowIfArrayBufferViewBufferIsDetached a w) := by
    intro a w
    unfold ThrowIfArrayBufferViewBufferIsDetached ThrowIfArrayBufferIsDetached
    split_ifs
    · simp [NotOffsetOutOfBounds, Throw]
    · exact NotOffsetOutOfBounds_Return _ _
  apply NotOffsetOutOfBounds_andThen _ _ (hdet _ _)
  intro _ w2
  split
  · apply NotOffsetOutOfBounds_andThen _ _ (hdet _ _)
    intro _ w3
    exact NotOffsetOutOfBounds_andThen _ _
      (NotOffsetOutOfBounds_SetTypedArraySource _ _ _ _ _ _)
      (fun _ _ => NotOffsetOutOfBounds_SetContinue _ _ _ _ _ _)
  · split_ifs
    · exact NotOffsetOutOfBounds_andThen _ _
        (NotOffsetOutOfBounds_SetJSArraySource _ _ _ _ _ _)
        (fun _ _ => NotOffsetOutOfBounds_SetContinue _ _ _ _ _ _)
    · exact NotOffsetOutOfBounds_fromHost _ _
  · exact NotOffsetOutOfBounds_fromHost _ _

/-- C7: on a typed-array receiver, `set` throws the RangeError `kTypedArraySetOffsetOutOfBounds`
whenever the converted offset is not a non-negative small integer - it is an infinity, is
negative or exceeds `Smi::kMaxValue` - and it does so right after the conversion. An omitted
offset is treated as 0: the call is the call with the explicit offset 0, and it never throws
that RangeError. -/
theorem set_offset_out_of_bounds (host : Host) (arch : Arch) (a : JSTypedArray)
    (args : List Value) (w : World) :
    (∀ w1 tr x,
      ToInteger_Inline host (GetOptionalArgumentValue args 1 (.smi 0)) w
        = ⟨w1, tr, .normal x⟩ →
      (x = .negInf ∨ x = .posInf ∨
        ∃ i, x = .finite i ∧ (i < 0 ∨ (Smi.kMaxValue arch : Int) < i)) →
      TypedArrayPrototypeSet host arch (.typedArray a) args w
        = ⟨w1, tr, .throw (.RangeError .kTypedArraySetOffsetOutOfBounds)⟩) ∧
    (args.length ≤ 1 →
      TypedArrayPrototypeSet host arch (.typedArray a) args w
        = TypedArrayPrototypeSet host arch (.typedArray a)
            [GetOptionalArgumentValue args 0 .undefined, .smi 0] w ∧
      (TypedArrayPrototypeSet host arch (.typedArray a) args w).result
        ≠ .throw (.RangeError .kTypedArraySetOffsetOutOfBounds)) := by
  constructor
  · intro w1 tr x hcoerce hbad
    have hneg : TaggedIsPositiveSmi arch x = false := by
      rcases hbad with h | h | ⟨i, h, hi⟩
      · subst h; rfl
      · subst h; rfl
      · subst h
        simp only [TaggedIsPositiveSmi, Bool.and_eq_false_iff, decide_eq_false_iff_not]
        omega
    simp [TypedArrayPrototypeSet, hcoerce, hneg, Outcome.andThen, Outcome.after, Throw]
  · intro hlen
    have hoff : GetOptionalArgumentValue args 1 (.smi 0) = .smi 0 := by
      match args, hlen with
      | [], _ => rfl
      | [_], _ => rfl
    have hsrc : GetOptionalArgumentValue
        [GetOptionalArgumentValue args 0 .undefined, .smi 0] 0 .undefined
        = GetOptionalArgumentValue args 0 .undefined := rfl
    have hoff2 : GetOptionalArgumentValue
        [GetOptionalArgumentValue args 0 .undefined, .smi 0] 1 (.smi 0) = .smi 0 := rfl
    have hpos : TaggedIsPositiveSmi arch (.finite 0) = true := by
      simp [TaggedIsPositiveSmi]
    constructor
    · simp only [TypedArrayPrototypeSet, hoff, hsrc, hoff2]
    · have h := NotOffsetOutOfBounds_after_check host arch a
        (GetOptionalArgumentValue args 0 .undefined) (SmiUntag (.finite 0)) w
      unfold NotOffsetOutOfBounds at h
      simpa [TypedArrayPrototypeSet, hoff, ToInteger_Inline, Return, Outcome.andThen,
        Outcome.after, hpos] using h

/-- C7, an instance: the offset 2147483648 exceeds the largest small integer of a 64-bit
platform, and a call without offset is not rejected by the offset check. -/
theorem set_offset_out_of_bounds_witness :
    TypedArrayPrototypeSet exampleHost .x64 (.typedArray (exampleInt8Array 1 1 0 2))
        [.undefined, .smi 2147483648] exampleWorld
      = ⟨exampleWorld, [], .throw (.RangeError .kTypedArraySetOffsetOutOfBounds)⟩ ∧
    (TypedArrayPrototypeSet exampleHost .x64 (.typedArray (exampleInt8Array 1 1 0 2))
        [.typedArray (exampleInt8Array 2 2 0 1)] exampleWorld).result
      ≠ .throw (.RangeError .kTypedArraySetOffsetOutOfBounds) :=
  ⟨(set_offset_out_of_bounds exampleHost .x64 (exampleInt8Array 1 1 0 2)
      [.undefined, .smi 2147483648] exampleWorld).1 exampleWorld [] (.finite 2147483648) rfl
      (Or.inr (Or.inr ⟨2147483648, rfl, Or.inr (by decide)⟩)),
   ((set_offset_out_of_bounds exampleHost .x64 (exampleInt8Array 1 1 0 2)
      [.typedArray (exampleInt8Array 2 2 0 1)] exampleWorld).2 (by decide)).2⟩

/-! ## Receivers that are not typed arrays (C8) -/

/-- C8: when the receiver is not a typed array (a small integer included), each of the
`length`, `byteLength` and `byteOffset` getters, `set`, `slice`, `subarray`, `filter` and
`values`/`entries`/`keys` throws a TypeError at once: the world is unchanged and the trace is
empty, so no argument has been coerced and no callback called. -/
theorem non_typed_array_receiver_throws (host : Host) (arch : Arch) (receiver : Value)
    (args : List Value) (w : World) (hreceiver : ∀ a, receiver ≠ .typedArray a) :
    TypedArrayPrototypeLength receiver w
      = ⟨w, [], .throw (.TypeError .kIncompatibleMethodReceiver)⟩ ∧
    TypedArrayPrototypeByteLength arch receiver w
      = ⟨w, [], .throw (.TypeError .kIncompatibleMethodReceiver)⟩ ∧
    TypedArrayPrototypeByteOffset arch receiver w
      = ⟨w, [], .throw (.TypeError .kIncompatibleMethodReceiver)⟩ ∧
    TypedArrayPrototypeSet host arch receiver args w
      = ⟨w, [], .throw (.TypeError .kNotTypedArray)⟩ ∧
    TypedArrayPrototypeSlice host arch receiver args w
      = ⟨w, [], .throw (.TypeError .kIncompatibleMethodReceiver)⟩ ∧
    TypedArrayPrototypeSubArray host arch receiver args w
      = ⟨w, [], .throw (.TypeError .kIncompatibleMethodReceiver)⟩ ∧
    TypedArrayPrototypeFilter host receiver args w
      = ⟨w, [], .throw (.TypeError .kIncompatibleMethodReceiver)⟩ ∧
    TypedArrayPrototypeValues receiver w = ⟨w, [], .throw (.TypeError .kNotTypedArray)⟩ ∧
    TypedArrayPrototypeEntries receiver w = ⟨w, [], .throw (.TypeError .kNotTypedArray)⟩ ∧
    TypedArrayPrototypeKeys receiver w = ⟨w, [], .throw (.TypeError .kNotTypedArray)⟩ := by
  cases receiver with
  | typedArray a => exact absurd rfl (hreceiver a)
  | _ =>
    simp [TypedArrayPrototypeLength, TypedArrayPrototypeByteLength,
      TypedArrayPrototypeByteOffset, TypedArrayPrototypeSet, TypedArrayPrototypeSlice,
      TypedArrayPrototypeSubArray, TypedArrayPrototypeFilter, TypedArrayPrototypeValues,
      TypedArrayPrototypeEntries, TypedArrayPrototypeKeys,
      GenerateTypedArrayPrototypeIterationMethod, ValidateTypedArray, ThrowIfNotInstanceType,
      Outcome.andThen, Throw]

/-- C8, an instance: the small integer 5 as receiver. -/
theorem non_typed_array_receiver_throws_witness :
    TypedArrayPrototypeLength (.smi 5) exampleWorld
      = ⟨exampleWorld, [], .throw (.TypeError .kIncompatibleMethodReceiver)⟩ ∧
    TypedArrayPrototypeSet exampleHost .x64 (.smi 5) [.smi 1, .heapObject 3] exampleWorld
      = ⟨exampleWorld, [], .throw (.TypeError .kNotTypedArray)⟩ ∧
    TypedArrayPrototypeFilter exampleHost (.smi 5) [.smi 1, .heapObject 3] exampleWorld
      = ⟨exampleWorld, [], .throw (.TypeError .kIncompatibleMethodReceiver)⟩ :=
  have h := non_typed_array_receiver_throws exampleHost .x64 (.smi 5)
    [.smi 1, .heapObject 3] exampleWorld (fun _ hne => Value.noConfusion hne)
  ⟨h.1, h.2.2.2.1, h.2.2.2.2.2.2.1⟩

/-! ## `slice`: the indices (C9) -/

/-- C9: for a source of length `n` and integer arguments `i` and `j`, `slice` takes as start
`max(n+i,0)` when `i < 0` and `min(i,n)` otherwise, as end the same function of `j` (or `n`
when the end is omitted or undefined), and as count `end - start` cut off at 0; both indices
lie in `[0,n]`, and no conversion of a number (small integer or heap number) leaves the
builtin. In particular `slice(-2)` on
a length-5 view has the start, end and count of `slice(3,5)` - 3, 5 and 2 - and the two calls
do the same. -/
theorem slice_relative_indices (host : Host) (n : Nat) (w : World) (i j : Int) :
    (∃ S E : Nat,
      (S : Int) = (if i < 0 then max ((n : Int) + i) 0 else min i (n : Int)) ∧
      (E : Int) = (if j < 0 then max ((n : Int) + j) 0 else min j (n : Int)) ∧
      S ≤ n ∧ E ≤ n ∧
      SliceIndices host n [.smi i, .smi j] w = ⟨w, [], .normal (S, E, E - S)⟩ ∧
      SliceIndices host n [.smi i] w = ⟨w, [], .normal (S, n, n - S)⟩ ∧
      SliceIndices host n [.smi i, .undefined] w = ⟨w, [], .normal (S, n, n - S)⟩ ∧
      SliceIndices host n [.heapNumber (.finite i), .heapNumber (.finite j)] w
        = ⟨w, [], .normal (S, E, E - S)⟩) ∧
    SliceIndices host n [] w = ⟨w, [], .normal (0, n, n)⟩ ∧
    SliceIndices host 5 [.smi (-2)] w = ⟨w, [], .normal (3, 5, 2)⟩ ∧
    SliceIndices host 5 [.smi 3, .smi 5] w = ⟨w, [], .normal (3, 5, 2)⟩ ∧
    TypedArrayPrototypeSlice exampleHost .x64 (.typedArray (exampleInt8Array 1 1 0 5))
        [.smi (-2)] exampleWorld
      = TypedArrayPrototypeSlice exampleHost .x64 (.typedArray (exampleInt8Array 1 1 0 5))
        [.smi 3, .smi 5] exampleWorld ∧
    (TypedArrayPrototypeSlice exampleHost .x64 (.typedArray (exampleInt8Array 1 1 0 5))
        [.smi (-2)] exampleWorld).trace
      = [.CreateTypedArray (.typedArrayFunction ⟨.INT8_ELEMENTS⟩)
          (.typedArrayFunction ⟨.INT8_ELEMENTS⟩) (.smi 2) .undefined .undefined,
         .CallCMemmove 40960 8195 2] := by
  have hfirst : TypedArrayPrototypeSlice exampleHost .x64
        (.typedArray (exampleInt8Array 1 1 0 5)) [.smi (-2)] exampleWorld
      = ⟨{ exampleWorld with memory := (memmove exampleWorld.memory 40960 8195 2) },
         [.CreateTypedArray (.typedArrayFunction ⟨.INT8_ELEMENTS⟩)
            (.typedArrayFunction ⟨.INT8_ELEMENTS⟩) (.smi 2) .undefined .undefined,
          .CallCMemmove 40960 8195 2],
         .normal (.typedArray (exampleInt8Array 100 9 0 2))⟩ := rfl
  have hsecond : TypedArrayPrototypeSlice exampleHost .x64
        (.typedArray (exampleInt8Array 1 1 0 5)) [.smi 3, .smi 5] exampleWorld
      = ⟨{ exampleWorld with memory := (memmove exampleWorld.memory 40960 8195 2) },
         [.CreateTypedArray (.typedArrayFunction ⟨.INT8_ELEMENTS⟩)
            (.typedArrayFunction ⟨.INT8_ELEMENTS⟩) (.smi 2) .undefined .undefined,
          .CallCMemmove 40960 8195 2],
         .normal (.typedArray (exampleInt8Array 100 9 0 2))⟩ := rfl
  refine ⟨?_, ?_, ?_, ?_, hfirst.trans hsecond.symm, by rw [hfirst]⟩
  · refine ⟨(if i < 0 then max ((n : Int) + i) 0 else min i (n : Int)).toNat,
      (if j < 0 then max ((n : Int) + j) 0 else min j (n : Int)).toNat,
      ?_, ?_, ?_, ?_, ?_, ?_, ?_, ?_⟩
    · split_ifs <;> omega
    · split_ifs <;> omega
    · split_ifs <;> omega
    · split_ifs <;> omega
    · by_cases hi : i < 0 <;> by_cases hj : j < 0 <;>
        simp [SliceIndices, GetOptionalArgumentValue, ConvertToRelativeIndex, ToInteger_Inline,
          Return, Outcome.andThen, Outcome.after, hi, hj] <;> omega
    · by_cases hi : i < 0 <;>
        simp [SliceIndices, GetOptionalArgumentValue, ConvertToRelativeIndex, ToInteger_Inline,
          Return, Outcome.andThen, Outcome.after, hi] <;> omega
    · by_cases hi : i < 0 <;>
        simp [SliceIndices, GetOptionalArgumentValue, ConvertToRelativeIndex, ToInteger_Inline,
          Return, Outcome.andThen, Outcome.after, hi] <;> omega
    · by_cases hi : i < 0 <;> by_cases hj : j < 0 <;>
        simp [SliceIndices, GetOptionalArgumentValue, ConvertToRelativeIndex, ToInteger_Inline,
          Return, Outcome.andThen, Outcome.after, hi, hj] <;> omega
  · simp [SliceIndices, GetOptionalArgumentValue, ConvertToRelativeIndex, ToInteger_Inline,
      Return, Outcome.andThen, Outcome.after]
  · simp [SliceIndices, GetOptionalArgumentValue, ConvertToRelativeIndex, ToInteger_Inline,
      Return, Outcome.andThen, Outcome.after]
  · simp [SliceIndices, GetOptionalArgumentValue, ConvertToRelativeIndex, ToInteger_Inline,
      Return, Outcome.andThen, Outcome.after]

/-! ## `slice`: a result over the source's buffer (C10) -/

/-- A write to an element of one view leaves the elements of a view with a disjoint byte range
as they were. -/
theorem StoreElementBytes_disjoint (memory : Nat → Nat) (p i size n q j size2 m : Nat)
    (bytes : List Nat) (hi : i < n) (hj : j < m)
    (hdisjoint : p + n * size ≤ q ∨ q + m * size2 ≤ p) :
    LoadElementBytes (StoreElementBytes memory p i size bytes) q j size2
      = LoadElementBytes memory q j size2 := by
  unfold LoadElementBytes
  apply List.map_congr_left
  intro k hk
  have hk' : k < size2 := List.mem_range.mp hk
  have h1 : (i + 1) * size ≤ n * size := Nat.mul_le_mul_right size hi
  have h2 : (i + 1) * size = i * size + size := by
    rw [Nat.add_mul, Nat.one_mul]
  have h3 : (j + 1) * size2 ≤ m * size2 := Nat.mul_le_mul_right size2 hj
  have h4 : (j + 1) * size2 = j * size2 + size2 := by
    rw [Nat.add_mul, Nat.one_mul]
  have hout : ¬ (p + i * size ≤ q + j * size2 + k ∧ q + j * size2 + k < p + i * size + size) := by
    rcases hdisjoint with h | h <;> omega
  simp only [StoreElementBytes, hout, if_false]

theorem Outcome.after_nil {β : Type} (r : Outcome β) : Outcome.after [] r = r := rfl

theorem Outcome.andThen_Return {α β : Type} (v : α) (w : World) (k : α → World → Outcome β) :
    (Return v w).andThen k = k v w := rfl

/-- If a sequence returns, its first part returned and its continuation returned. -/
theorem Outcome.andThen_normal {α β : Type} (o : Outcome α) (k : α → World → Outcome β)
    (w1 : World) (tr : List Event) (v : β) (h : o.andThen k = ⟨w1, tr, .normal v⟩) :
    ∃ v0, o.result = .normal v0 ∧ (k v0 o.world).world = w1 ∧
      o.trace ++ (k v0 o.world).trace = tr ∧ (k v0 o.world).result = .normal v := by
  unfold Outcome.andThen at h
  split at h
  · simp only [Outcome.mk.injEq] at h
    exact absurd h.2.2 (by simp)
  · rename_i v0 hv0
    refine ⟨v0, hv0, ?_⟩
    simp only [Outcome.after, Outcome.mk.injEq] at h
    exact h

/-- If a sequence returns a value, its first part returned one and so did its continuation. -/
theorem Outcome.andThen_result_normal {α β : Type} (o : Outcome α) (k : α → World → Outcome β)
    (v : β) (h : (o.andThen k).result = .normal v) :
    ∃ v0, o.result = .normal v0 ∧ (k v0 o.world).result = .normal v := by
  unfold Outcome.andThen at h
  split at h
  · exact absurd h (by simp)
  · rename_i v0 hv0
    exact ⟨v0, hv0, h⟩

/-- A sequence whose first part is known. -/
theorem Outcome.andThen_of_eq {α β : Type} (o : Outcome α) (k : α → World → Outcome β)
    (w1 : World) (tr : List Event) (v : α) (h : o = ⟨w1, tr, .normal v⟩) :
    o.andThen k = Outcome.after tr (k v w1) := by
  subst h
  rfl

/-! ## `slice`: the count and the second detachment check (C11) -/

/-- The count `SliceIndices` returns is the end index minus the start index, cut off at 0. -/
theorem SliceIndices_count (host : Host) (n : Nat) (args : List Value) (w w1 : World)
    (tr : List Event) (start_index end_index count : Nat)
    (h : SliceIndices host n args w = ⟨w1, tr, .normal (start_index, end_index, count)⟩) :
    count = end_index - start_index := by
  have hr : (SliceIndices host n args w).result
      = .normal (start_index, end_index, count) := by rw [h]
  unfold SliceIndices at hr
  obtain ⟨s, _, h2⟩ := Outcome.andThen_result_normal _ _ _ hr
  obtain ⟨e, _, h3⟩ := Outcome.andThen_result_normal _ _ _ h2
  simp only [Return, Completion.normal.injEq, Prod.mk.injEq] at h3
  obtain ⟨hs, he, hc⟩ := h3
  subst hs he
  omega

/-- C11: once the arguments are converted to a start index, an end index and a count, the
count is `end - start` cut off at 0 and `slice` asks species creation for a result of that
length. When the count is 0 it returns the created result at once: the source's buffer is not
looked at again (the equation holds whether or not it is detached by then) and no copy is
made. When the count is positive and the source's buffer is detached after the conversions and
the creation, `slice` throws the TypeError `kDetachedOperation` and copies nothing. -/
theorem slice_count_and_detach (host : Host) (arch : Arch) (source result : JSTypedArray)
    (args : List Value) (w w1 w2 : World) (tr1 tr2 : List Event)
    (start_index end_index count : Nat)
    (hattached : IsDetachedBuffer w source.buffer = false)
    (hindices : SliceIndices host source.length args w
      = ⟨w1, tr1, .normal (start_index, end_index, count)⟩)
    (hcreate : TypedArraySpeciesCreateByLength host source count w1
      = ⟨w2, tr2, .normal result⟩) :
    count = end_index - start_index ∧
    (count = 0 →
      TypedArrayPrototypeSlice host arch (.typedArray source) args w
        = ⟨w2, tr1 ++ tr2, .normal (.typedArray result)⟩) ∧
    (0 < count → IsDetachedBuffer w2 source.buffer = true →
      TypedArrayPrototypeSlice host arch (.typedArray source) args w
        = ⟨w2, tr1 ++ tr2, .throw (.TypeError .kDetachedOperation)⟩) := by
  refine ⟨SliceIndices_count host _ args w w1 tr1 _ _ _ hindices, ?_, ?_⟩
  · intro hzero
    subst hzero
    simp [TypedArrayPrototypeSlice, ValidateTypedArray, ThrowIfNotInstanceType,
      ThrowIfArrayBufferViewBufferIsDetached, ThrowIfArrayBufferIsDetached, hattached,
      Outcome.andThen, Outcome.after, Return, hindices, hcreate]
  · intro hpos hdetached
    simp [TypedArrayPrototypeSlice, ValidateTypedArray, ThrowIfNotInstanceType,
      ThrowIfArrayBufferViewBufferIsDetached, ThrowIfArrayBufferIsDetached, hattached,
      Outcome.andThen, Outcome.after, Return, Throw, hindices, hcreate, hpos, hdetached]

/-- C11, an instance: `slice(2, 1)` has count 0 and returns the empty view it created. -/
theorem slice_count_and_detach_witness :
    (0 : Nat) = 1 - 2 ∧
    TypedArrayPrototypeSlice exampleHost .x64 (.typedArray (exampleInt8Array 1 1 0 4))
        [.smi 2, .smi 1] exampleWorld
      = ⟨exampleWorld,
         [] ++ [.CreateTypedArray (.typedArrayFunction ⟨.INT8_ELEMENTS⟩)
            (.typedArrayFunction ⟨.INT8_ELEMENTS⟩) (.smi 0) .undefined .undefined],
         .normal (.typedArray (exampleInt8Array 100 9 0 0))⟩ :=
  have h := slice_count_and_detach exampleHost .x64 (exampleInt8Array 1 1 0 4)
    (exampleInt8Array 100 9 0 0) [.smi 2, .smi 1] exampleWorld exampleWorld exampleWorld []
    [.CreateTypedArray (.typedArrayFunction ⟨.INT8_ELEMENTS⟩)
      (.typedArrayFunction ⟨.INT8_ELEMENTS⟩) (.smi 0) .undefined .undefined]
    2 1 0 rfl rfl rfl
  ⟨h.1, h.2.1 rfl⟩

/-! ## `slice`: what a species constructor may return (C12) -/

/-- What species creation does on its slow path, when the lookup of the species constructor
returns `ctor` and the construction returns `new_object`: the result of validating that
object, after the two calls. -/
theorem TypedArraySpeciesCreate_slow (host : Host) (exemplar : JSTypedArray)
    (args : List Value) (w w1 w2 : World) (ctor new_object : Value)
    (hslow : w.prototype_is_typed_array_prototype exemplar.id = false ∨
      w.typed_array_species_protector_invalid = true)
    (hspecies : host.SpeciesConstructor exemplar (GetDefaultConstructor exemplar) w
      = (w1, .normal ctor))
    (hconstruct : host.Construct ctor args w1 = (w2, .normal new_object)) :
    TypedArraySpeciesCreate host exemplar args w
      = Outcome.after [.SpeciesConstructor exemplar (GetDefaultConstructor exemplar),
          .Construct ctor args] (ValidateTypedArray new_object w2) := by
  have hrun : (fromHost (.SpeciesConstructor exemplar (GetDefaultConstructor exemplar))
        (host.SpeciesConstructor exemplar (GetDefaultConstructor exemplar) w)).andThen
        (fun ctor w =>
          (fromHost (.Construct ctor args) (host.Construct ctor args w)).andThen
            fun new_object w => ValidateTypedArray new_object w)
      = Outcome.after [.SpeciesConstructor exemplar (GetDefaultConstructor exemplar),
          .Construct ctor args] (ValidateTypedArray new_object w2) := by
    simp [fromHost, hspecies, hconstruct, Outcome.andThen, Outcome.after]
  unfold TypedArraySpeciesCreate
  rcases hslow with h | h
  · simp only [h, Bool.not_false, if_true]
    exact hrun
  · by_cases hp : w.prototype_is_typed_array_prototype exemplar.id = true
    · simp only [hp, h, Bool.not_true, if_true, Bool.false_eq_true, if_false]
      exact hrun
    · have hp' : w.prototype_is_typed_array_prototype exemplar.id = false := by simpa using hp
      simp only [hp', Bool.not_false, if_true]
      exact hrun

/-- C12, as stated, fails: with the species protector invalidated and a species constructor
that returns a one-element view when two elements are asked for, `slice(0, 2)` throws the
TypeError `kTypedArrayTooShort`, not a RangeError. -/
theorem slice_species_too_short_counterexample :
    (TypedArrayPrototypeSlice shortHost .x64 (.typedArray (exampleInt8Array 1 1 0 4))
        [.smi 0, .smi 2] customisedWorld).result
      = .throw (.TypeError .kTypedArrayTooShort) ∧
    ∀ message,
      (TypedArrayPrototypeSlice shortHost .x64 (.typedArray (exampleInt8Array 1 1 0 4))
        [.smi 0, .smi 2] customisedWorld).result
      ≠ .throw (.RangeError message) := by
  have hrun : (TypedArrayPrototypeSlice shortHost .x64 (.typedArray (exampleInt8Array 1 1 0 4))
        [.smi 0, .smi 2] customisedWorld).result
      = .throw (.TypeError .kTypedArrayTooShort) := rfl
  refine ⟨hrun, ?_⟩
  intro message h
  rw [hrun] at h
  cases h

/-- C12, amended: when the species constructor that `slice` looks up returns a view (with an
attached buffer) whose length is less than the requested count, `slice` throws the TypeError
`kTypedArrayTooShort`; when it returns a value that is not a typed array, `slice` throws the
TypeError of the receiver check. In both cases `slice` stops there: the world is the one the
constructor left and the trace ends with the construction, so `slice` itself has changed no
element of the source. -/
theorem slice_species_result_rejected (host : Host) (arch : Arch) (source : JSTypedArray)
    (args : List Value) (w w1 w2 w3 : World) (tr1 : List Event)
    (start_index end_index count : Nat) (ctor new_object : Value)
    (hattached : IsDetachedBuffer w source.buffer = false)
    (hindices : SliceIndices host source.length args w
      = ⟨w1, tr1, .normal (start_index, end_index, count)⟩)
    (hslow : w1.prototype_is_typed_array_prototype source.id = false ∨
      w1.typed_array_species_protector_invalid = true)
    (hspecies : host.SpeciesConstructor source (GetDefaultConstructor source) w1
      = (w2, .normal ctor))
    (hconstruct : host.Construct ctor [.smi count] w2 = (w3, .normal new_object)) :
    (∀ result, new_object = .typedArray result → IsDetachedBuffer w3 result.buffer = false →
      result.length < count →
      TypedArrayPrototypeSlice host arch (.typedArray source) args w
        = ⟨w3, tr1 ++ [.SpeciesConstructor source (GetDefaultConstructor source),
            .Construct ctor [.smi count]], .throw (.TypeError .kTypedArrayTooShort)⟩) ∧
    ((∀ result, new_object ≠ .typedArray result) →
      TypedArrayPrototypeSlice host arch (.typedArray source) args w
        = ⟨w3, tr1 ++ [.SpeciesConstructor source (GetDefaultConstructor source),
            .Construct ctor [.smi count]],
           .throw (.TypeError .kIncompatibleMethodReceiver)⟩) := by
  have hcreate := TypedArraySpeciesCreate_slow host source [.smi count] w1 w2 w3 ctor
    new_object hslow hspecies hconstruct
  constructor
  · intro result hresult hatt hshort
    subst hresult
    simp [TypedArrayPrototypeSlice, ValidateTypedArray, ThrowIfNotInstanceType,
      ThrowIfArrayBufferViewBufferIsDetached, ThrowIfArrayBufferIsDetached, hattached,
      Outcome.andThen, Outcome.after, Return, Throw, hindices,
      TypedArraySpeciesCreateByLength, hcreate, hatt, ThrowIfLengthLessThan, hshort]
  · intro hnot
    simp [TypedArrayPrototypeSlice, ValidateTypedArray, ThrowIfNotInstanceType,
      ThrowIfArrayBufferViewBufferIsDetached, ThrowIfArrayBufferIsDetached, hattached,
      Outcome.andThen, Outcome.after, Return, Throw, hindices,
      TypedArraySpeciesCreateByLength, hcreate]

/-- C12, amended, an instance: the species constructor of `shortHost` returns one element
where `slice(0, 2)` asks for two. -/
theorem slice_species_result_rejected_witness :
    TypedArrayPrototypeSlice shortHost .x64 (.typedArray (exampleInt8Array 1 1 0 4))
        [.smi 0, .smi 2] customisedWorld
      = ⟨customisedWorld,
         [] ++ [.SpeciesConstructor (exampleInt8Array 1 1 0 4)
            (GetDefaultConstructor (exampleInt8Array 1 1 0 4)),
          .Construct (.heapObject 50) [.smi 2]],
         .throw (.TypeError .kTypedArrayTooShort)⟩ :=
  (slice_species_result_rejected shortHost .x64 (exampleInt8Array 1 1 0 4) [.smi 0, .smi 2]
    customisedWorld customisedWorld customisedWorld customisedWorld [] 0 2 2 (.heapObject 50)
    (.typedArray (exampleInt8Array 101 9 0 1)) rfl rfl (Or.inr rfl) rfl rfl).1
    (exampleInt8Array 101 9 0 1) rfl rfl (by decide)

/-! ## The length-constrained creators (C13) -/

/-- C13: `ThrowIfLengthLessThan` throws the TypeError `kTypedArrayTooShort` if and only if the
length of the array is less than the requested length; so `TypedArraySpeciesCreateByLength`,
once species creation has returned a view, and `TypedArrayCreateByLength`, once the
construction has returned a view that passes validation, throw that TypeError exactly when the
view is shorter than requested and return the view unchanged otherwise, its length being equal
to or greater than the requested length. -/
theorem length_constrained_creators (host : Host) :
    (∀ (typed_array : JSTypedArray) (min_length : Nat) (w : World),
      ThrowIfLengthLessThan typed_array min_length w
        = if typed_array.length < min_length
          then ⟨w, [], .throw (.TypeError .kTypedArrayTooShort)⟩
          else ⟨w, [], .normal ()⟩) ∧
    (∀ (exemplar result : JSTypedArray) (len : Nat) (w w1 : World) (tr : List Event),
      TypedArraySpeciesCreate host exemplar [.smi len] w = ⟨w1, tr, .normal result⟩ →
      TypedArraySpeciesCreateByLength host exemplar len w
        = ⟨w1, tr, if result.length < len then .throw (.TypeError .kTypedArrayTooShort)
            else .normal result⟩) ∧
    (∀ (ctor : Value) (result : JSTypedArray) (len : Nat) (w w1 : World),
      host.Construct ctor [.smi len] w = (w1, .normal (.typedArray result)) →
      IsDetachedBuffer w1 result.buffer = false →
      TypedArrayCreateByLength host ctor len w
        = ⟨w1, [.Construct ctor [.smi len]],
           if result.length < len then .throw (.TypeError .kTypedArrayTooShort)
            else .normal result⟩) := by
  refine ⟨?_, ?_, ?_⟩
  · intro typed_array min_length w
    by_cases hshort : typed_array.length < min_length <;>
      simp [ThrowIfLengthLessThan, hshort, Throw, Return]
  · intro exemplar result len w w1 tr hcreate
    by_cases hshort : result.length < len <;>
      simp [TypedArraySpeciesCreateByLength, hcreate, Outcome.andThen, Outcome.after,
        ThrowIfLengthLessThan, hshort, Return, Throw]
  · intro ctor result len w w1 hconstruct hattached
    by_cases hshort : result.length < len <;>
      simp [TypedArrayCreateByLength, fromHost, hconstruct, Outcome.andThen, Outcome.after,
        ValidateTypedArray, ThrowIfNotInstanceType, ThrowIfArrayBufferViewBufferIsDetached,
        ThrowIfArrayBufferIsDetached, hattached, ThrowIfLengthLessThan, hshort, Return, Throw]

/-- C13, an instance: a view of exactly the requested length 2 is returned, and the
one-element view of `shortHost` is rejected when 2 elements are requested. -/
theorem length_constrained_creators_witness :
    TypedArraySpeciesCreateByLength exampleHost (exampleInt8Array 1 1 0 4) 2 exampleWorld
      = ⟨exampleWorld,
         [.CreateTypedArray (.typedArrayFunction ⟨.INT8_ELEMENTS⟩)
            (.typedArrayFunction ⟨.INT8_ELEMENTS⟩) (.smi 2) .undefined .undefined],
         if (exampleInt8Array 100 9 0 2).length < 2
          then .throw (.TypeError .kTypedArrayTooShort)
          else .normal (exampleInt8Array 100 9 0 2)⟩ ∧
    TypedArrayCreateByLength shortHost (.heapObject 50) 2 exampleWorld
      = ⟨exampleWorld, [.Construct (.heapObject 50) [.smi 2]],
         if (exampleInt8Array 101 9 0 1).length < 2
          then .throw (.TypeError .kTypedArrayTooShort)
          else .normal (exampleInt8Array 101 9 0 1)⟩ :=
  ⟨(length_constrained_creators exampleHost).2.1 (exampleInt8Array 1 1 0 4)
      (exampleInt8Array 100 9 0 2) 2 exampleWorld exampleWorld _ rfl,
   (length_constrained_creators shortHost).2.2 (.heapObject 50) (exampleInt8Array 101 9 0 1) 2
      exampleWorld exampleWorld rfl rfl⟩

/-! ## Species creation: lemmas on the validation -/

theorem fromHost_normal {α : Type} (e : Event) (r : World × HostCompletion α) (w1 : World)
    (tr : List Event) (v : α) (h : fromHost e r = ⟨w1, tr, .normal v⟩) :
    r = (w1, .normal v) ∧ tr = [e] := by
  unfold fromHost at h
  split at h
  · rename_i v0 hv0
    simp only [Outcome.mk.injEq, Completion.normal.injEq] at h
    obtain ⟨h1, h2, h3⟩ := h
    subst h1 h3
    exact ⟨Prod.ext rfl hv0, h2.symm⟩
  · simp only [Outcome.mk.injEq] at h
    exact absurd h.2.2 (by simp)

/-- A value that passes `ValidateTypedArray` is a typed array whose buffer is attached. -/
theorem ValidateTypedArray_normal (obj : Value) (w w1 : World) (tr : List Event)
    (result : JSTypedArray) (h : ValidateTypedArray obj w = ⟨w1, tr, .normal result⟩) :
    obj = .typedArray result ∧ w1 = w ∧ tr = [] ∧ IsDetachedBuffer w result.buffer = false := by
  cases obj with
  | typedArray a =>
    cases hd : IsDetachedBuffer w a.buffer
    · simp [ValidateTypedArray, ThrowIfNotInstanceType, ThrowIfArrayBufferViewBufferIsDetached,
        ThrowIfArrayBufferIsDetached, hd, Outcome.andThen, Outcome.after, Return] at h
      obtain ⟨h1, h2, h3⟩ := h
      subst h3
      exact ⟨rfl, h1.symm, h2, hd⟩
    · simp [ValidateTypedArray, ThrowIfNotInstanceType, ThrowIfArrayBufferViewBufferIsDetached,
        ThrowIfArrayBufferIsDetached, hd, Outcome.andThen, Outcome.after, Return, Throw] at h
  | _ =>
    simp [ValidateTypedArray, ThrowIfNotInstanceType, Outcome.andThen, Throw] at h

/-- If a sequence returns, its first part returned a value and its continuation, run on that
value, returned the value of the sequence. -/
theorem Outcome.andThen_eq_normal {α β : Type} (o : Outcome α) (k : α → World → Outcome β)
    (w1 : World) (tr : List Event) (v : β) (h : o.andThen k = ⟨w1, tr, .normal v⟩) :
    ∃ v0 tr2, o.result = .normal v0 ∧ k v0 o.world = ⟨w1, tr2, .normal v⟩ ∧
      tr = o.trace ++ tr2 := by
  obtain ⟨v0, hv0, hw, htr, hr⟩ := Outcome.andThen_normal o k w1 tr v h
  refine ⟨v0, (k v0 o.world).trace, hv0, ?_, htr.symm⟩
  cases hk : k v0 o.world with
  | mk kw kt kr =>
    rw [hk] at hw hr
    simp only at hw hr
    subst hw hr
    rfl

/-! ## Species creation: the fast path (C15) -/

theorem Outcome.andThen_fromHost_trace_head {α β : Type} (e : Event)
    (r : World × HostCompletion α) (k : α → World → Outcome β) :
    ((fromHost e r).andThen k).trace.head? = some e := by
  cases h : r.2 <;> simp [fromHost, h, Outcome.andThen, Outcome.after]

/-- C15: `TypedArraySpeciesCreate` is the single call of `CreateTypedArray` with the default
constructor of the exemplar's kind as target and new target - no lookup of a species
constructor and no call of a user constructor - if and only if the prototype of the exemplar
is the initial typed-array prototype and the species protector is intact; in every other case
the first thing it does is the lookup `SpeciesConstructor(exemplar, default_constructor)`. -/
theorem species_create_fast_path_iff (host : Host) (exemplar : JSTypedArray)
    (args : List Value) (w : World) :
    GetDefaultConstructor exemplar = .typedArrayFunction ⟨exemplar.elements_kind⟩ ∧
    ((w.prototype_is_typed_array_prototype exemplar.id = true ∧
        w.typed_array_species_protector_invalid = false) →
      TypedArraySpeciesCreate host exemplar args w
        = fromHost (.CreateTypedArray (GetDefaultConstructor exemplar)
            (GetDefaultConstructor exemplar) (args.getD 0 .undefined)
            (args.getD 1 .undefined) (args.getD 2 .undefined))
          (host.CreateTypedArray (GetDefaultConstructor exemplar)
            (GetDefaultConstructor exemplar) (args.getD 0 .undefined)
            (args.getD 1 .undefined) (args.getD 2 .undefined) w)) ∧
    (¬ (w.prototype_is_typed_array_prototype exemplar.id = true ∧
        w.typed_array_species_protector_invalid = false) →
      (TypedArraySpeciesCreate host exemplar args w).trace.head?
        = some (.SpeciesConstructor exemplar (GetDefaultConstructor exemplar))) ∧
    ((TypedArraySpeciesCreate host exemplar args w).trace
        = [.CreateTypedArray (GetDefaultConstructor exemplar)
            (GetDefaultConstructor exemplar) (args.getD 0 .undefined)
            (args.getD 1 .undefined) (args.getD 2 .undefined)]
      ↔ (w.prototype_is_typed_array_prototype exemplar.id = true ∧
          w.typed_array_species_protector_invalid = false)) := by
  have hfast : (w.prototype_is_typed_array_prototype exemplar.id = true ∧
        w.typed_array_species_protector_invalid = false) →
      TypedArraySpeciesCreate host exemplar args w
        = fromHost (.CreateTypedArray (GetDefaultConstructor exemplar)
            (GetDefaultConstructor exemplar) (args.getD 0 .undefined)
            (args.getD 1 .undefined) (args.getD 2 .undefined))
          (host.CreateTypedArray (GetDefaultConstructor exemplar)
            (GetDefaultConstructor exemplar) (args.getD 0 .undefined)
            (args.getD 1 .undefined) (args.getD 2 .undefined) w) := by
    rintro ⟨hp, hs⟩
    simp [TypedArraySpeciesCreate, hp, hs]
  have hslow : ¬ (w.prototype_is_typed_array_prototype exemplar.id = true ∧
        w.typed_array_species_protector_invalid = false) →
      (TypedArraySpeciesCreate host exemplar args w).trace.head?
        = some (.SpeciesConstructor exemplar (GetDefaultConstructor exemplar)) := by
    intro hnot
    unfold TypedArraySpeciesCreate
    simp only []
    split_ifs with h1 h2
    · exact Outcome.andThen_fromHost_trace_head _ _ _
    · exact Outcome.andThen_fromHost_trace_head _ _ _
    · exact absurd ⟨by simpa using h1, by simpa using h2⟩ hnot
  have htrace : ∀ {α : Type} (e : Event) (r : World × HostCompletion α),
      (fromHost e r).trace = [e] := by
    intro α e r
    cases h : r.2 <;> simp [fromHost, h]
  refine ⟨rfl, hfast, hslow, ?_⟩
  constructor
  · intro h
    by_contra hnot
    have h2 := hslow hnot
    rw [h] at h2
    simp at h2
  · intro hcond
    rw [hfast hcond]
    exact htrace _ _

/-- C15, an instance: the fast path in `exampleWorld`, the lookup in `customisedWorld`. -/
theorem species_create_fast_path_iff_witness :
    TypedArraySpeciesCreate exampleHost (exampleInt8Array 1 1 0 4) [.smi 2] exampleWorld
      = fromHost (.CreateTypedArray (GetDefaultConstructor (exampleInt8Array 1 1 0 4))
          (GetDefaultConstructor (exampleInt8Array 1 1 0 4)) (.smi 2) .undefined .undefined)
        (exampleHost.CreateTypedArray (GetDefaultConstructor (exampleInt8Array 1 1 0 4))
          (GetDefaultConstructor (exampleInt8Array 1 1 0 4)) (.smi 2) .undefined .undefined
          exampleWorld) ∧
    (TypedArraySpeciesCreate exampleHost (exampleInt8Array 1 1 0 4) [.smi 2]
        customisedWorld).trace.head?
      = some (.SpeciesConstructor (exampleInt8Array 1 1 0 4)
          (GetDefaultConstructor (exampleInt8Array 1 1 0 4))) :=
  ⟨(species_create_fast_path_iff exampleHost (exampleInt8Array 1 1 0 4) [.smi 2]
      exampleWorld).2.1 ⟨rfl, rfl⟩,
   (species_create_fast_path_iff exampleHost (exampleInt8Array 1 1 0 4) [.smi 2]
      customisedWorld).2.2.1 (by decide)⟩

/-! ## `subarray`: lemmas on the begin byte offset and the run -/

theorem NumberValue_NumberFromInt (arch : Arch) (i : Int) :
    NumberValue (NumberFromInt arch i) = some i := by
  unfold NumberFromInt
  split <;> rfl

theorem NumberValue_ChangeUintPtrToTagged (arch : Arch) (n : Nat) :
    NumberValue (ChangeUintPtrToTagged arch n) = some (n : Int) := by
  unfold ChangeUintPtrToTagged
  split <;> rfl

/-- The begin byte offset `subarray` computes is the number
`byte_offset + begin * element_size`. -/
theorem subarray_begin_byte_offset (arch : Arch) (byte_offset index size : Nat) :
    NumberAdd arch (ChangeUintPtrToTagged arch byte_offset) (SmiMul arch index size)
      = NumberFromInt arch ((byte_offset + index * size : Nat) : Int) := by
  simp [NumberAdd, SmiMul, NumberValue_NumberFromInt, NumberValue_ChangeUintPtrToTagged]

theorem ConvertToRelativeIndex_smi (host : Host) (i : Int) (n : Nat) (w : World) :
    ConvertToRelativeIndex host (.smi i) n w
      = Return (if i < 0 then max ((n : Int) + i) 0 else min i (n : Int)).toNat w := by
  unfold ConvertToRelativeIndex ToInteger_Inline
  simp only [Outcome.andThen_Return]
  split_ifs <;> rfl

/-- What `subarray` does with numeric arguments once it has the buffer: it goes straight to
species creation with the buffer, the begin byte offset and the new length. -/
theorem subarray_run (host : Host) (arch : Arch) (source : JSTypedArray) (w w1 : World)
    (tr1 : List Event) (buffer : Nat) (i j : Int)
    (hbuffer : GetBuffer host source w = ⟨w1, tr1, .normal buffer⟩) :
    ∃ B E : Nat,
      (B : Int) = (if i < 0 then max ((source.length : Int) + i) 0
        else min i (source.length : Int)) ∧
      (E : Int) = (if j < 0 then max ((source.length : Int) + j) 0
        else min j (source.length : Int)) ∧
      B ≤ source.length ∧ E ≤ source.length ∧
      TypedArrayPrototypeSubArray host arch (.typedArray source) [.smi i, .smi j] w
        = Outcome.after tr1
            ((TypedArraySpeciesCreate host source
              [.arrayBuffer buffer,
               NumberFromInt arch ((source.byte_offset
                 + B * GetTypedArrayElementSize source.elements_kind : Nat) : Int),
               .smi ((E - B : Nat) : Int)] w1).andThen
              fun result w => Return (.typedArray result) w) ∧
      TypedArrayPrototypeSubArray host arch (.typedArray source) [.smi i] w
        = Outcome.after tr1
            ((TypedArraySpeciesCreate host source
              [.arrayBuffer buffer,
               NumberFromInt arch ((source.byte_offset
                 + B * GetTypedArrayElementSize source.elements_kind : Nat) : Int),
               .smi ((source.length - B : Nat) : Int)] w1).andThen
              fun result w => Return (.typedArray result) w) := by
  have hcount : ∀ S E : Nat, (max ((E : Int) - (S : Int)) 0).toNat = E - S := by
    intro S E; omega
  refine ⟨(if i < 0 then max ((source.length : Int) + i) 0
      else min i (source.length : Int)).toNat,
    (if j < 0 then max ((source.length : Int) + j) 0
      else min j (source.length : Int)).toNat, ?_, ?_, ?_, ?_, ?_, ?_⟩
  · split_ifs <;> omega
  · split_ifs <;> omega
  · split_ifs <;> omega
  · split_ifs <;> omega
  · unfold TypedArrayPrototypeSubArray
    simp only [ThrowIfNotInstanceType, Outcome.andThen_Return]
    rw [Outcome.andThen_of_eq _ _ _ _ _ hbuffer]
    simp only [GetOptionalArgumentValue, List.getD_cons_zero, List.getD_cons_succ,
      ConvertToRelativeIndex_smi, Outcome.andThen_Return, reduceCtorEq, if_false,
      subarray_begin_byte_offset, hcount]
  · unfold TypedArrayPrototypeSubArray
    simp only [ThrowIfNotInstanceType, Outcome.andThen_Return]
    rw [Outcome.andThen_of_eq _ _ _ _ _ hbuffer]
    simp only [GetOptionalArgumentValue, List.getD_cons_zero, List.getD_cons_succ,
      List.getD_nil, ConvertToRelativeIndex_smi, Outcome.andThen_Return, if_true,
      subarray_begin_byte_offset, hcount]

/-! ## `subarray` of a view whose buffer is detached (C17) -/

theorem Outcome.eq_of_result_normal {α : Type} (o : Outcome α) (v : α)
    (h : o.result = .normal v) : o = ⟨o.world, o.trace, .normal v⟩ := by
  cases o with
  | mk ow ot ores =>
    simp only at h
    subst h
    rfl

/-- C17, as stated, fails: on a view over the detached buffer 7, with a species constructor
that returns a view over that same buffer, `subarray` does not succeed: the validation of the
result throws the TypeError `kDetachedOperation`. -/
theorem subarray_detached_counterexample :
    IsDetachedBuffer customisedDetachedWorld (exampleInt8Array 1 7 0 4).buffer = true ∧
    TypedArrayPrototypeSubArray sameBufferHost .x64 (.typedArray (exampleInt8Array 1 7 0 4))
        [.smi 0, .smi 2] customisedDetachedWorld
      = ⟨customisedDetachedWorld,
         [.RuntimeTypedArrayGetBuffer (exampleInt8Array 1 7 0 4),
          .SpeciesConstructor (exampleInt8Array 1 7 0 4)
            (.typedArrayFunction ⟨.INT8_ELEMENTS⟩),
          .Construct (.heapObject 50) [.arrayBuffer 7, .smi 0, .smi 2]],
         .throw (.TypeError .kDetachedOperation)⟩ :=
  ⟨rfl, rfl⟩

/-! ## Lemmas on the loops of `of` and `from` -/

theorem Outcome.andThen_assoc {α β γ : Type} (o : Outcome α) (f : α → World → Outcome β)
    (g : β → World → Outcome γ) :
    (o.andThen f).andThen g = o.andThen fun v w => (f v w).andThen g := by
  cases o with
  | mk ow ot ores =>
    cases ores with
    | throw e => rfl
    | normal v =>
      simp only [Outcome.andThen, Outcome.after]
      cases h : (f v ow).result <;> simp [h, List.append_assoc]

theorem fromHost_trace {α : Type} (e : Event) (r : World × HostCompletion α) :
    (fromHost e r).trace = [e] := by
  cases h : r.2 <;> simp [fromHost, h]

theorem ConvertForKind_trace (host : Host) (kind : ElementsKind) (item : Value) (w : World) :
    (ConvertForKind host kind item w).trace = [ConversionEvent kind item] := by
  unfold ConvertForKind ConversionEvent
  split_ifs <;> exact fromHost_trace _ _

theorem ConversionEvent_storeIndex (kind : ElementsKind) (item : Value) :
    (ConversionEvent kind item).storeIndex = none ∧ (ConversionEvent kind item).isCall = false := by
  unfold ConversionEvent
  split_ifs <;> exact ⟨rfl, rfl⟩

/-- The store of one item is a conversion, the check of the buffer and the store. -/
theorem StoreConvertedElement_eq (host : Host) (array : JSTypedArray) (index : Nat)
    (item : Value) (w : World) :
    StoreConvertedElement host array index item w
      = (ConvertForKind host array.elements_kind item w).andThen fun bytes w =>
          if IsDetachedBuffer w array.buffer then Throw (.TypeError .kDetachedOperation) w
          else StoreElement array index bytes w := by
  by_cases hkind : array.elements_kind = .BIGINT64_ELEMENTS ∨
      array.elements_kind = .BIGUINT64_ELEMENTS <;>
    simp only [StoreConvertedElement, ConvertForKind, DispatchTypedArrayByElementsKind,
      EmitBigTypedArrayElementStore, hkind, if_true, if_false]

/-- The store of one item whose conversion detaches the buffer: the TypeError, and nothing
stored. -/
theorem StoreConvertedElement_detached (host : Host) (array : JSTypedArray) (index : Nat)
    (item : Value) (w wd : World) (trc : List Event) (bytes : List Nat)
    (hconv : ConvertForKind host array.elements_kind item w = ⟨wd, trc, .normal bytes⟩)
    (hdetached : IsDetachedBuffer wd array.buffer = true) :
    StoreConvertedElement host array index item w
      = ⟨wd, trc, .throw (.TypeError .kDetachedOperation)⟩ := by
  rw [StoreConvertedElement_eq, Outcome.andThen_of_eq _ _ _ _ _ hconv]
  simp [hdetached, Outcome.after, Throw]

/-- The store of one item that returns: its trace is the conversion and the store at the
index. -/
theorem StoreConvertedElement_normal (host : Host) (array : JSTypedArray) (index : Nat)
    (item : Value) (w w1 : World) (tr : List Event)
    (h : StoreConvertedElement host array index item w = ⟨w1, tr, .normal ()⟩) :
    ∃ bytes, tr = [ConversionEvent array.elements_kind item, .StoreElement array index bytes] := by
  rw [StoreConvertedElement_eq] at h
  obtain ⟨bytes, tr2, _, h2, htr⟩ := Outcome.andThen_eq_normal _ _ _ _ _ h
  refine ⟨bytes, ?_⟩
  rw [htr, ConvertForKind_trace]
  split_ifs at h2
  · simp [Throw] at h2
  · simp only [StoreElement, Outcome.mk.injEq] at h2
    rw [← h2.2.1]
    rfl

/-- An event of a sequence is an event of its first part or of its continuation. -/
theorem Outcome.andThen_trace_mem {α β : Type} (o : Outcome α) (k : α → World → Outcome β)
    (e : Event) (h : e ∈ (o.andThen k).trace) :
    e ∈ o.trace ∨ ∃ v, e ∈ (k v o.world).trace := by
  unfold Outcome.andThen at h
  split at h
  · exact Or.inl h
  · rename_i v _
    simp only [Outcome.after, List.mem_append] at h
    exact h.elim Or.inl fun h2 => Or.inr ⟨v, h2⟩

theorem fromHost_trace_mem {α : Type} (e0 : Event) (r : World × HostCompletion α) (e : Event)
    (h : e ∈ (fromHost e0 r).trace) : e = e0 := by
  rw [fromHost_trace] at h
  exact List.mem_singleton.mp h

/-- Finding the source of `from` stores no element and calls no user function through
`Call`. -/
theorem FromSource_trace (host : Host) (arch : Arch) (source : Value) (w : World) (e : Event)
    (h : e ∈ (FromSource host arch source w).trace) :
    e.storeIndex = none ∧ e.isCall = false := by
  have hcheck : ∀ (iterator_fn : Value) (w : World) (e : Event),
      e ∈ (FromCheckIterator host arch source iterator_fn w).trace →
      e.storeIndex = none ∧ e.isCall = false := by
    intro iterator_fn w e h
    unfold FromCheckIterator at h
    split_ifs at h
    · simp [Throw] at h
    · rcases Outcome.andThen_trace_mem _ _ _ h with h1 | ⟨v, h2⟩
      · rw [fromHost_trace_mem _ _ _ h1]
        exact ⟨rfl, rfl⟩
      · simp only at h2
        split_ifs at h2 <;> simp [Return, Throw] at h2
  have hlike : ∀ (w : World) (e : Event),
      e ∈ (FromArrayLike host arch source w).trace →
      e.storeIndex = none ∧ e.isCall = false := by
    intro w e h
    unfold FromArrayLike at h
    rcases Outcome.andThen_trace_mem _ _ _ h with h1 | ⟨v, h2⟩
    · rw [fromHost_trace_mem _ _ _ h1]
      exact ⟨rfl, rfl⟩
    · rcases Outcome.andThen_trace_mem _ _ _ h2 with h3 | ⟨v2, h4⟩
      · unfold ToSmiLength at h3
        rcases Outcome.andThen_trace_mem _ _ _ h3 with h5 | ⟨v3, h6⟩
        · split at h5
          · simp [Return] at h5
          · rw [fromHost_trace_mem _ _ _ h5]
            exact ⟨rfl, rfl⟩
        · split_ifs at h6 <;> simp [Return] at h6
      · split at h4 <;> simp [Return, Throw] at h4
  unfold FromSource at h
  rcases Outcome.andThen_trace_mem _ _ _ h with h1 | ⟨v, h2⟩
  · rw [fromHost_trace_mem _ _ _ h1]
    exact ⟨rfl, rfl⟩
  · split at h2
    · exact hlike _ _ h2
    · simp [Throw] at h2
    · split at h2
      · split_ifs at h2
        · exact hcheck _ _ _ h2
        · exact hcheck _ _ _ h2
        · exact hcheck _ _ _ h2
        · simp [Return] at h2
      · exact hcheck _ _ _ h2

/-- A creation by length that returns made one call, the construction, and returned a view
whose buffer is attached. -/
theorem TypedArrayCreateByLength_normal (host : Host) (ctor : Value) (len : Nat) (w w1 : World)
    (tr : List Event) (a : JSTypedArray)
    (h : TypedArrayCreateByLength host ctor len w = ⟨w1, tr, .normal a⟩) :
    tr = [.Construct ctor [.smi len]] ∧ IsDetachedBuffer w1 a.buffer = false ∧
      len ≤ a.length := by
  unfold TypedArrayCreateByLength at h
  obtain ⟨obj, tr2, hobj, h2, htr⟩ := Outcome.andThen_eq_normal _ _ _ _ _ h
  obtain ⟨a2, tr3, ha2, h3, htr3⟩ := Outcome.andThen_eq_normal _ _ _ _ _ h2
  have hv := ValidateTypedArray_normal _ _ _ _ _ (Outcome.eq_of_result_normal _ _ ha2)
  obtain ⟨_, hw, htr4, hattached⟩ := hv
  obtain ⟨_, tr5, hlen, h5, htr5⟩ := Outcome.andThen_eq_normal _ _ _ _ _ h3
  simp only [Return, Outcome.mk.injEq, Completion.normal.injEq] at h5
  obtain ⟨hw5, htr6, ha⟩ := h5
  subst ha
  have hlen2 : len ≤ a2.length := by
    unfold ThrowIfLengthLessThan at hlen
    by_contra hnot
    simp [Nat.lt_of_not_le hnot, Throw] at hlen
  have hw6 : (ThrowIfLengthLessThan a2 len (ValidateTypedArray obj
      (fromHost (.Construct ctor [.smi len]) (host.Construct ctor [.smi len] w)).world).world).world
      = (ValidateTypedArray obj
      (fromHost (.Construct ctor [.smi len]) (host.Construct ctor [.smi len] w)).world).world := by
    unfold ThrowIfLengthLessThan
    simp only
    split_ifs <;> rfl
  have htr7 : (ThrowIfLengthLessThan a2 len (ValidateTypedArray obj
      (fromHost (.Construct ctor [.smi len]) (host.Construct ctor [.smi len] w)).world).world).trace
      = [] := by
    unfold ThrowIfLengthLessThan
    simp only
    split_ifs <;> rfl
  refine ⟨?_, ?_, hlen2⟩
  · rw [htr, htr3, htr5, htr4, htr7, ← htr6, fromHost_trace]
    rfl
  · rw [← hw5, hw6, hw]
    exact hattached

/-! ## The loop of `of` -/

theorem OfLoop_split (host : Host) (a : JSTypedArray) (args : List Value) (k m : Nat) :
    ∀ (index : Nat) (w : World),
      OfLoop host a args (k + m) index w
        = (OfLoop host a args k index w).andThen fun _ w =>
            OfLoop host a args m (index + k) w := by
  induction k with
  | zero =>
    intro index w
    simp [OfLoop, Outcome.andThen_Return]
  | succ k ih =>
    intro index w
    have hkm : k + 1 + m = (k + m) + 1 := by omega
    rw [hkm]
    simp only [OfLoop]
    rw [Outcome.andThen_assoc]
    congr 1
    funext _ w2
    rw [ih (index + 1) w2]
    have hindex : index + 1 + k = index + (k + 1) := by omega
    rw [hindex]

/-- A run of the loop of `of` over `k` indices that returns stored exactly those indices, in
ascending order. -/
theorem OfLoop_storeIndex (host : Host) (a : JSTypedArray) (args : List Value) (k : Nat) :
    ∀ (index : Nat) (w w1 : World) (tr : List Event),
      OfLoop host a args k index w = ⟨w1, tr, .normal ()⟩ →
      tr.filterMap Event.storeIndex = List.range' index k := by
  induction k with
  | zero =>
    intro index w w1 tr h
    simp only [OfLoop, Return, Outcome.mk.injEq] at h
    rw [← h.2.1]
    rfl
  | succ k ih =>
    intro index w w1 tr h
    simp only [OfLoop] at h
    obtain ⟨_, tr2, hstore, h2, htr⟩ := Outcome.andThen_eq_normal _ _ _ _ _ h
    obtain ⟨bytes, hbytes⟩ := StoreConvertedElement_normal _ _ _ _ _ _ _
      (Outcome.eq_of_result_normal _ _ hstore)
    rw [htr, hbytes, List.filterMap_append, ih _ _ _ _ h2]
    have hconv := (ConversionEvent_storeIndex a.elements_kind (args.getD index .undefined)).1
    simp only [List.filterMap_cons, hconv]
    rfl

/-- The loop of `of` stops at the index whose conversion detaches the buffer. -/
theorem OfLoop_detached (host : Host) (a : JSTypedArray) (args : List Value) (k m : Nat)
    (w wk wd : World) (trk trc : List Event) (bytes : List Nat)
    (hbefore : OfLoop host a args k 0 w = ⟨wk, trk, .normal ()⟩)
    (hconv : ConvertForKind host a.elements_kind (args.getD k .undefined) wk
      = ⟨wd, trc, .normal bytes⟩)
    (hdetached : IsDetachedBuffer wd a.buffer = true) :
    OfLoop host a args (k + (m + 1)) 0 w
      = ⟨wd, trk ++ trc, .throw (.TypeError .kDetachedOperation)⟩ := by
  rw [OfLoop_split, Outcome.andThen_of_eq _ _ _ _ _ hbefore]
  simp only [OfLoop, Nat.zero_add]
  rw [StoreConvertedElement_detached host a k _ wk wd trc bytes hconv hdetached]
  rfl

/-! ## The loop of `from` -/

theorem FromLoop_split (host : Host) (a : JSTypedArray) (final_source map_fn this_arg : Value)
    (k m : Nat) :
    ∀ (index : Nat) (w : World),
      FromLoop host a final_source map_fn this_arg (k + m) index w
        = (FromLoop host a final_source map_fn this_arg k index w).andThen fun _ w =>
            FromLoop host a final_source map_fn this_arg m (index + k) w := by
  induction k with
  | zero =>
    intro index w
    simp [FromLoop, Outcome.andThen_Return]
  | succ k ih =>
    intro index w
    have hkm : k + 1 + m = (k + m) + 1 := by omega
    rw [hkm]
    simp only [FromLoop]
    rw [Outcome.andThen_assoc]
    congr 1
    funext k_value w2
    rw [Outcome.andThen_assoc]
    congr 1
    funext mapped_value w3
    rw [Outcome.andThen_assoc]
    congr 1
    funext _ w4
    rw [ih (index + 1) w4]
    have hindex : index + 1 + k = index + (k + 1) := by omega
    rw [hindex]

/-- A run of the loop of `from` over `k` indices that returns stored exactly those indices,
in ascending order. -/
theorem FromLoop_storeIndex (host : Host) (a : JSTypedArray)
    (final_source map_fn this_arg : Value) (k : Nat) :
    ∀ (index : Nat) (w w1 : World) (tr : List Event),
      FromLoop host a final_source map_fn this_arg k index w = ⟨w1, tr, .normal ()⟩ →
      tr.filterMap Event.storeIndex = List.range' index k := by
  induction k with
  | zero =>
    intro index w w1 tr h
    simp only [FromLoop, Return, Outcome.mk.injEq] at h
    rw [← h.2.1]
    rfl
  | succ k ih =>
    intro index w w1 tr h
    simp only [FromLoop] at h
    obtain ⟨k_value, tr2, _, h2, htr⟩ := Outcome.andThen_eq_normal _ _ _ _ _ h
    obtain ⟨mapped_value, tr3, _, h3, htr3⟩ := Outcome.andThen_eq_normal _ _ _ _ _ h2
    obtain ⟨_, tr4, hstore, h4, htr4⟩ := Outcome.andThen_eq_normal _ _ _ _ _ h3
    obtain ⟨bytes, hbytes⟩ := StoreConvertedElement_normal _ _ _ _ _ _ _
      (Outcome.eq_of_result_normal _ _ hstore)
    rw [htr, htr3, htr4, hbytes, fromHost_trace, fromHost_trace, List.filterMap_append,
      List.filterMap_append, List.filterMap_append, ih _ _ _ _ h4]
    have hconv := (ConversionEvent_storeIndex a.elements_kind mapped_value).1
    simp only [List.filterMap_cons, hconv]
    rfl

/-- The loop of `from` stops at the index whose conversion detaches the buffer. -/
theorem FromLoop_detached (host : Host) (a : JSTypedArray)
    (final_source map_fn this_arg k_value mapped_value : Value) (k m : Nat)
    (w wk wr wc wd : World) (trk trc : List Event) (bytes : List Nat)
    (hbefore : FromLoop host a final_source map_fn this_arg k 0 w = ⟨wk, trk, .normal ()⟩)
    (hread : host.GetProperty final_source (.index k) wk = (wr, .normal k_value))
    (hcall : host.Call map_fn this_arg [k_value, .smi k] wr = (wc, .normal mapped_value))
    (hconv : ConvertForKind host a.elements_kind mapped_value wc = ⟨wd, trc, .normal bytes⟩)
    (hdetached : IsDetachedBuffer wd a.buffer = true) :
    FromLoop host a final_source map_fn this_arg (k + (m + 1)) 0 w
      = ⟨wd, trk ++ (.GetProperty final_source (.index k)
            :: .Call map_fn this_arg [k_value, .smi k] :: trc),
          .throw (.TypeError .kDetachedOperation)⟩ := by
  rw [FromLoop_split, Outcome.andThen_of_eq _ _ _ _ _ hbefore]
  simp only [FromLoop, Nat.zero_add]
  simp only [fromHost, hread, hcall, Outcome.andThen, Outcome.after]
  rw [StoreConvertedElement_detached host a k _ wc wd trc bytes hconv hdetached]
  rfl

/-! ## `of` and `from`: a detachment in the middle of the loop (C19) -/

/-- C19: in `of`, and in the mapping path of `from`, when the loop has run over the indices
below `k` and the conversion of the value for index `k` leaves the buffer of the result view
detached, the builtin ends right there with the TypeError `kDetachedOperation`: the world it
leaves is the world the conversion left (nothing that was stored is undone and nothing more is
written), and the elements stored on the way are exactly those at the indices `0 .. k-1`, in
that order - none at `k` or above. -/
theorem detach_mid_loop_stops (host : Host) (arch : Arch) (receiver : Value)
    (args : List Value) (w : World) :
    (∀ (a : JSTypedArray) (k : Nat) (w1 wk wd : World) (tr1 trk trc : List Event)
        (bytes : List Nat),
      IsConstructor host receiver = true →
      TypedArrayCreateByLength host receiver args.length w = ⟨w1, tr1, .normal a⟩ →
      k < args.length →
      OfLoop host a args k 0 w1 = ⟨wk, trk, .normal ()⟩ →
      ConvertForKind host a.elements_kind (args.getD k .undefined) wk
        = ⟨wd, trc, .normal bytes⟩ →
      IsDetachedBuffer wd a.buffer = true →
      TypedArrayOf host receiver args w
        = ⟨wd, tr1 ++ (trk ++ trc), .throw (.TypeError .kDetachedOperation)⟩ ∧
      (tr1 ++ (trk ++ trc)).filterMap Event.storeIndex = List.range k) ∧
    (∀ (a : JSTypedArray) (final_source k_value mapped_value : Value) (n k : Nat)
        (w0 w1 wk wr wc wd : World) (tr0 tr1 trk trc : List Event) (bytes : List Nat),
      IsConstructor host receiver = true →
      FromMapping host (GetOptionalArgumentValue args 1 .undefined) = some true →
      FromSource host arch (GetOptionalArgumentValue args 0 .undefined) w
        = ⟨w0, tr0, .normal (final_source, n)⟩ →
      TypedArrayCreateByLength host receiver n w0 = ⟨w1, tr1, .normal a⟩ →
      k < n →
      FromLoop host a final_source (GetOptionalArgumentValue args 1 .undefined)
        (GetOptionalArgumentValue args 2 .undefined) k 0 w1 = ⟨wk, trk, .normal ()⟩ →
      host.GetProperty final_source (.index k) wk = (wr, .normal k_value) →
      host.Call (GetOptionalArgumentValue args 1 .undefined)
        (GetOptionalArgumentValue args 2 .undefined) [k_value, .smi k] wr
        = (wc, .normal mapped_value) →
      ConvertForKind host a.elements_kind mapped_value wc = ⟨wd, trc, .normal bytes⟩ →
      IsDetachedBuffer wd a.buffer = true →
      TypedArrayFrom host arch receiver args w
        = ⟨wd, tr0 ++ (tr1 ++ (trk ++ (.GetProperty final_source (.index k)
              :: .Call (GetOptionalArgumentValue args 1 .undefined)
                  (GetOptionalArgumentValue args 2 .undefined) [k_value, .smi k] :: trc))),
            .throw (.TypeError .kDetachedOperation)⟩ ∧
      (tr0 ++ (tr1 ++ (trk ++ (.GetProperty final_source (.index k)
            :: .Call (GetOptionalArgumentValue args 1 .undefined)
                (GetOptionalArgumentValue args 2 .undefined) [k_value, .smi k]
            :: trc)))).filterMap Event.storeIndex = List.range k) := by
  refine ⟨?_, ?_⟩
  · intro a k w1 wk wd tr1 trk trc bytes hctor hcreate hk hbefore hconv hdetached
    have htr1 := (TypedArrayCreateByLength_normal _ _ _ _ _ _ _ hcreate).1
    have htrc : trc = [ConversionEvent a.elements_kind (args.getD k .undefined)] := by
      have h := ConvertForKind_trace host a.elements_kind (args.getD k .undefined) wk
      rw [hconv] at h
      exact h
    refine ⟨?_, ?_⟩
    · obtain ⟨m, hm⟩ : ∃ m, args.length = k + (m + 1) := ⟨args.length - k - 1, by omega⟩
      have hloop := OfLoop_detached host a args k m w1 wk wd trk trc bytes hbefore hconv
        hdetached
      unfold TypedArrayOf
      simp only [hctor, Bool.not_true, Bool.false_eq_true, if_false]
      rw [Outcome.andThen_of_eq _ _ _ _ _ hcreate, hm, hloop]
      rfl
    · rw [List.filterMap_append, List.filterMap_append,
        OfLoop_storeIndex host a args k 0 w1 wk trk hbefore, htr1, htrc]
      have hnone := (ConversionEvent_storeIndex a.elements_kind (args.getD k .undefined)).1
      simp only [List.filterMap_cons, hnone, List.filterMap_nil]
      simp [Event.storeIndex, List.range_eq_range']
  · intro a final_source k_value mapped_value n k w0 w1 wk wr wc wd tr0 tr1 trk trc bytes
      hctor hmapping hsource hcreate hk hbefore hread hcall hconv hdetached
    have htr1 := (TypedArrayCreateByLength_normal _ _ _ _ _ _ _ hcreate).1
    have htrc : trc = [ConversionEvent a.elements_kind mapped_value] := by
      have h := ConvertForKind_trace host a.elements_kind mapped_value wc
      rw [hconv] at h
      exact h
    have htr0 : tr0.filterMap Event.storeIndex = [] := by
      rw [List.filterMap_eq_nil_iff]
      intro e he
      have h := FromSource_trace host arch (GetOptionalArgumentValue args 0 .undefined) w e
      rw [hsource] at h
      exact (h he).1
    refine ⟨?_, ?_⟩
    · obtain ⟨m, hm⟩ : ∃ m, n = k + (m + 1) := ⟨n - k - 1, by omega⟩
      have hloop := FromLoop_detached host a final_source
        (GetOptionalArgumentValue args 1 .undefined) (GetOptionalArgumentValue args 2 .undefined)
        k_value mapped_value k m w1 wk wr wc wd trk trc bytes hbefore hread hcall hconv
        hdetached
      unfold TypedArrayFrom
      simp only [hctor, Bool.not_true, Bool.false_eq_true, if_false, hmapping]
      rw [Outcome.andThen_of_eq _ _ _ _ _ hsource]
      simp only [if_true]
      rw [Outcome.andThen_of_eq _ _ _ _ _ hcreate, hm, hloop]
      rfl
    · rw [List.filterMap_append, List.filterMap_append, List.filterMap_append, htr0,
        FromLoop_storeIndex host a final_source _ _ k 0 w1 wk trk hbefore, htr1, htrc]
      have hnone := (ConversionEvent_storeIndex a.elements_kind mapped_value).1
      simp only [List.filterMap_cons, hnone, List.filterMap_nil]
      simp [Event.storeIndex, List.range_eq_range']

/-- C19, an instance: `of(1, o, 3)` on the `Int8Array` constructor and `from(s, f)` on an
array-like `s` of length 2, where the conversion of the value for index 1 detaches buffer 9 of
the result: both end with the TypeError, after the one store at index 0, in the world the
conversion left. -/
theorem detach_mid_loop_stops_witness :
    (TypedArrayOf detachingHost (.typedArrayFunction ⟨.INT8_ELEMENTS⟩)
        [.smi 1, .heapObject 66, .smi 3] exampleWorld
      = ⟨detachNine { exampleWorld with
            memory := StoreElementBytes exampleWorld.memory 40960 0 1 [1] },
          [.Construct (.typedArrayFunction ⟨.INT8_ELEMENTS⟩) [.smi 3]] ++
            ([.PrepareValueForWriteToTypedArray (.smi 1) .INT8_ELEMENTS,
              .StoreElement (exampleInt8Array 100 9 0 3) 0 [1]] ++
             [.PrepareValueForWriteToTypedArray (.heapObject 66) .INT8_ELEMENTS]),
          .throw (.TypeError .kDetachedOperation)⟩ ∧
      List.filterMap Event.storeIndex
          ([.Construct (.typedArrayFunction ⟨.INT8_ELEMENTS⟩) [.smi 3]] ++
            ([.PrepareValueForWriteToTypedArray (.smi 1) .INT8_ELEMENTS,
              .StoreElement (exampleInt8Array 100 9 0 3) 0 [1]] ++
             [.PrepareValueForWriteToTypedArray (.heapObject 66) .INT8_ELEMENTS]))
        = List.range 1) ∧
    (TypedArrayFrom detachingHost .x64 (.typedArrayFunction ⟨.INT8_ELEMENTS⟩)
        [.heapObject 80, .heapObject 72] exampleWorld
      = ⟨detachNine { exampleWorld with
            memory := StoreElementBytes exampleWorld.memory 40960 0 1 [0] },
          [.GetMethod (.heapObject 80), .GetProperty (.heapObject 80) .length] ++
            ([.Construct (.typedArrayFunction ⟨.INT8_ELEMENTS⟩) [.smi 2]] ++
              ([.GetProperty (.heapObject 80) (.index 0),
                .Call (.heapObject 72) .undefined [.smi 0, .smi 0],
                .PrepareValueForWriteToTypedArray (.smi 0) .INT8_ELEMENTS,
                .StoreElement (exampleInt8Array 100 9 0 2) 0 [0]] ++
               (.GetProperty (.heapObject 80) (.index 1)
                :: .Call (.heapObject 72) .undefined [.smi 1, .smi 1]
                :: [.PrepareValueForWriteToTypedArray (.heapObject 66) .INT8_ELEMENTS]))),
          .throw (.TypeError .kDetachedOperation)⟩ ∧
      List.filterMap Event.storeIndex
          ([.GetMethod (.heapObject 80), .GetProperty (.heapObject 80) .length] ++
            ([.Construct (.typedArrayFunction ⟨.INT8_ELEMENTS⟩) [.smi 2]] ++
              ([.GetProperty (.heapObject 80) (.index 0),
                .Call (.heapObject 72) .undefined [.smi 0, .smi 0],
                .PrepareValueForWriteToTypedArray (.smi 0) .INT8_ELEMENTS,
                .StoreElement (exampleInt8Array 100 9 0 2) 0 [0]] ++
               (.GetProperty (.heapObject 80) (.index 1)
                :: .Call (.heapObject 72) .undefined [.smi 1, .smi 1]
                :: [.PrepareValueForWriteToTypedArray (.heapObject 66) .INT8_ELEMENTS]))))
        = List.range 1) :=
  ⟨(detach_mid_loop_stops detachingHost .x64 (.typedArrayFunction ⟨.INT8_ELEMENTS⟩)
      [.smi 1, .heapObject 66, .smi 3] exampleWorld).1
      (exampleInt8Array 100 9 0 3) 1 exampleWorld
      { exampleWorld with memory := StoreElementBytes exampleWorld.memory 40960 0 1 [1] }
      (detachNine { exampleWorld with
        memory := StoreElementBytes exampleWorld.memory 40960 0 1 [1] })
      [.Construct (.typedArrayFunction ⟨.INT8_ELEMENTS⟩) [.smi 3]]
      [.PrepareValueForWriteToTypedArray (.smi 1) .INT8_ELEMENTS,
        .StoreElement (exampleInt8Array 100 9 0 3) 0 [1]]
      [.PrepareValueForWriteToTypedArray (.heapObject 66) .INT8_ELEMENTS] [0]
      rfl rfl (by decide) rfl rfl rfl,
   (detach_mid_loop_stops detachingHost .x64 (.typedArrayFunction ⟨.INT8_ELEMENTS⟩)
      [.heapObject 80, .heapObject 72] exampleWorld).2
      (exampleInt8Array 100 9 0 2) (.heapObject 80) (.smi 1) (.heapObject 66) 2 1
      exampleWorld exampleWorld
      { exampleWorld with memory := StoreElementBytes exampleWorld.memory 40960 0 1 [0] }
      { exampleWorld with memory := StoreElementBytes exampleWorld.memory 40960 0 1 [0] }
      { exampleWorld with memory := StoreElementBytes exampleWorld.memory 40960 0 1 [0] }
      (detachNine { exampleWorld with
        memory := StoreElementBytes exampleWorld.memory 40960 0 1 [0] })
      [.GetMethod (.heapObject 80), .GetProperty (.heapObject 80) .length]
      [.Construct (.typedArrayFunction ⟨.INT8_ELEMENTS⟩) [.smi 2]]
      [.GetProperty (.heapObject 80) (.index 0),
        .Call (.heapObject 72) .undefined [.smi 0, .smi 0],
        .PrepareValueForWriteToTypedArray (.smi 0) .INT8_ELEMENTS,
        .StoreElement (exampleInt8Array 100 9 0 2) 0 [0]]
      [.PrepareValueForWriteToTypedArray (.heapObject 66) .INT8_ELEMENTS] [0]
      rfl rfl rfl rfl (by decide) rfl rfl rfl rfl rfl⟩

/-! ## Stores and loads of elements -/

/-- An element that was stored holds the bytes stored. -/
theorem LoadElementBytes_StoreElementBytes_same (memory : Nat → Nat) (p i size : Nat)
    (bytes : List Nat) (hlength : bytes.length = size) :
    LoadElementBytes (StoreElementBytes memory p i size bytes) p i size = bytes := by
  apply List.ext_getElem
  · simp [LoadElementBytes, hlength]
  · intro k h1 h2
    have hk : k < size := by
      simpa [LoadElementBytes] using h1
    simp only [LoadElementBytes, List.getElem_map, List.getElem_range, StoreElementBytes]
    have hin : p + i * size ≤ p + i * size + k ∧ p + i * size + k < p + i * size + size := by
      omega
    rw [if_pos hin]
    have hsub : p + i * size + k - (p + i * size) = k := by omega
    rw [hsub, List.getD_eq_getElem _ _ h2]

/-- A store at one index leaves the elements at the other indices alone. -/
theorem LoadElementBytes_StoreElementBytes_other (memory : Nat → Nat) (p i j size : Nat)
    (bytes : List Nat) (hne : j ≠ i) :
    LoadElementBytes (StoreElementBytes memory p i size bytes) p j size
      = LoadElementBytes memory p j size := by
  unfold LoadElementBytes
  apply List.map_congr_left
  intro k hk
  have hk2 : k < size := List.mem_range.mp hk
  unfold StoreElementBytes
  have hout : ¬(p + i * size ≤ p + j * size + k ∧ p + j * size + k < p + i * size + size) := by
    rcases Nat.lt_or_gt_of_ne hne with hlt | hgt
    · have h1 : (j + 1) * size ≤ i * size := Nat.mul_le_mul_right size hlt
      have h2 : (j + 1) * size = j * size + size := by rw [Nat.add_mul, Nat.one_mul]
      omega
    · have h1 : (i + 1) * size ≤ j * size := Nat.mul_le_mul_right size hgt
      have h2 : (i + 1) * size = i * size + size := by rw [Nat.add_mul, Nat.one_mul]
      omega
  rw [if_neg hout]

theorem fromHost_of_normal {α : Type} (e : Event) (r : World × HostCompletion α) (v : α)
    (h : r.2 = .normal v) : fromHost e r = ⟨r.1, [e], .normal v⟩ := by
  simp [fromHost, h]

/-- The store of one item whose conversion returns `bytes` and leaves the view alone: the
element at the index holds `bytes` afterwards and every other element of the view is as it
was. -/
theorem StoreConvertedElement_spec (host : Host) (a : JSTypedArray) (index : Nat)
    (item : Value) (bytes : List Nat) (w : World)
    (hconv : ConvertsTo host a item bytes)
    (hlength : bytes.length = GetTypedArrayElementSize a.elements_kind)
    (hattached : IsDetachedBuffer w a.buffer = false) :
    ∃ w2, StoreConvertedElement host a index item w
        = ⟨w2, [ConversionEvent a.elements_kind item, .StoreElement a index bytes],
            .normal ()⟩ ∧
      IsDetachedBuffer w2 a.buffer = false ∧
      LoadElementBytes w2.memory a.data_ptr index (GetTypedArrayElementSize a.elements_kind)
        = bytes ∧
      ∀ j, j < a.length → j ≠ index →
        LoadElementBytes w2.memory a.data_ptr j (GetTypedArrayElementSize a.elements_kind)
          = LoadElementBytes w.memory a.data_ptr j
              (GetTypedArrayElementSize a.elements_kind) := by
  obtain ⟨hres, hleave⟩ := hconv w
  have heq := Outcome.eq_of_result_normal _ _ hres
  have hattached2 := hleave.1 hattached
  refine ⟨{ (ConvertForKind host a.elements_kind item w).world with
      memory := StoreElementBytes (ConvertForKind host a.elements_kind item w).world.memory
        (LoadDataPtr a) index (GetTypedArrayElementSize a.elements_kind) bytes }, ?_, ?_, ?_, ?_⟩
  · rw [StoreConvertedElement_eq, Outcome.andThen_of_eq _ _ _ _ _ heq]
    simp only [hattached2, Bool.false_eq_true, if_false, StoreElement, Outcome.after,
      ConvertForKind_trace]
    rfl
  · exact hattached2
  · exact LoadElementBytes_StoreElementBytes_same _ _ _ _ _ hlength
  · intro j hj hne
    have h1 := LoadElementBytes_StoreElementBytes_other
      (ConvertForKind host a.elements_kind item w).world.memory a.data_ptr index j
      (GetTypedArrayElementSize a.elements_kind) bytes hne
    exact h1.trans (hleave.2 j hj)

/-- A creation by length whose construction returns a view over an attached buffer, of at
least the requested length, returns that view. -/
theorem TypedArrayCreateByLength_of_construct (host : Host) (ctor : Value) (len : Nat)
    (w w1 : World) (a : JSTypedArray)
    (hconstruct : host.Construct ctor [.smi len] w = (w1, .normal (.typedArray a)))
    (hattached : IsDetachedBuffer w1 a.buffer = false) (hlength : len ≤ a.length) :
    TypedArrayCreateByLength host ctor len w
      = ⟨w1, [.Construct ctor [.smi len]], .normal a⟩ := by
  have hshort : ¬ a.length < len := Nat.not_lt.mpr hlength
  simp [TypedArrayCreateByLength, fromHost, hconstruct, Outcome.andThen, Outcome.after,
    ValidateTypedArray, ThrowIfNotInstanceType, ThrowIfArrayBufferViewBufferIsDetached,
    ThrowIfArrayBufferIsDetached, hattached, ThrowIfLengthLessThan, hshort, Return]

/-- The loop of `of` over `m` indices from `index` on, when every conversion returns and
leaves the view alone: it returns, the elements at those indices hold the converted arguments
and the elements below `index` are as they were. -/
theorem OfLoop_spec (host : Host) (a : JSTypedArray) (args : List Value)
    (enc : Nat → List Nat) (m : Nat) :
    ∀ (index : Nat) (w : World), index + m ≤ a.length →
      (∀ i, index ≤ i → i < index + m →
        ConvertsTo host a (args.getD i .undefined) (enc i) ∧
        (enc i).length = GetTypedArrayElementSize a.elements_kind) →
      IsDetachedBuffer w a.buffer = false →
      ∃ w2 tr, OfLoop host a args m index w = ⟨w2, tr, .normal ()⟩ ∧
        IsDetachedBuffer w2 a.buffer = false ∧
        (∀ j, index ≤ j → j < index + m →
          LoadElementBytes w2.memory a.data_ptr j (GetTypedArrayElementSize a.elements_kind)
            = enc j) ∧
        (∀ j, j < index →
          LoadElementBytes w2.memory a.data_ptr j (GetTypedArrayElementSize a.elements_kind)
            = LoadElementBytes w.memory a.data_ptr j
                (GetTypedArrayElementSize a.elements_kind)) := by
  induction m with
  | zero =>
    intro index w _ _ hattached
    exact ⟨w, [], rfl, hattached, fun j h1 h2 => absurd h2 (by omega), fun _ _ => rfl⟩
  | succ m ih =>
    intro index w hbound hconv hattached
    obtain ⟨hc, hl⟩ := hconv index (Nat.le_refl _) (by omega)
    obtain ⟨w2, hstore, hattached2, hsame, hother⟩ :=
      StoreConvertedElement_spec host a index _ _ w hc hl hattached
    obtain ⟨w3, tr3, hloop, hattached3, hin, hbelow⟩ :=
      ih (index + 1) w2 (by omega) (fun i h1 h2 => hconv i (by omega) (by omega)) hattached2
    refine ⟨w3, [ConversionEvent a.elements_kind (args.getD index .undefined),
      .StoreElement a index (enc index)] ++ tr3, ?_, hattached3, ?_, ?_⟩
    · simp only [OfLoop]
      rw [Outcome.andThen_of_eq _ _ _ _ _ hstore, hloop]
      rfl
    · intro j h1 h2
      rcases Nat.eq_or_lt_of_le h1 with heq | hlt
      · subst heq
        rw [hbelow index (by omega), hsame]
      · exact hin j (by omega) (by omega)
    · intro j hj
      rw [hbelow j (by omega), hother j (by omega) (by omega)]

/-! ## `of`: the result (C18) -/

/-- C18: let the receiver be a constructor that, constructed with the number `n` of the
arguments, returns a view `a` of `n` elements over an attached buffer (a built-in typed-array
constructor of the kind of `a`), and let the conversion of each argument for that kind return
its encoding `enc i`, of the size of an element, and leave the view alone (in particular not
detach its buffer). Then `of` returns `a`, its buffer still attached, and element `i` of `a`
holds `enc i`, the converted argument `i`, for every `i < n`. -/
theorem of_stores_converted_arguments (host : Host) (receiver : Value) (args : List Value)
    (w w1 : World) (a : JSTypedArray) (enc : Nat → List Nat)
    (hctor : IsConstructor host receiver = true)
    (hconstruct : host.Construct receiver [.smi args.length] w = (w1, .normal (.typedArray a)))
    (hlength : a.length = args.length)
    (hattached : IsDetachedBuffer w1 a.buffer = false)
    (hconv : ∀ i, i < args.length →
      ConvertsTo host a (args.getD i .undefined) (enc i) ∧
      (enc i).length = GetTypedArrayElementSize a.elements_kind) :
    ∃ w2 tr, TypedArrayOf host receiver args w = ⟨w2, tr, .normal (.typedArray a)⟩ ∧
      a.length = args.length ∧
      IsDetachedBuffer w2 a.buffer = false ∧
      ∀ i, i < args.length →
        LoadElementBytes w2.memory a.data_ptr i (GetTypedArrayElementSize a.elements_kind)
          = enc i := by
  have hcreate := TypedArrayCreateByLength_of_construct host receiver args.length w w1 a
    hconstruct hattached (Nat.le_of_eq hlength.symm)
  obtain ⟨w2, tr, hloop, hattached2, hin, _⟩ :=
    OfLoop_spec host a args enc args.length 0 w1 (by omega)
      (fun i _ h2 => hconv i (by omega)) hattached
  refine ⟨w2, [.Construct receiver [.smi args.length]] ++ (tr ++ []), ?_, hlength, hattached2,
    fun i hi => hin i (Nat.zero_le _) (by omega)⟩
  unfold TypedArrayOf
  simp only [hctor, Bool.not_true, Bool.false_eq_true, if_false]
  rw [Outcome.andThen_of_eq _ _ _ _ _ hcreate, Outcome.andThen_of_eq _ _ _ _ _ hloop]
  rfl

/-- C18, an instance: `of(1, 2, 3)` on the `Int32Array` constructor returns a view of length 3
whose elements hold the little-endian bytes of 1, 2 and 3. -/
theorem of_stores_converted_arguments_witness :
    ∃ w2 tr, TypedArrayOf constructingHost (.typedArrayFunction ⟨.INT32_ELEMENTS⟩)
          [.smi 1, .smi 2, .smi 3] exampleWorld
        = ⟨w2, tr, .normal (.typedArray (exampleTypedArray .INT32_ELEMENTS 100 9 0 3))⟩ ∧
      (exampleTypedArray .INT32_ELEMENTS 100 9 0 3).length = 3 ∧
      IsDetachedBuffer w2 (exampleTypedArray .INT32_ELEMENTS 100 9 0 3).buffer = false ∧
      ∀ i, i < 3 →
        LoadElementBytes w2.memory (exampleTypedArray .INT32_ELEMENTS 100 9 0 3).data_ptr i 4
          = [i + 1, 0, 0, 0] :=
  of_stores_converted_arguments constructingHost (.typedArrayFunction ⟨.INT32_ELEMENTS⟩)
    [.smi 1, .smi 2, .smi 3] exampleWorld exampleWorld
    (exampleTypedArray .INT32_ELEMENTS 100 9 0 3) (fun i => [i + 1, 0, 0, 0]) rfl rfl rfl rfl
    (fun i hi => by
      have hi3 : i < 3 := hi
      have hcases : i = 0 ∨ i = 1 ∨ i = 2 := by omega
      rcases hcases with h | h | h <;> subst h <;>
        exact ⟨fun w => ⟨rfl, fun h => h, fun _ _ => rfl⟩, rfl⟩)

/-! ## `from` with a mapping function that leaves the source and the target alone -/

/-- The loop of `from` over `m` indices from `index` on, when every read, every call of the
mapping function and every conversion returns and leaves the view alone: it returns, the
elements at those indices hold the converted mapped values, the elements below `index` are as
they were, and the mapping function was called once for each index, in ascending order. -/
theorem FromLoop_spec (host : Host) (a : JSTypedArray) (final_source map_fn this_arg : Value)
    (src mapped : Nat → Value) (enc : Nat → List Nat) (m : Nat) :
    ∀ (index : Nat) (w : World), index + m ≤ a.length →
      (∀ k, index ≤ k → k < index + m →
        ReadsTo host a final_source k (src k) ∧
        MapsTo host a map_fn this_arg (src k) k (mapped k) ∧
        ConvertsTo host a (mapped k) (enc k) ∧
        (enc k).length = GetTypedArrayElementSize a.elements_kind) →
      IsDetachedBuffer w a.buffer = false →
      ∃ w2 tr, FromLoop host a final_source map_fn this_arg m index w
          = ⟨w2, tr, .normal ()⟩ ∧
        IsDetachedBuffer w2 a.buffer = false ∧
        (∀ j, index ≤ j → j < index + m →
          LoadElementBytes w2.memory a.data_ptr j (GetTypedArrayElementSize a.elements_kind)
            = enc j) ∧
        (∀ j, j < index →
          LoadElementBytes w2.memory a.data_ptr j (GetTypedArrayElementSize a.elements_kind)
            = LoadElementBytes w.memory a.data_ptr j
                (GetTypedArrayElementSize a.elements_kind)) ∧
        tr.filter Event.isCall
          = (List.range' index m).map fun k => .Call map_fn this_arg [src k, .smi k] := by
  induction m with
  | zero =>
    intro index w _ _ hattached
    exact ⟨w, [], rfl, hattached, fun j h1 h2 => absurd h2 (by omega), fun _ _ => rfl, rfl⟩
  | succ m ih =>
    intro index w hbound hstep hattached
    obtain ⟨hr, hm, hc, hl⟩ := hstep index (Nat.le_refl _) (by omega)
    obtain ⟨hr1, hr2⟩ := hr w
    obtain ⟨hm1, hm2⟩ := hm (host.GetProperty final_source (.index index) w).1
    have hattachedc := hm2.1 (hr2.1 hattached)
    obtain ⟨w2, hstore, hattached2, hsame, hother⟩ :=
      StoreConvertedElement_spec host a index (mapped index) (enc index) _ hc hl hattachedc
    obtain ⟨w3, tr3, hloop, hattached3, hin, hbelow, hcalls⟩ :=
      ih (index + 1) w2 (by omega) (fun k h1 h2 => hstep k (by omega) (by omega)) hattached2
    refine ⟨w3, .GetProperty final_source (.index index)
      :: .Call map_fn this_arg [src index, .smi index]
      :: ConversionEvent a.elements_kind (mapped index)
      :: .StoreElement a index (enc index) :: tr3, ?_, hattached3, ?_, ?_, ?_⟩
    · simp only [FromLoop]
      rw [Outcome.andThen_of_eq _ _ _ _ _ (fromHost_of_normal _ _ _ hr1),
        Outcome.andThen_of_eq _ _ _ _ _ (fromHost_of_normal _ _ _ hm1),
        Outcome.andThen_of_eq _ _ _ _ _ hstore, hloop]
      rfl
    · intro j h1 h2
      rcases Nat.eq_or_lt_of_le h1 with heq | hlt
      · subst heq
        rw [hbelow index (by omega), hsame]
      · exact hin j (by omega) (by omega)
    · intro j hj
      rw [hbelow j (by omega), hother j (by omega) (by omega), hm2.2 j (by omega),
        hr2.2 j (by omega)]
    · have hnone := (ConversionEvent_storeIndex a.elements_kind (mapped index)).2
      simp only [List.filter_cons, hnone]
      simp [Event.isCall, hcalls, List.range'_succ]

/-- The mapping of `from` when reads and calls do not depend on the world: let the receiver
be a constructor that, constructed with the length `n` of the source, returns a view `a` of `n` elements over an attached buffer (a built-in typed-array
constructor of the kind of `a`); let the mapping function be callable; and for every `k < n`
let reading `source[k]` give `src k`, the call of the mapping function with `this_arg` on
`(src k, k)` give `mapped k`, and its conversion for the kind give the bytes `enc k`, each of
them leaving the view alone (in particular attached). Then `from` returns `a`, its buffer
attached; element `k` of `a` holds `enc k` for every `k < n`; and the calls of user functions
are exactly the calls of the mapping function with `this_arg` on `(src k, k)`, for
`k = 0, .., n-1` in that order. -/
theorem from_maps_each_element_in_order (host : Host) (arch : Arch) (receiver : Value)
    (args : List Value) (w w0 w1 : World) (tr0 : List Event) (a : JSTypedArray)
    (final_source : Value) (n : Nat) (src mapped : Nat → Value) (enc : Nat → List Nat)
    (hctor : IsConstructor host receiver = true)
    (hmapping : FromMapping host (GetOptionalArgumentValue args 1 .undefined) = some true)
    (hsource : FromSource host arch (GetOptionalArgumentValue args 0 .undefined) w
      = ⟨w0, tr0, .normal (final_source, n)⟩)
    (hconstruct : host.Construct receiver [.smi n] w0 = (w1, .normal (.typedArray a)))
    (hlength : a.length = n)
    (hattached : IsDetachedBuffer w1 a.buffer = false)
    (hstep : ∀ k, k < n →
      ReadsTo host a final_source k (src k) ∧
      MapsTo host a (GetOptionalArgumentValue args 1 .undefined)
        (GetOptionalArgumentValue args 2 .undefined) (src k) k (mapped k) ∧
      ConvertsTo host a (mapped k) (enc k) ∧
      (enc k).length = GetTypedArrayElementSize a.elements_kind) :
    ∃ w2 tr, TypedArrayFrom host arch receiver args w = ⟨w2, tr, .normal (.typedArray a)⟩ ∧
      a.length = n ∧
      IsDetachedBuffer w2 a.buffer = false ∧
      (∀ k, k < n →
        LoadElementBytes w2.memory a.data_ptr k (GetTypedArrayElementSize a.elements_kind)
          = enc k) ∧
      tr.filter Event.isCall
        = (List.range n).map fun k =>
            .Call (GetOptionalArgumentValue args 1 .undefined)
              (GetOptionalArgumentValue args 2 .undefined) [src k, .smi k] := by
  have hcreate := TypedArrayCreateByLength_of_construct host receiver n w0 w1 a
    hconstruct hattached (Nat.le_of_eq hlength.symm)
  obtain ⟨w2, tr, hloop, hattached2, hin, _, hcalls⟩ :=
    FromLoop_spec host a final_source (GetOptionalArgumentValue args 1 .undefined)
      (GetOptionalArgumentValue args 2 .undefined) src mapped enc n 0 w1 (by omega)
      (fun k _ h2 => hstep k (by omega)) hattached
  have htr0 : tr0.filter Event.isCall = [] := by
    rw [List.filter_eq_nil_iff]
    intro e he
    have h := FromSource_trace host arch (GetOptionalArgumentValue args 0 .undefined) w e
    rw [hsource] at h
    simp [(h he).2]
  refine ⟨w2, tr0 ++ ([.Construct receiver [.smi n]] ++ (tr ++ [])), ?_, hlength, hattached2,
    fun k hk => hin k (Nat.zero_le _) (by omega), ?_⟩
  · unfold TypedArrayFrom
    simp only [hctor, Bool.not_true, Bool.false_eq_true, if_false, hmapping]
    rw [Outcome.andThen_of_eq _ _ _ _ _ hsource]
    simp only [if_true]
    rw [Outcome.andThen_of_eq _ _ _ _ _ hcreate, Outcome.andThen_of_eq _ _ _ _ _ hloop]
    rfl
  · rw [List.filter_append, List.filter_append, List.filter_append, htr0, hcalls]
    simp [Event.isCall, List.range_eq_range']

/-- The example of the mapping: `from([1.5, 2.5], x => x * 2)` on the `Float64Array`
constructor returns
a view of length 2 whose elements hold the bytes of 3.0 and 5.0, after the calls of the
mapping function on `(1.5, 0)` and then on `(2.5, 1)`. -/
theorem from_maps_each_element_in_order_witness :
    ∃ w2 tr, TypedArrayFrom mappingHost .x64 (.typedArrayFunction ⟨.FLOAT64_ELEMENTS⟩)
          [.jsArray 5, .heapObject 71] pairWorld
        = ⟨w2, tr, .normal (.typedArray (exampleTypedArray .FLOAT64_ELEMENTS 100 9 0 2))⟩ ∧
      (exampleTypedArray .FLOAT64_ELEMENTS 100 9 0 2).length = 2 ∧
      IsDetachedBuffer w2 (exampleTypedArray .FLOAT64_ELEMENTS 100 9 0 2).buffer = false ∧
      (∀ k, k < 2 →
        LoadElementBytes w2.memory (exampleTypedArray .FLOAT64_ELEMENTS 100 9 0 2).data_ptr k 8
          = if k = 0 then [0, 0, 0, 0, 0, 0, 8, 64] else [0, 0, 0, 0, 0, 0, 20, 64]) ∧
      tr.filter Event.isCall
        = [.Call (.heapObject 71) .undefined [.heapObject 15, .smi 0],
           .Call (.heapObject 71) .undefined [.heapObject 25, .smi 1]] :=
  from_maps_each_element_in_order mappingHost .x64 (.typedArrayFunction ⟨.FLOAT64_ELEMENTS⟩)
    [.jsArray 5, .heapObject 71] pairWorld pairWorld pairWorld
    [.GetMethod (.jsArray 5), .IterableToList (.jsArray 5) (.heapObject 70)]
    (exampleTypedArray .FLOAT64_ELEMENTS 100 9 0 2) (.jsArray 6) 2
    (fun k => if k = 0 then .heapObject 15 else .heapObject 25)
    (fun k => if k = 0 then .smi 3 else .smi 5)
    (fun k => if k = 0 then [0, 0, 0, 0, 0, 0, 8, 64] else [0, 0, 0, 0, 0, 0, 20, 64])
    rfl rfl rfl rfl rfl rfl
    (fun k hk => by
      have hcases : k = 0 ∨ k = 1 := by omega
      rcases hcases with h | h <;> subst h <;>
        exact ⟨fun w => ⟨rfl, fun h => h, fun _ _ => rfl⟩,
          fun w => ⟨rfl, fun h => h, fun _ _ => rfl⟩,
          fun w => ⟨rfl, fun h => h, fun _ _ => rfl⟩, rfl⟩)

/-! ## `from`: the typed-array shortcut and the mapping function (C21) -/

/-- C21, evaluated: `from(s, f)` with an attached `Int8Array` `s` of two elements that has the
built-in iterator, an intact iterator protector and a callable mapping function `f`. Finding
the source takes the shortcut - the final source is `s` itself and `IterableToList` is not
called - although a mapping function is supplied; the loop then reads `s[1]` from the source
itself after `f` has run for index 0. -/
theorem from_shortcut_taken_with_mapping :
    FromMapping shortcutHost (.heapObject 71) = some true ∧
    FromSource shortcutHost .x64 (.typedArray (exampleInt8Array 1 1 0 2)) exampleWorld
      = ⟨exampleWorld, [.GetMethod (.typedArray (exampleInt8Array 1 1 0 2))],
          .normal (.typedArray (exampleInt8Array 1 1 0 2), 2)⟩ ∧
    (TypedArrayFrom shortcutHost .x64 (.typedArrayFunction ⟨.INT8_ELEMENTS⟩)
        [.typedArray (exampleInt8Array 1 1 0 2), .heapObject 71] exampleWorld).trace
      = [.GetMethod (.typedArray (exampleInt8Array 1 1 0 2)),
         .Construct (.typedArrayFunction ⟨.INT8_ELEMENTS⟩) [.smi 2],
         .GetProperty (.typedArray (exampleInt8Array 1 1 0 2)) (.index 0),
         .Call (.heapObject 71) .undefined [.smi 0, .smi 0],
         .PrepareValueForWriteToTypedArray (.smi 0) .INT8_ELEMENTS,
         .StoreElement (exampleInt8Array 100 9 0 2) 0 [0],
         .GetProperty (.typedArray (exampleInt8Array 1 1 0 2)) (.index 1),
         .Call (.heapObject 71) .undefined [.smi 0, .smi 1],
         .PrepareValueForWriteToTypedArray (.smi 0) .INT8_ELEMENTS,
         .StoreElement (exampleInt8Array 100 9 0 2) 1 [0]] := by
  exact ⟨rfl, rfl, rfl⟩

/-! ## The capability checks of `of`, `from` and `filter` (C24) -/

/-- C24: `of` and `from` throw the TypeError `kNotConstructor` when the receiver is a small
integer or not a constructor, and `from`, with a constructor as receiver, throws the TypeError
`kCalledNonCallable` when the mapping function is not undefined and is a small integer or not
callable; `filter`, on an attached typed array, throws the TypeError `kCalledNonCallable` when
the callback is a small integer or not callable. In each case the world is the one of the
call and the trace is empty: no view was created, the source was not examined and no element
was read. -/
theorem capability_checks_come_first (host : Host) (arch : Arch) (receiver : Value)
    (args : List Value) (w : World) :
    (((∃ n, receiver = .smi n) ∨ host.IsConstructor receiver = false) →
      TypedArrayOf host receiver args w = ⟨w, [], .throw (.TypeError .kNotConstructor)⟩ ∧
      TypedArrayFrom host arch receiver args w
        = ⟨w, [], .throw (.TypeError .kNotConstructor)⟩) ∧
    (IsConstructor host receiver = true →
      GetOptionalArgumentValue args 1 .undefined ≠ .undefined →
      ((∃ n, GetOptionalArgumentValue args 1 .undefined = .smi n) ∨
        host.IsCallable (GetOptionalArgumentValue args 1 .undefined) = false) →
      TypedArrayFrom host arch receiver args w
        = ⟨w, [], .throw (.TypeError .kCalledNonCallable)⟩) ∧
    (∀ source : JSTypedArray, receiver = .typedArray source →
      IsDetachedBuffer w source.buffer = false →
      ((∃ n, GetOptionalArgumentValue args 0 .undefined = .smi n) ∨
        host.IsCallable (GetOptionalArgumentValue args 0 .undefined) = false) →
      TypedArrayPrototypeFilter host receiver args w
        = ⟨w, [], .throw (.TypeError .kCalledNonCallable)⟩) := by
  refine ⟨?_, ?_, ?_⟩
  · intro h
    have hctor : IsConstructor host receiver = false := by
      rcases h with ⟨n, hn⟩ | h
      · subst hn
        rfl
      · unfold IsConstructor
        split
        · rfl
        · exact h
    simp [TypedArrayOf, TypedArrayFrom, hctor, Throw]
  · intro hctor hdefined h
    have hmapping : FromMapping host (GetOptionalArgumentValue args 1 .undefined) = none := by
      rcases h with ⟨n, hn⟩ | h
      · rw [hn]
        rfl
      · unfold FromMapping
        split
        · rename_i heq
          exact absurd heq hdefined
        · rfl
        · simp [h]
    simp [TypedArrayFrom, hctor, hmapping, Throw]
  · intro source hreceiver hattached h
    subst hreceiver
    have hvalid : ValidateTypedArray (.typedArray source) w = Return source w := by
      simp [ValidateTypedArray, ThrowIfNotInstanceType, ThrowIfArrayBufferViewBufferIsDetached,
        ThrowIfArrayBufferIsDetached, hattached, Outcome.andThen, Outcome.after, Return]
    unfold TypedArrayPrototypeFilter
    rw [hvalid, Outcome.andThen_Return]
    simp only []
    rw [if_pos]
    · rfl
    · generalize GetOptionalArgumentValue args 0 .undefined = callbackfn at h
      rcases h with ⟨n, hn⟩ | h
      · subst hn
        rfl
      · cases callbackfn <;> first | rfl | simp [h]

/-- C24, an instance: a small integer as receiver of `of` and `from`, a heap object that is not
callable as mapping function of `from`, and a small integer as callback of `filter`. -/
theorem capability_checks_come_first_witness :
    (TypedArrayOf exampleHost (.smi 7) [.smi 1] exampleWorld
        = ⟨exampleWorld, [], .throw (.TypeError .kNotConstructor)⟩ ∧
      TypedArrayFrom exampleHost .x64 (.smi 7) [.smi 1] exampleWorld
        = ⟨exampleWorld, [], .throw (.TypeError .kNotConstructor)⟩) ∧
    TypedArrayFrom exampleHost .x64 (.typedArrayFunction ⟨.INT8_ELEMENTS⟩)
        [.jsArray 5, .heapObject 3] exampleWorld
      = ⟨exampleWorld, [], .throw (.TypeError .kCalledNonCallable)⟩ ∧
    TypedArrayPrototypeFilter exampleHost (.typedArray (exampleInt8Array 1 1 0 4)) [.smi 3]
        exampleWorld
      = ⟨exampleWorld, [], .throw (.TypeError .kCalledNonCallable)⟩ :=
  ⟨(capability_checks_come_first exampleHost .x64 (.smi 7) [.smi 1] exampleWorld).1
      (Or.inl ⟨7, rfl⟩),
   (capability_checks_come_first exampleHost .x64 (.typedArrayFunction ⟨.INT8_ELEMENTS⟩)
      [.jsArray 5, .heapObject 3] exampleWorld).2.1 rfl (by decide) (Or.inr rfl),
   (capability_checks_come_first exampleHost .x64 (.typedArray (exampleInt8Array 1 1 0 4))
      [.smi 3] exampleWorld).2.2 (exampleInt8Array 1 1 0 4) rfl rfl (Or.inl ⟨3, rfl⟩)⟩

/-! ## `set` from a fast array: the paths (C26) -/

/-- C26: in `SetJSArraySource`, once the length check has passed: an empty source leaves
through `out` with no call at all; a source that is not empty is copied by the single call of
`CopyFastNumberJSArrayElementsToTypedArray` if and only if its elements kind is one of
`PACKED_SMI`, `HOLEY_SMI`, `PACKED_DOUBLE` and `HOLEY_DOUBLE` and the target is not of a
big-integer kind; in every other case nothing is called and control leaves through
`call_runtime`, where `set` continues with the runtime function `TypedArraySet`. -/
theorem set_fast_array_paths (host : Host) (arch : Arch) (source : Nat) (target : JSTypedArray)
    (offset : Nat) (w : World)
    (hpass : IntPtrGreaterThan arch (IntPtrAdd arch (w.js_arrays source).length offset)
      target.length = false) :
    ((w.js_arrays source).length = 0 →
      SetJSArraySource host arch source target offset w = ⟨w, [], .normal .out⟩) ∧
    ((w.js_arrays source).length ≠ 0 →
      (((w.js_arrays source).elements_kind = .PACKED_SMI_ELEMENTS ∨
        (w.js_arrays source).elements_kind = .HOLEY_SMI_ELEMENTS ∨
        (w.js_arrays source).elements_kind = .PACKED_DOUBLE_ELEMENTS ∨
        (w.js_arrays source).elements_kind = .HOLEY_DOUBLE_ELEMENTS) ∧
        IsBigInt64ElementsKind target.elements_kind = false →
        SetJSArraySource host arch source target offset w
          = ⟨host.CopyFastNumberJSArrayElementsToTypedArray source target
                (w.js_arrays source).length offset w,
              [.CopyFastNumberJSArrayElementsToTypedArray source target
                (w.js_arrays source).length offset],
              .normal .out⟩) ∧
      (¬(((w.js_arrays source).elements_kind = .PACKED_SMI_ELEMENTS ∨
          (w.js_arrays source).elements_kind = .HOLEY_SMI_ELEMENTS ∨
          (w.js_arrays source).elements_kind = .PACKED_DOUBLE_ELEMENTS ∨
          (w.js_arrays source).elements_kind = .HOLEY_DOUBLE_ELEMENTS) ∧
          IsBigInt64ElementsKind target.elements_kind = false) →
        SetJSArraySource host arch source target offset w = ⟨w, [], .normal .call_runtime⟩ ∧
        (SetJSArraySource host arch source target offset w).andThen
            (SetContinue host target (.jsArray source) offset)
          = fromHost (.RuntimeTypedArraySet target (.jsArray source) offset)
              (host.RuntimeTypedArraySet target (.jsArray source) offset w))) := by
  refine ⟨?_, ?_⟩
  · intro hempty
    have hpass0 := hpass
    rw [hempty] at hpass0
    simp [SetJSArraySource, hpass0, hempty, Return]
  · intro hne
    refine ⟨?_, ?_⟩
    · rintro ⟨hkind, hbig⟩
      rcases hkind with h | h | h | h <;>
        simp [SetJSArraySource, hpass, hne, h, hbig,
          CallCCopyFastNumberJSArrayElementsToTypedArray, Outcome.andThen, Outcome.after,
          Return]
    · intro hnot
      have hrun : SetJSArraySource host arch source target offset w
          = ⟨w, [], .normal .call_runtime⟩ := by
        cases hk : (w.js_arrays source).elements_kind <;>
          cases hb : IsBigInt64ElementsKind target.elements_kind <;>
          simp [hk, hb] at hnot <;>
          simp [SetJSArraySource, hpass, hne, hk, hb, Return]
      refine ⟨hrun, ?_⟩
      rw [hrun]
      simp [Outcome.andThen, Outcome.after, SetContinue, SetCallRuntime]

/-- C26, an instance: on an `Int8Array` of eight elements, a fast array of three small
integers is copied by the fast numeric copy; on a `BigInt64Array` it is handed to the
runtime. -/
theorem set_fast_array_paths_witness :
    SetJSArraySource exampleHost .x64 5 (exampleInt8Array 1 1 0 8) 2 exampleWorld
      = ⟨exampleHost.CopyFastNumberJSArrayElementsToTypedArray 5 (exampleInt8Array 1 1 0 8)
            (exampleWorld.js_arrays 5).length 2 exampleWorld,
          [.CopyFastNumberJSArrayElementsToTypedArray 5 (exampleInt8Array 1 1 0 8)
            (exampleWorld.js_arrays 5).length 2],
          .normal .out⟩ ∧
    SetJSArraySource exampleHost .x64 5 (exampleTypedArray .BIGINT64_ELEMENTS 1 1 0 8) 2
        exampleWorld
      = ⟨exampleWorld, [], .normal .call_runtime⟩ :=
  ⟨((set_fast_array_paths exampleHost .x64 5 (exampleInt8Array 1 1 0 8) 2 exampleWorld
      (by decide)).2 (by decide)).1 ⟨Or.inl rfl, rfl⟩,
   (((set_fast_array_paths exampleHost .x64 5 (exampleTypedArray .BIGINT64_ELEMENTS 1 1 0 8) 2
      exampleWorld (by decide)).2 (by decide)).2 (by decide)).1⟩

/-! ## `slice`: the three ways to copy (C25) -/

/-- C25: in `slice`, once the indices are converted, the result is created, the count is
positive and the source's buffer is still attached: what follows the creation contains a call
of `memmove` if and only if the source and result kinds are equal, their buffers are different
objects and the slow path is not forced, and then it is the single call
`memmove(result.data_ptr, source.data_ptr + start * size, count * size)` in word arithmetic.
In every other case, if exactly one of the two kinds is a big-integer kind the TypeError
`kBigIntMixedTypes` is thrown in the world the creation left, with no further call (nothing is
copied); otherwise the single call is the generic copy `CopyTypedArrayElementsSlice(source,
result, start, end)`. -/
theorem slice_copy_paths (host : Host) (arch : Arch) (source result : JSTypedArray)
    (args : List Value) (w w1 w2 : World) (tr1 tr2 : List Event)
    (start_index end_index count : Nat)
    (hattached : IsDetachedBuffer w source.buffer = false)
    (hindices : SliceIndices host source.length args w
      = ⟨w1, tr1, .normal (start_index, end_index, count)⟩)
    (hcreate : TypedArraySpeciesCreateByLength host source count w1
      = ⟨w2, tr2, .normal result⟩)
    (hpos : 0 < count)
    (hattached2 : IsDetachedBuffer w2 source.buffer = false) :
    ((((TypedArrayPrototypeSlice host arch (.typedArray source) args w).trace.drop
          (tr1 ++ tr2).length).any Event.isCallCMemmove = true) ↔
      (source.elements_kind = result.elements_kind ∧ source.buffer ≠ result.buffer ∧
        w2.force_slow_path = false)) ∧
    ((source.elements_kind = result.elements_kind ∧ source.buffer ≠ result.buffer ∧
        w2.force_slow_path = false) →
      TypedArrayPrototypeSlice host arch (.typedArray source) args w
        = ⟨{ w2 with memory := (memmove w2.memory result.data_ptr
              (IntPtrAdd arch source.data_ptr
                (IntPtrMul arch start_index (GetTypedArrayElementSize source.elements_kind)))
              (IntPtrMul arch count (GetTypedArrayElementSize source.elements_kind))) },
            (tr1 ++ tr2) ++ [.CallCMemmove result.data_ptr
              (IntPtrAdd arch source.data_ptr
                (IntPtrMul arch start_index (GetTypedArrayElementSize source.elements_kind)))
              (IntPtrMul arch count (GetTypedArrayElementSize source.elements_kind))],
            .normal (.typedArray result)⟩) ∧
    (¬(source.elements_kind = result.elements_kind ∧ source.buffer ≠ result.buffer ∧
        w2.force_slow_path = false) →
      (IsBigInt64ElementsKind source.elements_kind
          ≠ IsBigInt64ElementsKind result.elements_kind →
        TypedArrayPrototypeSlice host arch (.typedArray source) args w
          = ⟨w2, (tr1 ++ tr2) ++ [], .throw (.TypeError .kBigIntMixedTypes)⟩) ∧
      (IsBigInt64ElementsKind source.elements_kind
          = IsBigInt64ElementsKind result.elements_kind →
        TypedArrayPrototypeSlice host arch (.typedArray source) args w
          = ⟨host.CopyTypedArrayElementsSlice source result start_index end_index w2,
              (tr1 ++ tr2) ++ [.CopyTypedArrayElementsSlice source result start_index
                end_index],
              .normal (.typedArray result)⟩)) := by
  have hrun : TypedArrayPrototypeSlice host arch (.typedArray source) args w
      = Outcome.after (tr1 ++ tr2)
          (if source.elements_kind ≠ result.elements_kind then
            SliceCallC host source result start_index end_index w2
          else if source.buffer = result.buffer then
            SliceCallC host source result start_index end_index w2
          else if w2.force_slow_path then
            SliceCallC host source result start_index end_index w2
          else
            (CallCMemmove (LoadDataPtr result)
              (IntPtrAdd arch (LoadDataPtr source)
                (IntPtrMul arch start_index (GetTypedArrayElementSize source.elements_kind)))
              (IntPtrMul arch count (GetTypedArrayElementSize source.elements_kind))
              w2).andThen fun _ w => Return (.typedArray result) w) := by
    simp [TypedArrayPrototypeSlice, ValidateTypedArray, ThrowIfNotInstanceType,
      ThrowIfArrayBufferViewBufferIsDetached, ThrowIfArrayBufferIsDetached, hattached,
      Outcome.andThen, Outcome.after, Return, hindices, hcreate, hpos, hattached2]
  have hraw : ∀ (_ : source.elements_kind = result.elements_kind ∧
      source.buffer ≠ result.buffer ∧ w2.force_slow_path = false),
      TypedArrayPrototypeSlice host arch (.typedArray source) args w
        = ⟨{ w2 with memory := (memmove w2.memory result.data_ptr
              (IntPtrAdd arch source.data_ptr
                (IntPtrMul arch start_index (GetTypedArrayElementSize source.elements_kind)))
              (IntPtrMul arch count (GetTypedArrayElementSize source.elements_kind))) },
            (tr1 ++ tr2) ++ [.CallCMemmove result.data_ptr
              (IntPtrAdd arch source.data_ptr
                (IntPtrMul arch start_index (GetTypedArrayElementSize source.elements_kind)))
              (IntPtrMul arch count (GetTypedArrayElementSize source.elements_kind))],
            .normal (.typedArray result)⟩ := by
    rintro ⟨hk, hb, hf⟩
    rw [hrun]
    simp [hk, hb, hf, CallCMemmove, Outcome.andThen, Outcome.after, Return, LoadDataPtr]
  have hcall : ∀ (_ : ¬(source.elements_kind = result.elements_kind ∧
      source.buffer ≠ result.buffer ∧ w2.force_slow_path = false)),
      TypedArrayPrototypeSlice host arch (.typedArray source) args w
        = Outcome.after (tr1 ++ tr2)
            (SliceCallC host source result start_index end_index w2) := by
    intro hnot
    rw [hrun]
    by_cases hk : source.elements_kind = result.elements_kind
    · by_cases hb : source.buffer = result.buffer
      · simp [hk, hb]
      · have hf : w2.force_slow_path = true := by
          by_contra hf
          exact hnot ⟨hk, hb, by simpa using hf⟩
        simp [hk, hb, hf]
    · simp [hk]
  have hmixed : IsBigInt64ElementsKind source.elements_kind
      ≠ IsBigInt64ElementsKind result.elements_kind →
      SliceCallC host source result start_index end_index w2
        = ⟨w2, [], .throw (.TypeError .kBigIntMixedTypes)⟩ := by
    intro h
    simp [SliceCallC, h, Throw]
  have hsame : IsBigInt64ElementsKind source.elements_kind
      = IsBigInt64ElementsKind result.elements_kind →
      SliceCallC host source result start_index end_index w2
        = ⟨host.CopyTypedArrayElementsSlice source result start_index end_index w2,
            [.CopyTypedArrayElementsSlice source result start_index end_index],
            .normal (.typedArray result)⟩ := by
    intro h
    simp [SliceCallC, h, CallCCopyTypedArrayElementsSlice, Outcome.andThen, Outcome.after,
      Return]
  refine ⟨?_, hraw, ?_⟩
  · constructor
    · intro hany
      by_contra hnot
      rw [hcall hnot] at hany
      by_cases hbig : IsBigInt64ElementsKind source.elements_kind
          = IsBigInt64ElementsKind result.elements_kind
      · rw [hsame hbig] at hany
        simp [Outcome.after, Event.isCallCMemmove] at hany
      · rw [hmixed hbig] at hany
        simp [Outcome.after] at hany
    · intro h
      rw [hraw h]
      simp [Event.isCallCMemmove]
  · intro hnot
    refine ⟨?_, ?_⟩
    · intro hbig
      rw [hcall hnot, hmixed hbig]
      rfl
    · intro hbig
      rw [hcall hnot, hsame hbig]
      rfl

/-- C25, an instance: `slice(1, 3)` on an `Int8Array` of four elements over buffer 1, whose
result is a fresh `Int8Array` over buffer 9, copies with the single call
`memmove(result.data_ptr, source.data_ptr + 1, 2)`. -/
theorem slice_copy_paths_witness :
    TypedArrayPrototypeSlice exampleHost .x64 (.typedArray (exampleInt8Array 1 1 0 4))
        [.smi 1, .smi 3] exampleWorld
      = ⟨{ exampleWorld with memory := (memmove exampleWorld.memory
            (exampleInt8Array 100 9 0 2).data_ptr
            (IntPtrAdd .x64 (exampleInt8Array 1 1 0 4).data_ptr
              (IntPtrMul .x64 1 (GetTypedArrayElementSize .INT8_ELEMENTS)))
            (IntPtrMul .x64 2 (GetTypedArrayElementSize .INT8_ELEMENTS))) },
          ([] ++ [.CreateTypedArray (.typedArrayFunction ⟨.INT8_ELEMENTS⟩)
              (.typedArrayFunction ⟨.INT8_ELEMENTS⟩) (.smi 2) .undefined .undefined]) ++
            [.CallCMemmove (exampleInt8Array 100 9 0 2).data_ptr
              (IntPtrAdd .x64 (exampleInt8Array 1 1 0 4).data_ptr
                (IntPtrMul .x64 1 (GetTypedArrayElementSize .INT8_ELEMENTS)))
              (IntPtrMul .x64 2 (GetTypedArrayElementSize .INT8_ELEMENTS))],
          .normal (.typedArray (exampleInt8Array 100 9 0 2))⟩ :=
  (slice_copy_paths exampleHost .x64 (exampleInt8Array 1 1 0 4) (exampleInt8Array 100 9 0 2)
    [.smi 1, .smi 3] exampleWorld exampleWorld exampleWorld []
    [.CreateTypedArray (.typedArrayFunction ⟨.INT8_ELEMENTS⟩)
      (.typedArrayFunction ⟨.INT8_ELEMENTS⟩) (.smi 2) .undefined .undefined]
    1 3 2 rfl rfl rfl (by decide) rfl).2.1 ⟨rfl, by decide, rfl⟩

/-! ## The byte-length guard (C27) -/

/-- C27, as stated, fails for a maximum in the upper half of the word range: with the largest
32-bit word as `kMaxByteLength`, the negative small integer -1 is accepted, because untagged
and read as unsigned it is that same word. -/
theorem byte_length_negative_smi_counterexample :
    ByteLengthIsValid .ia32 4294967295 (.smi (-1)) = some true ∧
    ¬ ((0 : Int) ≤ -1 ∧ (-1 : Int) ≤ 4294967295) := by
  constructor
  · rfl
  · omega

/-- C27, amended: for a small-integer byte length `v`, `ByteLengthIsValid` returns true if and
only if `v`, untagged and read as an unsigned machine word, is at most `kMaxByteLength`; when
`kMaxByteLength` lies in the lower half of the word range (it is not negative as an `intptr`)
that is if and only if `0 <= v <= kMaxByteLength`, so a negative `v` is rejected. For a
heap-number byte length it returns true if and only if the value is at most
`kMaxByteLength`. -/
theorem byte_length_is_valid (arch : Arch) (kMaxByteLength : Nat)
    (hword : kMaxByteLength < arch.kWordModulus) :
    (∀ v : Int, ByteLengthIsValid arch kMaxByteLength (.smi v) = some true ↔
      (v % (arch.kWordModulus : Int)).toNat ≤ kMaxByteLength) ∧
    (2 * kMaxByteLength < arch.kWordModulus →
      ∀ v : Int, -((Smi.kMaxValue arch : Int) + 1) ≤ v → v ≤ (Smi.kMaxValue arch : Int) →
        (ByteLengthIsValid arch kMaxByteLength (.smi v) = some true ↔
          0 ≤ v ∧ v ≤ (kMaxByteLength : Int))) ∧
    (∀ x : Int, ByteLengthIsValid arch kMaxByteLength (.heapNumber (.finite x)) = some true ↔
      x ≤ (kMaxByteLength : Int)) ∧
    ByteLengthIsValid arch kMaxByteLength (.heapNumber .posInf) = some false := by
  have hunsigned : ∀ v : Int, ByteLengthIsValid arch kMaxByteLength (.smi v) = some true ↔
      (v % (arch.kWordModulus : Int)).toNat ≤ kMaxByteLength := by
    intro v
    simp [ByteLengthIsValid, UintPtrLessThanOrEqual, SmiUntagWord, Nat.mod_eq_of_lt hword]
  refine ⟨hunsigned, ?_, ?_, ?_⟩
  · intro hhalf v hlow hhigh
    rw [hunsigned v]
    have hM := two_kMaxValue_lt arch
    have hpos : (0 : Int) < (arch.kWordModulus : Int) := by omega
    by_cases hv : 0 ≤ v
    · have hmod : v % (arch.kWordModulus : Int) = v :=
        Int.emod_eq_of_lt hv (by omega)
      rw [hmod]
      omega
    · have hmod : v % (arch.kWordModulus : Int) = v + (arch.kWordModulus : Int) := by
        have h1 : (v + (arch.kWordModulus : Int)) % (arch.kWordModulus : Int)
            = v % (arch.kWordModulus : Int) := Int.add_emod_self
        rw [← h1]
        exact Int.emod_eq_of_lt (by omega) (by omega)
      rw [hmod]
      omega
  · intro x
    simp [ByteLengthIsValid, Float64LessThanOrEqual]
  · rfl

/-- C27, an instance: with the maximum 1000 on a 64-bit word, the small integer 1000 is
accepted and the small integer -1 is rejected. -/
theorem byte_length_is_valid_witness :
    (ByteLengthIsValid .x64 1000 (.smi 1000) = some true ↔
      (0 : Int) ≤ 1000 ∧ (1000 : Int) ≤ (1000 : Nat)) ∧
    (ByteLengthIsValid .x64 1000 (.smi (-1)) = some true ↔
      (0 : Int) ≤ -1 ∧ (-1 : Int) ≤ (1000 : Nat)) :=
  ⟨(byte_length_is_valid .x64 1000 (by decide)).2.1 (by decide) 1000 (by decide) (by decide),
   (byte_length_is_valid .x64 1000 (by decide)).2.1 (by decide) (-1) (by decide)
    (by decide)⟩

/-! ## `set`: the range the raw byte move writes (C28) -/

theorem IsUint8ElementsKind_size (kind : ElementsKind) (h : IsUint8ElementsKind kind = true) :
    GetTypedArrayElementSize kind = 1 := by
  cases kind <;> simp_all [IsUint8ElementsKind] <;> rfl

/-- C28: whenever `SetTypedArraySource`, with small-integer lengths and offset and the length
check passed, calls `memmove`, the source and target element sizes are equal and
`offset + source.length <= target.length`; so for a target whose byte length is
`length * element size` and fits a word, neither multiplication wraps, the call is
`memmove(target.data_ptr + offset * size, source.data_ptr, source.length * size)` with the
sum taken in word arithmetic, and the byte range written,
`[offset * size, (offset + source.length) * size)` from the start of the target's data, lies
inside the target's `byte_length` bytes. -/
theorem set_memmove_in_bounds (host : Host) (arch : Arch) (source target : JSTypedArray)
    (offset : Nat) (w : World)
    (hslen : source.length ≤ Smi.kMaxValue arch)
    (htlen : target.length ≤ Smi.kMaxValue arch)
    (hoffset : offset ≤ Smi.kMaxValue arch)
    (hpass : IntPtrGreaterThan arch (IntPtrAdd arch source.length offset) target.length
      = false)
    (hmove : (SetTypedArraySource host arch source target offset w).trace.any
      Event.isCallCMemmove = true)
    (hinvariant : target.byte_length
      = target.length * GetTypedArrayElementSize target.elements_kind)
    (hword : target.byte_length < arch.kWordModulus) :
    GetTypedArrayElementSize source.elements_kind
      = GetTypedArrayElementSize target.elements_kind ∧
    offset + source.length ≤ target.length ∧
    IntPtrMul arch source.length (GetTypedArrayElementSize source.elements_kind)
      = source.length * GetTypedArrayElementSize target.elements_kind ∧
    IntPtrMul arch offset (GetTypedArrayElementSize target.elements_kind)
      = offset * GetTypedArrayElementSize target.elements_kind ∧
    (SetTypedArraySource host arch source target offset w).trace
      = [.CallCMemmove
          (IntPtrAdd arch target.data_ptr
            (offset * GetTypedArrayElementSize target.elements_kind))
          source.data_ptr
          (source.length * GetTypedArrayElementSize target.elements_kind)] ∧
    (offset + source.length) * GetTypedArrayElementSize target.elements_kind
      ≤ target.byte_length := by
  have hcheck := IntPtrGreaterThan_IntPtrAdd arch source.length offset target.length
    hslen hoffset htlen
  rw [hpass] at hcheck
  have hfits : offset + source.length ≤ target.length := by
    have h := hcheck.symm
    simp at h
    omega
  have hpath : source.elements_kind = target.elements_kind ∨
      (IsUint8ElementsKind source.elements_kind = true ∧
        IsUint8ElementsKind target.elements_kind = true) := by
    by_contra hnot
    have hk : ¬ source.elements_kind = target.elements_kind := fun h => hnot (Or.inl h)
    by_cases hs : IsUint8ElementsKind source.elements_kind = true
    · have ht : IsUint8ElementsKind target.elements_kind = false := by
        by_contra ht
        exact hnot (Or.inr ⟨hs, by simpa using ht⟩)
      by_cases hb : IsBigInt64ElementsKind source.elements_kind
          = IsBigInt64ElementsKind target.elements_kind
      · simp [SetTypedArraySource, hpass, hk, hs, ht, hb, Outcome.andThen, Outcome.after,
          CallCCopyTypedArrayElementsToTypedArray, Return, Event.isCallCMemmove] at hmove
      · have hb2 : (IsBigInt64ElementsKind source.elements_kind
            != IsBigInt64ElementsKind target.elements_kind) = true := by simpa using hb
        simp [SetTypedArraySource, hpass, hk, hs, ht, hb2, Throw] at hmove
    · have hs2 : IsUint8ElementsKind source.elements_kind = false := by simpa using hs
      by_cases hb : IsBigInt64ElementsKind source.elements_kind
          = IsBigInt64ElementsKind target.elements_kind
      · simp [SetTypedArraySource, hpass, hk, hs2, hb, Outcome.andThen, Outcome.after,
          CallCCopyTypedArrayElementsToTypedArray, Return, Event.isCallCMemmove] at hmove
      · have hb2 : (IsBigInt64ElementsKind source.elements_kind
            != IsBigInt64ElementsKind target.elements_kind) = true := by simpa using hb
        simp [SetTypedArraySource, hpass, hk, hs2, hb2, Throw] at hmove
  have hsize : GetTypedArrayElementSize source.elements_kind
      = GetTypedArrayElementSize target.elements_kind := by
    rcases hpath with hk | ⟨hs, ht⟩
    · rw [hk]
    · rw [IsUint8ElementsKind_size _ hs, IsUint8ElementsKind_size _ ht]
  have hsum : (offset + source.length) * GetTypedArrayElementSize target.elements_kind
      ≤ target.length * GetTypedArrayElementSize target.elements_kind :=
    Nat.mul_le_mul_right _ hfits
  have hadd : (offset + source.length) * GetTypedArrayElementSize target.elements_kind
      = offset * GetTypedArrayElementSize target.elements_kind
        + source.length * GetTypedArrayElementSize target.elements_kind := Nat.add_mul _ _ _
  have hmul_s : IntPtrMul arch source.length (GetTypedArrayElementSize source.elements_kind)
      = source.length * GetTypedArrayElementSize target.elements_kind := by
    rw [hsize]
    exact Nat.mod_eq_of_lt (by omega)
  have hmul_o : IntPtrMul arch offset (GetTypedArrayElementSize target.elements_kind)
      = offset * GetTypedArrayElementSize target.elements_kind :=
    Nat.mod_eq_of_lt (by omega)
  have hrun : (SetTypedArraySource host arch source target offset w).trace
      = [.CallCMemmove
          (IntPtrAdd arch target.data_ptr
            (IntPtrMul arch offset (GetTypedArrayElementSize target.elements_kind)))
          source.data_ptr
          (IntPtrMul arch source.length (GetTypedArrayElementSize source.elements_kind))] := by
    by_cases hk : source.elements_kind = target.elements_kind
    · simp [SetTypedArraySource, hpass, hk, Outcome.andThen, Outcome.after, CallCMemmove,
        Return, LoadDataPtr]
    · rcases hpath with hk2 | ⟨hs, ht⟩
      · exact absurd hk2 hk
      · simp [SetTypedArraySource, hpass, hk, hs, ht, Outcome.andThen, Outcome.after,
          CallCMemmove, Return, LoadDataPtr]
  refine ⟨hsize, hfits, hmul_s, hmul_o, ?_, by omega⟩
  rw [hrun, hmul_s, hmul_o]

/-- C28, an instance: `set` of an `Int8Array` of four elements at offset 3 into an `Int8Array`
of eight elements writes the bytes 3 .. 6 of the target's eight. -/
theorem set_memmove_in_bounds_witness :
    GetTypedArrayElementSize (exampleInt8Array 2 1 2 4).elements_kind
      = GetTypedArrayElementSize (exampleInt8Array 1 1 0 8).elements_kind ∧
    3 + (exampleInt8Array 2 1 2 4).length ≤ (exampleInt8Array 1 1 0 8).length ∧
    IntPtrMul .x64 (exampleInt8Array 2 1 2 4).length
        (GetTypedArrayElementSize (exampleInt8Array 2 1 2 4).elements_kind)
      = (exampleInt8Array 2 1 2 4).length
          * GetTypedArrayElementSize (exampleInt8Array 1 1 0 8).elements_kind ∧
    IntPtrMul .x64 3 (GetTypedArrayElementSize (exampleInt8Array 1 1 0 8).elements_kind)
      = 3 * GetTypedArrayElementSize (exampleInt8Array 1 1 0 8).elements_kind ∧
    (SetTypedArraySource exampleHost .x64 (exampleInt8Array 2 1 2 4)
        (exampleInt8Array 1 1 0 8) 3 exampleWorld).trace
      = [.CallCMemmove
          (IntPtrAdd .x64 (exampleInt8Array 1 1 0 8).data_ptr
            (3 * GetTypedArrayElementSize (exampleInt8Array 1 1 0 8).elements_kind))
          (exampleInt8Array 2 1 2 4).data_ptr
          ((exampleInt8Array 2 1 2 4).length
            * GetTypedArrayElementSize (exampleInt8Array 1 1 0 8).elements_kind)] ∧
    (3 + (exampleInt8Array 2 1 2 4).length)
        * GetTypedArrayElementSize (exampleInt8Array 1 1 0 8).elements_kind
      ≤ (exampleInt8Array 1 1 0 8).byte_length :=
  set_memmove_in_bounds exampleHost .x64 (exampleInt8Array 2 1 2 4) (exampleInt8Array 1 1 0 8)
    3 exampleWorld (by decide) (by decide) (by decide) (by decide) (by decide) rfl (by decide)

/-! ## `slice`: the debug assertions on the raw byte move (C29) -/

/-- A relative index is at most the length. -/
theorem ConvertToRelativeIndex_le (host : Host) (index : Value) (length : Nat) (w w1 : World)
    (tr : List Event) (r : Nat)
    (h : ConvertToRelativeIndex host index length w = ⟨w1, tr, .normal r⟩) :
    r ≤ length := by
  unfold ConvertToRelativeIndex at h
  obtain ⟨index_int, _, _, h2, _⟩ := Outcome.andThen_eq_normal _ _ _ _ _ h
  cases index_int with
  | finite relative =>
    simp only at h2
    split_ifs at h2 <;>
      · simp only [Return, Outcome.mk.injEq, Completion.normal.injEq] at h2
        omega
  | posInf =>
    simp only [Return, Outcome.mk.injEq, Completion.normal.injEq] at h2
    omega
  | negInf =>
    simp only [Return, Outcome.mk.injEq, Completion.normal.injEq] at h2
    omega

/-- The indices `slice` computes are normalised: start and end are at most the length, and the
count is `end - start`, cut off at 0. -/
theorem SliceIndices_bounds (host : Host) (n : Nat) (args : List Value) (w w1 : World)
    (tr : List Event) (start_index end_index count : Nat)
    (h : SliceIndices host n args w = ⟨w1, tr, .normal (start_index, end_index, count)⟩) :
    start_index ≤ n ∧ end_index ≤ n ∧ count = end_index - start_index := by
  have hcount := SliceIndices_count host n args w w1 tr start_index end_index count h
  unfold SliceIndices at h
  obtain ⟨s, tr2, hs, h2, _⟩ := Outcome.andThen_eq_normal _ _ _ _ _ h
  obtain ⟨e, tr3, he, h3, _⟩ := Outcome.andThen_eq_normal _ _ _ _ _ h2
  simp only [Return, Outcome.mk.injEq, Completion.normal.injEq, Prod.mk.injEq] at h3
  obtain ⟨_, _, hs2, he2, _⟩ := h3
  subst hs2 he2
  have hsle := ConvertToRelativeIndex_le _ _ _ _ _ _ _ (Outcome.eq_of_result_normal _ _ hs)
  refine ⟨hsle, ?_, hcount⟩
  split_ifs at he
  · simp only [Return, Completion.normal.injEq] at he
    omega
  · exact ConvertToRelativeIndex_le _ _ _ _ _ _ _ (Outcome.eq_of_result_normal _ _ he)

/-- A species creation by length that returns gives a view of at least that length. -/
theorem TypedArraySpeciesCreateByLength_length (host : Host) (exemplar : JSTypedArray)
    (len : Nat) (w w1 : World) (tr : List Event) (result : JSTypedArray)
    (h : TypedArraySpeciesCreateByLength host exemplar len w = ⟨w1, tr, .normal result⟩) :
    len ≤ result.length := by
  unfold TypedArraySpeciesCreateByLength at h
  obtain ⟨a, _, _, h2, _⟩ := Outcome.andThen_eq_normal _ _ _ _ _ h
  obtain ⟨_, _, hlen, h3, _⟩ := Outcome.andThen_eq_normal _ _ _ _ _ h2
  simp only [Return, Outcome.mk.injEq, Completion.normal.injEq] at h3
  obtain ⟨_, _, ha⟩ := h3
  subst ha
  unfold ThrowIfLengthLessThan at hlen
  by_contra hnot
  simp [Nat.lt_of_not_le hnot, Throw] at hlen

/-- C29: for every run of `slice` in which the conversions give the start index, the end index
and the count, and the creation gives a result of the source's kind, with both views having
`byte_length = length * element size`, a word: the two debug assertions at `call_memmove`
hold, neither multiplication wraps, `count * size <= result.byte_length` and
`count * size <= source.byte_length - start * size`; so the move reads
`[start * size, start * size + count * size)` inside the source's bytes and writes
`[0, count * size)` inside the result's. -/
theorem slice_memmove_assertions_hold (host : Host) (arch : Arch)
    (source result : JSTypedArray) (args : List Value) (w w1 w2 : World)
    (tr1 tr2 : List Event) (start_index end_index count : Nat)
    (hindices : SliceIndices host source.length args w
      = ⟨w1, tr1, .normal (start_index, end_index, count)⟩)
    (hcreate : TypedArraySpeciesCreateByLength host source count w1
      = ⟨w2, tr2, .normal result⟩)
    (hkind : source.elements_kind = result.elements_kind)
    (hsource : source.byte_length
      = source.length * GetTypedArrayElementSize source.elements_kind)
    (hresult : result.byte_length
      = result.length * GetTypedArrayElementSize result.elements_kind)
    (hsword : source.byte_length < arch.kWordModulus)
    (hrword : result.byte_length < arch.kWordModulus) :
    SliceMemmoveAssertions arch source result start_index count = true ∧
    IntPtrMul arch start_index (GetTypedArrayElementSize source.elements_kind)
      = start_index * GetTypedArrayElementSize source.elements_kind ∧
    IntPtrMul arch count (GetTypedArrayElementSize source.elements_kind)
      = count * GetTypedArrayElementSize source.elements_kind ∧
    count * GetTypedArrayElementSize source.elements_kind ≤ result.byte_length ∧
    count * GetTypedArrayElementSize source.elements_kind
      ≤ source.byte_length - start_index * GetTypedArrayElementSize source.elements_kind ∧
    start_index * GetTypedArrayElementSize source.elements_kind
      + count * GetTypedArrayElementSize source.elements_kind ≤ source.byte_length := by
  obtain ⟨hs, he, hc⟩ := SliceIndices_bounds host _ args w w1 tr1 _ _ _ hindices
  have hlen := TypedArraySpeciesCreateByLength_length host source count w1 w2 tr2 result hcreate
  rw [← hkind] at hresult
  have hsum : start_index + count ≤ source.length := by omega
  have h1 : (start_index + count) * GetTypedArrayElementSize source.elements_kind
      ≤ source.length * GetTypedArrayElementSize source.elements_kind :=
    Nat.mul_le_mul_right _ hsum
  have h2 : (start_index + count) * GetTypedArrayElementSize source.elements_kind
      = start_index * GetTypedArrayElementSize source.elements_kind
        + count * GetTypedArrayElementSize source.elements_kind := Nat.add_mul _ _ _
  have h3 : count * GetTypedArrayElementSize source.elements_kind
      ≤ result.length * GetTypedArrayElementSize source.elements_kind :=
    Nat.mul_le_mul_right _ hlen
  have hmul_s : IntPtrMul arch start_index (GetTypedArrayElementSize source.elements_kind)
      = start_index * GetTypedArrayElementSize source.elements_kind :=
    Nat.mod_eq_of_lt (by omega)
  have hmul_c : IntPtrMul arch count (GetTypedArrayElementSize source.elements_kind)
      = count * GetTypedArrayElementSize source.elements_kind :=
    Nat.mod_eq_of_lt (by omega)
  have hsub : UintPtrSub arch source.byte_length
        (start_index * GetTypedArrayElementSize source.elements_kind)
      = source.byte_length - start_index * GetTypedArrayElementSize source.elements_kind := by
    unfold UintPtrSub
    rw [Nat.mod_eq_of_lt hsword, Nat.mod_eq_of_lt (by omega : start_index
      * GetTypedArrayElementSize source.elements_kind < arch.kWordModulus)]
    have hrew : source.byte_length + (arch.kWordModulus
          - start_index * GetTypedArrayElementSize source.elements_kind)
        = (source.byte_length - start_index * GetTypedArrayElementSize source.elements_kind)
          + arch.kWordModulus := by omega
    rw [hrew, Nat.add_mod_right]
    exact Nat.mod_eq_of_lt (by omega)
  refine ⟨?_, hmul_s, hmul_c, by omega, by omega, by omega⟩
  simp only [SliceMemmoveAssertions, hmul_s, hmul_c, hsub, UintPtrLessThanOrEqual,
    Bool.and_eq_true, decide_eq_true_eq]
  constructor <;> omega

/-- C29, an instance: `slice(1, 3)` on an `Int8Array` of four elements with a fresh result of
two elements: 2 bytes are moved, out of the 3 the source has from byte 1 on, into the 2 of the
result. -/
theorem slice_memmove_assertions_hold_witness :
    SliceMemmoveAssertions .x64 (exampleInt8Array 1 1 0 4) (exampleInt8Array 100 9 0 2) 1 2
      = true ∧
    IntPtrMul .x64 1 (GetTypedArrayElementSize (exampleInt8Array 1 1 0 4).elements_kind)
      = 1 * GetTypedArrayElementSize (exampleInt8Array 1 1 0 4).elements_kind ∧
    IntPtrMul .x64 2 (GetTypedArrayElementSize (exampleInt8Array 1 1 0 4).elements_kind)
      = 2 * GetTypedArrayElementSize (exampleInt8Array 1 1 0 4).elements_kind ∧
    2 * GetTypedArrayElementSize (exampleInt8Array 1 1 0 4).elements_kind
      ≤ (exampleInt8Array 100 9 0 2).byte_length ∧
    2 * GetTypedArrayElementSize (exampleInt8Array 1 1 0 4).elements_kind
      ≤ (exampleInt8Array 1 1 0 4).byte_length
        - 1 * GetTypedArrayElementSize (exampleInt8Array 1 1 0 4).elements_kind ∧
    1 * GetTypedArrayElementSize (exampleInt8Array 1 1 0 4).elements_kind
      + 2 * GetTypedArrayElementSize (exampleInt8Array 1 1 0 4).elements_kind
      ≤ (exampleInt8Array 1 1 0 4).byte_length :=
  slice_memmove_assertions_hold exampleHost .x64 (exampleInt8Array 1 1 0 4)
    (exampleInt8Array 100 9 0 2) [.smi 1, .smi 3] exampleWorld exampleWorld exampleWorld []
    [.CreateTypedArray (.typedArrayFunction ⟨.INT8_ELEMENTS⟩)
      (.typedArrayFunction ⟨.INT8_ELEMENTS⟩) (.smi 2) .undefined .undefined]
    1 3 2 rfl rfl rfl rfl rfl (by decide) (by decide)

/-! ## `subarray`: the window requested (C30) -/

/-- C30: for every typed array and all arguments, once the buffer is fetched and `begin` and
`end` are converted, `subarray` asks species creation for the window `(buffer,
begin_byte_offset, new_length)` with `begin <= length`, `new_length <= length - begin` and
`begin_byte_offset = byte_offset + begin * element size`: the window starts at or after the
source's byte offset and ends at or before the end of the source's elements. -/
theorem subarray_window_inside_source (host : Host) (arch : Arch) (source : JSTypedArray)
    (args : List Value) (w w1 w2 w3 : World) (tr1 tr2 tr3 : List Event)
    (buffer var_begin var_end : Nat)
    (hbuffer : GetBuffer host source w = ⟨w1, tr1, .normal buffer⟩)
    (hbegin : ConvertToRelativeIndex host (GetOptionalArgumentValue args 0 (.smi 0))
      source.length w1 = ⟨w2, tr2, .normal var_begin⟩)
    (hend : (if GetOptionalArgumentValue args 1 .undefined = .undefined
        then Return source.length w2
        else ConvertToRelativeIndex host (GetOptionalArgumentValue args 1 .undefined)
          source.length w2) = ⟨w3, tr3, .normal var_end⟩) :
    ∃ new_length begin_byte_offset : Nat,
      TypedArrayPrototypeSubArray host arch (.typedArray source) args w
        = Outcome.after (tr1 ++ (tr2 ++ tr3))
            ((TypedArraySpeciesCreate host source
              [.arrayBuffer buffer, NumberFromInt arch (begin_byte_offset : Int),
               .smi (new_length : Int)] w3).andThen
              fun result w => Return (.typedArray result) w) ∧
      var_begin ≤ source.length ∧
      new_length ≤ source.length - var_begin ∧
      begin_byte_offset
        = source.byte_offset + var_begin * GetTypedArrayElementSize source.elements_kind ∧
      source.byte_offset ≤ begin_byte_offset ∧
      begin_byte_offset + new_length * GetTypedArrayElementSize source.elements_kind
        ≤ source.byte_offset
          + source.length * GetTypedArrayElementSize source.elements_kind := by
  have hb := ConvertToRelativeIndex_le _ _ _ _ _ _ _ hbegin
  have he : var_end ≤ source.length := by
    split_ifs at hend
    · simp only [Return, Outcome.mk.injEq, Completion.normal.injEq] at hend
      omega
    · exact ConvertToRelativeIndex_le _ _ _ _ _ _ _ hend
  have hcount : (max ((var_end : Int) - (var_begin : Int)) 0).toNat = var_end - var_begin := by
    omega
  have hsum : var_begin + (var_end - var_begin) ≤ source.length := by omega
  have h1 : (var_begin + (var_end - var_begin))
        * GetTypedArrayElementSize source.elements_kind
      ≤ source.length * GetTypedArrayElementSize source.elements_kind :=
    Nat.mul_le_mul_right _ hsum
  have h2 : (var_begin + (var_end - var_begin))
        * GetTypedArrayElementSize source.elements_kind
      = var_begin * GetTypedArrayElementSize source.elements_kind
        + (var_end - var_begin) * GetTypedArrayElementSize source.elements_kind :=
    Nat.add_mul _ _ _
  refine ⟨var_end - var_begin,
    source.byte_offset + var_begin * GetTypedArrayElementSize source.elements_kind,
    ?_, hb, by omega, rfl, by omega, by omega⟩
  unfold TypedArrayPrototypeSubArray
  simp only [ThrowIfNotInstanceType, Outcome.andThen_Return]
  rw [Outcome.andThen_of_eq _ _ _ _ _ hbuffer, Outcome.andThen_of_eq _ _ _ _ _ hbegin,
    Outcome.andThen_of_eq _ _ _ _ _ hend]
  simp only [subarray_begin_byte_offset, hcount, Outcome.after, List.append_assoc]

/-- C30, an instance: `subarray(1, 3)` on an `Int8Array` of four elements at byte offset 2 asks
for the window of 2 elements at byte offset 3, inside the source's bytes 2 .. 6. -/
theorem subarray_window_inside_source_witness :
    ∃ new_length begin_byte_offset : Nat,
      TypedArrayPrototypeSubArray exampleHost .x64 (.typedArray (exampleInt8Array 1 1 2 4))
          [.smi 1, .smi 3] exampleWorld
        = Outcome.after ([] ++ ([] ++ []))
            ((TypedArraySpeciesCreate exampleHost (exampleInt8Array 1 1 2 4)
              [.arrayBuffer 1, NumberFromInt .x64 (begin_byte_offset : Int),
               .smi (new_length : Int)] exampleWorld).andThen
              fun result w => Return (.typedArray result) w) ∧
      1 ≤ (exampleInt8Array 1 1 2 4).length ∧
      new_length ≤ (exampleInt8Array 1 1 2 4).length - 1 ∧
      begin_byte_offset
        = (exampleInt8Array 1 1 2 4).byte_offset
          + 1 * GetTypedArrayElementSize (exampleInt8Array 1 1 2 4).elements_kind ∧
      (exampleInt8Array 1 1 2 4).byte_offset ≤ begin_byte_offset ∧
      begin_byte_offset
          + new_length * GetTypedArrayElementSize (exampleInt8Array 1 1 2 4).elements_kind
        ≤ (exampleInt8Array 1 1 2 4).byte_offset
          + (exampleInt8Array 1 1 2 4).length
            * GetTypedArrayElementSize (exampleInt8Array 1 1 2 4).elements_kind :=
  subarray_window_inside_source exampleHost .x64 (exampleInt8Array 1 1 2 4) [.smi 1, .smi 3]
    exampleWorld exampleWorld exampleWorld exampleWorld [] [] [] 1 1 3 rfl rfl rfl

/-! ## The loop of `filter` -/

theorem FilterLoop_split (host : Host) (source : JSTypedArray) (callbackfn this_arg : Value)
    (k m : Nat) :
    ∀ (index : Nat) (values : List Value) (w : World),
      FilterLoop host source callbackfn this_arg (k + m) index values w
        = (FilterLoop host source callbackfn this_arg k index values w).andThen
            fun values w => FilterLoop host source callbackfn this_arg m (index + k) values w := by
  induction k with
  | zero =>
    intro index values w
    simp [FilterLoop, Outcome.andThen_Return]
  | succ k ih =>
    intro index values w
    have hkm : k + 1 + m = (k + m) + 1 := by omega
    rw [hkm]
    simp only [FilterLoop]
    split_ifs
    · rfl
    · rw [Outcome.andThen_assoc]
      congr 1
      funext value w2
      rw [Outcome.andThen_assoc]
      congr 1
      funext selected w3
      rw [ih (index + 1) _ w3]
      have hindex : index + 1 + k = index + (k + 1) := by omega
      rw [hindex]

/-- A run of the loop of `filter` over `k` indices that returns loaded exactly those indices,
in ascending order, made `k` calls and created no view. -/
theorem FilterLoop_trace (host : Host) (source : JSTypedArray) (callbackfn this_arg : Value)
    (k : Nat) :
    ∀ (index : Nat) (values values1 : List Value) (w w1 : World) (tr : List Event),
      FilterLoop host source callbackfn this_arg k index values w
        = ⟨w1, tr, .normal values1⟩ →
      tr.filterMap Event.loadIndex = List.range' index k ∧
      (tr.filter Event.isCall).length = k ∧
      tr.filter Event.createsView = [] := by
  induction k with
  | zero =>
    intro index values values1 w w1 tr h
    simp only [FilterLoop, Return, Outcome.mk.injEq] at h
    rw [← h.2.1]
    exact ⟨rfl, rfl, rfl⟩
  | succ k ih =>
    intro index values values1 w w1 tr h
    simp only [FilterLoop] at h
    split_ifs at h
    · simp [Throw] at h
    · obtain ⟨value, tr2, _, h2, htr⟩ := Outcome.andThen_eq_normal _ _ _ _ _ h
      obtain ⟨selected, tr3, _, h3, htr3⟩ := Outcome.andThen_eq_normal _ _ _ _ _ h2
      obtain ⟨hload, hcalls, hcreate⟩ := ih _ _ _ _ _ _ h3
      rw [htr, htr3, fromHost_trace]
      simp only [LoadFixedTypedArrayElementAsTagged]
      refine ⟨?_, ?_, ?_⟩
      · simp [Event.loadIndex, hload, List.range'_succ]
      · simp [Event.isCall, hcalls]
      · simp [Event.createsView, hcreate]

/-! ## `filter`: a detachment by the callback (C23) -/

/-- C23: in `filter` on an attached typed array with a callable callback, when the loop has
run over the indices below `j`, the buffer is attached at index `j` and the call of the
callback for index `j` returns with the source's buffer detached, and `j + 1 < length`: the
next iteration throws the TypeError `kDetachedOperation` at once. The trace ends with the load
of element `j` and that call: the elements loaded are exactly those at `0 .. j`, the callback
was called `j + 1` times, and no view was created. -/
theorem filter_detach_stops (host : Host) (source : JSTypedArray) (args : List Value)
    (w wj wd : World) (trj : List Event) (values : List Value) (selected : Value) (j : Nat)
    (hattached : IsDetachedBuffer w source.buffer = false)
    (hnotsmi : ∀ n, GetOptionalArgumentValue args 0 .undefined ≠ .smi n)
    (hcallable : host.IsCallable (GetOptionalArgumentValue args 0 .undefined) = true)
    (hj : j + 1 < source.length)
    (hbefore : FilterLoop host source (GetOptionalArgumentValue args 0 .undefined)
      (GetOptionalArgumentValue args 1 .undefined) j 0 [] w = ⟨wj, trj, .normal values⟩)
    (hattachedj : IsDetachedBuffer wj source.buffer = false)
    (hcall : host.Call (GetOptionalArgumentValue args 0 .undefined)
      (GetOptionalArgumentValue args 1 .undefined)
      [host.ElementAsTagged source.elements_kind
          (LoadElementBytes wj.memory (LoadDataPtr source) j
            (GetTypedArrayElementSize source.elements_kind)),
        .smi j, .typedArray source] wj = (wd, .normal selected))
    (hdetached : IsDetachedBuffer wd source.buffer = true) :
    ∃ tr : List Event,
      TypedArrayPrototypeFilter host (.typedArray source) args w
        = ⟨wd, tr, .throw (.TypeError .kDetachedOperation)⟩ ∧
      tr = trj ++ [.LoadElement source j,
            .Call (GetOptionalArgumentValue args 0 .undefined)
              (GetOptionalArgumentValue args 1 .undefined)
              [host.ElementAsTagged source.elements_kind
                  (LoadElementBytes wj.memory (LoadDataPtr source) j
                    (GetTypedArrayElementSize source.elements_kind)),
                .smi j, .typedArray source]] ∧
      tr.filterMap Event.loadIndex = List.range (j + 1) ∧
      (tr.filter Event.isCall).length = j + 1 ∧
      tr.filter Event.createsView = [] := by
  obtain ⟨hload, hcalls, hcreate⟩ := FilterLoop_trace host source _ _ j 0 [] values w wj trj
    hbefore
  refine ⟨_, ?_, rfl, ?_, ?_, ?_⟩
  · have hvalid : ValidateTypedArray (.typedArray source) w = Return source w := by
      simp [ValidateTypedArray, ThrowIfNotInstanceType, ThrowIfArrayBufferViewBufferIsDetached,
        ThrowIfArrayBufferIsDetached, hattached, Outcome.andThen, Outcome.after, Return]
    obtain ⟨m, hm⟩ : ∃ m, source.length = j + (m + 2) := ⟨source.length - j - 2, by omega⟩
    have hloop : FilterLoop host source (GetOptionalArgumentValue args 0 .undefined)
        (GetOptionalArgumentValue args 1 .undefined) source.length 0 [] w
        = ⟨wd, trj ++ [.LoadElement source j,
            .Call (GetOptionalArgumentValue args 0 .undefined)
              (GetOptionalArgumentValue args 1 .undefined)
              [host.ElementAsTagged source.elements_kind
                  (LoadElementBytes wj.memory (LoadDataPtr source) j
                    (GetTypedArrayElementSize source.elements_kind)),
                .smi j, .typedArray source]],
            .throw (.TypeError .kDetachedOperation)⟩ := by
      rw [hm, FilterLoop_split, Outcome.andThen_of_eq _ _ _ _ _ hbefore]
      simp only [FilterLoop, Nat.zero_add, hattachedj, Bool.false_eq_true, if_false,
        LoadFixedTypedArrayElementAsTagged, fromHost, hcall, Outcome.andThen, Outcome.after,
        hdetached, if_true, Throw, List.append_nil]
      rfl
    unfold TypedArrayPrototypeFilter
    rw [hvalid, Outcome.andThen_Return]
    simp only []
    rw [if_neg]
    · rw [hloop]
      rfl
    · generalize GetOptionalArgumentValue args 0 .undefined = callbackfn at hnotsmi hcallable ⊢
      cases callbackfn with
      | smi n => exact absurd rfl (hnotsmi n)
      | _ => simp [hcallable]
  · rw [List.filterMap_append, hload]
    simp [Event.loadIndex, List.range_succ, List.range_eq_range']
  · rw [List.filter_append, List.length_append, hcalls]
    simp [Event.isCall]
  · rw [List.filter_append, hcreate]
    simp [Event.createsView]

/-- C23, an instance: `filter` on an `Int8Array` of three elements over buffer 9 with a callback
that detaches buffer 9: after the load of element 0 and the one call, the TypeError. -/
theorem filter_detach_stops_witness :
    ∃ tr : List Event,
      TypedArrayPrototypeFilter filterHost (.typedArray (exampleInt8Array 1 9 0 3))
          [.heapObject 74] exampleWorld
        = ⟨detachNine exampleWorld, tr, .throw (.TypeError .kDetachedOperation)⟩ ∧
      tr = [] ++ [.LoadElement (exampleInt8Array 1 9 0 3) 0,
            .Call (.heapObject 74) .undefined
              [.smi 0, .smi 0, .typedArray (exampleInt8Array 1 9 0 3)]] ∧
      tr.filterMap Event.loadIndex = List.range (0 + 1) ∧
      (tr.filter Event.isCall).length = 0 + 1 ∧
      tr.filter Event.createsView = [] :=
  filter_detach_stops filterHost (exampleInt8Array 1 9 0 3) [.heapObject 74] exampleWorld
    exampleWorld (detachNine exampleWorld) [] [] (.smi 1) 0 rfl (fun _ h => Value.noConfusion h) rfl
    (by decide) rfl rfl rfl rfl

/-! ## `filter`: order and selection (C22) -/

/-- The loop of `filter` over `m` indices from `index` on, in a world where the view holds
the elements `val`, when every call of the callback returns and leaves the view alone: it
returns the values kept so far followed by the `val k` whose callback result is truthy, in
ascending `k`; each of those indices is loaded once and the callback is called once for each,
in ascending order, with `(val k, k, source)`. -/
theorem FilterLoop_spec (host : Host) (source : JSTypedArray) (callbackfn this_arg : Value)
    (w0 : World) (val sel : Nat → Value)
    (hval : ∀ k, k < source.length →
      val k = host.ElementAsTagged source.elements_kind
        (LoadElementBytes w0.memory source.data_ptr k
          (GetTypedArrayElementSize source.elements_kind)))
    (m : Nat) :
    ∀ (index : Nat) (values : List Value) (w : World), index + m ≤ source.length →
      (∀ k, index ≤ k → k < index + m →
        SelectsTo host source callbackfn this_arg (val k) k (sel k)) →
      LeavesView source w0 w →
      IsDetachedBuffer w0 source.buffer = false →
      ∃ w2 tr, FilterLoop host source callbackfn this_arg m index values w
          = ⟨w2, tr, .normal (values ++
              ((List.range' index m).filter fun k => host.ToBoolean (sel k)).map val)⟩ ∧
        LeavesView source w0 w2 ∧
        tr.filter Event.isCall
          = (List.range' index m).map
              (fun k => .Call callbackfn this_arg [val k, .smi k, .typedArray source]) ∧
        tr.filterMap Event.loadIndex = List.range' index m := by
  induction m with
  | zero =>
    intro index values w _ _ hleave _
    exact ⟨w, [], by simp [FilterLoop, Return], hleave, rfl, rfl⟩
  | succ m ih =>
    intro index values w hbound hsel hleave hattached0
    have hattached := hleave.1 hattached0
    obtain ⟨hs1, hs2⟩ := hsel index (Nat.le_refl _) (by omega) w
    have hvalue : host.ElementAsTagged source.elements_kind
        (LoadElementBytes w.memory (LoadDataPtr source) index
          (GetTypedArrayElementSize source.elements_kind)) = val index := by
      rw [hval index (by omega)]
      unfold LoadDataPtr
      rw [hleave.2 index (by omega)]
    have hleave2 : LeavesView source w0
        (host.Call callbackfn this_arg [val index, .smi index, .typedArray source] w).1 :=
      ⟨fun h => hs2.1 (hleave.1 h), fun j hj => (hs2.2 j hj).trans (hleave.2 j hj)⟩
    obtain ⟨w3, tr3, hloop, hleave3, hcalls, hloads⟩ :=
      ih (index + 1)
        (if host.ToBoolean (sel index) then values ++ [val index] else values)
        (host.Call callbackfn this_arg [val index, .smi index, .typedArray source] w).1
        (by omega) (fun k h1 h2 => hsel k (by omega) (by omega)) hleave2 hattached0
    refine ⟨w3, .LoadElement source index
      :: .Call callbackfn this_arg [val index, .smi index, .typedArray source] :: tr3,
      ?_, hleave3, ?_, ?_⟩
    · simp only [FilterLoop, hattached, Bool.false_eq_true, if_false,
        LoadFixedTypedArrayElementAsTagged, hvalue]
      rw [Outcome.andThen_of_eq _ _ _ _ (val index) rfl,
        Outcome.andThen_of_eq _ _ _ _ _ (fromHost_of_normal _ _ _ hs1), hloop]
      simp only [Outcome.after, List.range'_succ, List.filter_cons]
      by_cases hb : host.ToBoolean (sel index) = true
      · simp [hb]
      · simp [hb]
    · simp [Event.isCall, hcalls, List.range'_succ]
    · simp [Event.loadIndex, hloads, List.range'_succ]

/-- C22: for an attached typed array `s` of length `n`, with `val k` the value of element `k`
in the world of the call, and a callable callback whose call on `(val k, k, s)` returns
`sel k` and leaves `s` alone (in particular attached), for every `k < n`: the loop of `filter`
returns; the callback is called exactly once for each `k = 0, .., n-1`, in ascending order,
with `this_arg` on `(val k, k, s)`, and each element is loaded once, in that order; the values
kept are the `val k` with `sel k` truthy, in ascending `k`; and `filter` goes on to create the
result through species creation with exactly their number as length and to hand exactly those
values, with that number, to `TypedArrayCopyElements`. -/
theorem filter_keeps_selected_in_order (host : Host) (source : JSTypedArray)
    (args : List Value) (w : World) (val sel : Nat → Value)
    (hattached : IsDetachedBuffer w source.buffer = false)
    (hnotsmi : ∀ n, GetOptionalArgumentValue args 0 .undefined ≠ .smi n)
    (hcallable : host.IsCallable (GetOptionalArgumentValue args 0 .undefined) = true)
    (hval : ∀ k, k < source.length →
      val k = host.ElementAsTagged source.elements_kind
        (LoadElementBytes w.memory source.data_ptr k
          (GetTypedArrayElementSize source.elements_kind)))
    (hsel : ∀ k, k < source.length →
      SelectsTo host source (GetOptionalArgumentValue args 0 .undefined)
        (GetOptionalArgumentValue args 1 .undefined) (val k) k (sel k)) :
    ∃ w1 tr1,
      FilterLoop host source (GetOptionalArgumentValue args 0 .undefined)
          (GetOptionalArgumentValue args 1 .undefined) source.length 0 [] w
        = ⟨w1, tr1, .normal
            (((List.range source.length).filter fun k => host.ToBoolean (sel k)).map val)⟩ ∧
      tr1.filter Event.isCall
        = (List.range source.length).map
            (fun k => .Call (GetOptionalArgumentValue args 0 .undefined)
              (GetOptionalArgumentValue args 1 .undefined)
              [val k, .smi k, .typedArray source]) ∧
      tr1.filterMap Event.loadIndex = List.range source.length ∧
      TypedArrayPrototypeFilter host (.typedArray source) args w
        = Outcome.after tr1
            ((TypedArraySpeciesCreateByLength host source
              (((List.range source.length).filter
                fun k => host.ToBoolean (sel k)).map val).length w1).andThen
              fun result_array w =>
                (fromHost (.RuntimeTypedArrayCopyElements result_array
                    (((List.range source.length).filter
                      fun k => host.ToBoolean (sel k)).map val)
                    (((List.range source.length).filter
                      fun k => host.ToBoolean (sel k)).map val).length)
                  (host.RuntimeTypedArrayCopyElements result_array
                    (((List.range source.length).filter
                      fun k => host.ToBoolean (sel k)).map val)
                    (((List.range source.length).filter
                      fun k => host.ToBoolean (sel k)).map val).length w)).andThen
                  fun _ w => Return (.typedArray result_array) w) := by
  obtain ⟨w1, tr1, hloop, _, hcalls, hloads⟩ :=
    FilterLoop_spec host source (GetOptionalArgumentValue args 0 .undefined)
      (GetOptionalArgumentValue args 1 .undefined) w val sel hval source.length 0 [] w
      (by omega) (fun k _ h2 => hsel k (by omega)) ⟨fun h => h, fun _ _ => rfl⟩ hattached
  rw [List.nil_append, ← List.range_eq_range'] at hloop
  rw [← List.range_eq_range'] at hcalls hloads
  refine ⟨w1, tr1, hloop, hcalls, hloads, ?_⟩
  have hvalid : ValidateTypedArray (.typedArray source) w = Return source w := by
    simp [ValidateTypedArray, ThrowIfNotInstanceType, ThrowIfArrayBufferViewBufferIsDetached,
      ThrowIfArrayBufferIsDetached, hattached, Outcome.andThen, Outcome.after, Return]
  unfold TypedArrayPrototypeFilter
  rw [hvalid, Outcome.andThen_Return]
  simp only []
  rw [if_neg]
  · rw [Outcome.andThen_of_eq _ _ _ _ _ hloop]
  · generalize GetOptionalArgumentValue args 0 .undefined = callbackfn at hnotsmi hcallable ⊢
    cases callbackfn with
    | smi n => exact absurd rfl (hnotsmi n)
    | _ => simp [hcallable]

/-- C22, an instance: filtering `[5, 1, 4, 2, 3]` with `v > 2` calls the callback on
`(5, 0)`, `(1, 1)`, `(4, 2)`, `(2, 3)`, `(3, 4)` in that order, keeps `[5, 4, 3]`, asks for a
result of length 3 and hands it those three values. -/
theorem filter_keeps_selected_in_order_witness :
    ∃ w1 tr1,
      FilterLoop filterHost (exampleInt8Array 1 1 0 5) (.heapObject 73) .undefined 5 0 []
          filterWorld
        = ⟨w1, tr1, .normal [.smi 5, .smi 4, .smi 3]⟩ ∧
      tr1.filter Event.isCall
        = [.Call (.heapObject 73) .undefined
              [.smi 5, .smi 0, .typedArray (exampleInt8Array 1 1 0 5)],
           .Call (.heapObject 73) .undefined
              [.smi 1, .smi 1, .typedArray (exampleInt8Array 1 1 0 5)],
           .Call (.heapObject 73) .undefined
              [.smi 4, .smi 2, .typedArray (exampleInt8Array 1 1 0 5)],
           .Call (.heapObject 73) .undefined
              [.smi 2, .smi 3, .typedArray (exampleInt8Array 1 1 0 5)],
           .Call (.heapObject 73) .undefined
              [.smi 3, .smi 4, .typedArray (exampleInt8Array 1 1 0 5)]] ∧
      tr1.filterMap Event.loadIndex = [0, 1, 2, 3, 4] ∧
      TypedArrayPrototypeFilter filterHost (.typedArray (exampleInt8Array 1 1 0 5))
          [.heapObject 73] filterWorld
        = Outcome.after tr1
            ((TypedArraySpeciesCreateByLength filterHost (exampleInt8Array 1 1 0 5) 3
              w1).andThen
              fun result_array w =>
                (fromHost (.RuntimeTypedArrayCopyElements result_array
                    [.smi 5, .smi 4, .smi 3] 3)
                  (filterHost.RuntimeTypedArrayCopyElements result_array
                    [.smi 5, .smi 4, .smi 3] 3 w)).andThen
                  fun _ w => Return (.typedArray result_array) w) :=
  filter_keeps_selected_in_order filterHost (exampleInt8Array 1 1 0 5) [.heapObject 73]
    filterWorld
    (fun k => .smi (([5, 1, 4, 2, 3] : List Nat).getD k 0 : Nat))
    (fun k => .smi (if 2 < ((([5, 1, 4, 2, 3] : List Nat).getD k 0 : Nat) : Int) then 1 else 0))
    rfl (fun _ h => Value.noConfusion h) rfl
    (fun k hk => by
      have hk5 : k < 5 := hk
      have hcases : k = 0 ∨ k = 1 ∨ k = 2 ∨ k = 3 ∨ k = 4 := by omega
      rcases hcases with h | h | h | h | h <;> subst h <;> rfl)
    (fun k _ w => ⟨rfl, fun h => h, fun _ _ => rfl⟩)

/-! ## Species creation: which path validates the result (C14) -/

/-- On its slow path species creation returns only a view whose buffer is attached. -/
theorem TypedArraySpeciesCreate_slow_attached (host : Host) (exemplar result : JSTypedArray)
    (args : List Value) (w w1 : World) (tr : List Event)
    (hslow : w.prototype_is_typed_array_prototype exemplar.id = false ∨
      w.typed_array_species_protector_invalid = true)
    (h : TypedArraySpeciesCreate host exemplar args w = ⟨w1, tr, .normal result⟩) :
    IsDetachedBuffer w1 result.buffer = false := by
  have hrun : TypedArraySpeciesCreate host exemplar args w
      = (fromHost (.SpeciesConstructor exemplar (GetDefaultConstructor exemplar))
        (host.SpeciesConstructor exemplar (GetDefaultConstructor exemplar) w)).andThen
        (fun ctor w =>
          (fromHost (.Construct ctor args) (host.Construct ctor args w)).andThen
            fun new_object w => ValidateTypedArray new_object w) := by
    unfold TypedArraySpeciesCreate
    rcases hslow with hp | hs
    · simp [hp]
    · simp [hs]
  rw [hrun] at h
  obtain ⟨ctor, tr2, _, h2, _⟩ := Outcome.andThen_eq_normal _ _ _ _ _ h
  obtain ⟨new_object, tr3, _, h3, _⟩ := Outcome.andThen_eq_normal _ _ _ _ _ h2
  obtain ⟨_, hw, _, hatt⟩ := ValidateTypedArray_normal _ _ _ _ _ h3
  rw [hw]
  exact hatt

/-- What `subarray` does once the buffer is fetched and `begin` and `end` are converted, for
all arguments: it goes to species creation with the buffer, the begin byte offset
`byte_offset + begin * element size` and the new length `end - begin` (0 when the end lies
before the begin), and returns what species creation returns. -/
theorem TypedArrayPrototypeSubArray_run (host : Host) (arch : Arch) (source : JSTypedArray)
    (args : List Value) (w w1 w2 w3 : World) (tr1 tr2 tr3 : List Event)
    (buffer var_begin var_end : Nat)
    (hbuffer : GetBuffer host source w = ⟨w1, tr1, .normal buffer⟩)
    (hbegin : ConvertToRelativeIndex host (GetOptionalArgumentValue args 0 (.smi 0))
      source.length w1 = ⟨w2, tr2, .normal var_begin⟩)
    (hend : (if GetOptionalArgumentValue args 1 .undefined = .undefined
        then Return source.length w2
        else ConvertToRelativeIndex host (GetOptionalArgumentValue args 1 .undefined)
          source.length w2) = ⟨w3, tr3, .normal var_end⟩) :
    TypedArrayPrototypeSubArray host arch (.typedArray source) args w
      = Outcome.after (tr1 ++ (tr2 ++ tr3))
          ((TypedArraySpeciesCreate host source
            [.arrayBuffer buffer,
             NumberFromInt arch ((source.byte_offset
               + var_begin * GetTypedArrayElementSize source.elements_kind : Nat) : Int),
             .smi ((var_end - var_begin : Nat) : Int)] w3).andThen
            fun result w => Return (.typedArray result) w) := by
  have hcount : (max ((var_end : Int) - (var_begin : Int)) 0).toNat = var_end - var_begin := by
    omega
  unfold TypedArrayPrototypeSubArray
  simp only [ThrowIfNotInstanceType, Outcome.andThen_Return]
  rw [Outcome.andThen_of_eq _ _ _ _ _ hbuffer, Outcome.andThen_of_eq _ _ _ _ _ hbegin,
    Outcome.andThen_of_eq _ _ _ _ _ hend]
  simp only [subarray_begin_byte_offset, hcount, Outcome.after, List.append_assoc]

/-- C17, amended: `subarray` does not itself require the buffer of the source to be attached.
On a typed array whose buffer is detached at the call it throws no detached-buffer error of
its own: it fetches the buffer through the runtime function `TypedArrayGetBuffer` and, for all
arguments, once `begin` and `end` are converted, hands that buffer, the begin byte offset and
the new length to species creation. On the fast path of species creation it returns the view
the `CreateTypedArray` builtin produced; on the slow path a species constructor that returns a
view over a detached buffer - such as one over that same buffer - is answered with the
TypeError `kDetachedOperation`. -/
theorem subarray_detached_source (host : Host) (arch : Arch) (source : JSTypedArray)
    (args : List Value) (w : World) (hdetached : IsDetachedBuffer w source.buffer = true) :
    GetBuffer host source w
      = fromHost (.RuntimeTypedArrayGetBuffer source)
          (host.RuntimeTypedArrayGetBuffer source w) ∧
    (∀ (w1 w2 w3 : World) (tr2 tr3 : List Event) (buffer var_begin var_end : Nat),
      host.RuntimeTypedArrayGetBuffer source w = (w1, .normal buffer) →
      ConvertToRelativeIndex host (GetOptionalArgumentValue args 0 (.smi 0))
        source.length w1 = ⟨w2, tr2, .normal var_begin⟩ →
      (if GetOptionalArgumentValue args 1 .undefined = .undefined
        then Return source.length w2
        else ConvertToRelativeIndex host (GetOptionalArgumentValue args 1 .undefined)
          source.length w2) = ⟨w3, tr3, .normal var_end⟩ →
      TypedArrayPrototypeSubArray host arch (.typedArray source) args w
        = Outcome.after ([.RuntimeTypedArrayGetBuffer source] ++ (tr2 ++ tr3))
            ((TypedArraySpeciesCreate host source
              [.arrayBuffer buffer,
               NumberFromInt arch ((source.byte_offset
                 + var_begin * GetTypedArrayElementSize source.elements_kind : Nat) : Int),
               .smi ((var_end - var_begin : Nat) : Int)] w3).andThen
              fun result w => Return (.typedArray result) w) ∧
      (w3.prototype_is_typed_array_prototype source.id = true →
        w3.typed_array_species_protector_invalid = false →
        ∀ (w4 : World) (result : JSTypedArray),
          host.CreateTypedArray (GetDefaultConstructor source) (GetDefaultConstructor source)
            (.arrayBuffer buffer)
            (NumberFromInt arch ((source.byte_offset
              + var_begin * GetTypedArrayElementSize source.elements_kind : Nat) : Int))
            (.smi ((var_end - var_begin : Nat) : Int)) w3 = (w4, .normal result) →
          TypedArrayPrototypeSubArray host arch (.typedArray source) args w
            = ⟨w4, ([.RuntimeTypedArrayGetBuffer source] ++ (tr2 ++ tr3)) ++
                [.CreateTypedArray (GetDefaultConstructor source)
                  (GetDefaultConstructor source) (.arrayBuffer buffer)
                  (NumberFromInt arch ((source.byte_offset
                    + var_begin * GetTypedArrayElementSize source.elements_kind : Nat) : Int))
                  (.smi ((var_end - var_begin : Nat) : Int))],
                .normal (.typedArray result)⟩) ∧
      ((w3.prototype_is_typed_array_prototype source.id = false ∨
          w3.typed_array_species_protector_invalid = true) →
        ∀ (w4 w5 : World) (ctor : Value) (result : JSTypedArray),
          host.SpeciesConstructor source (GetDefaultConstructor source) w3
            = (w4, .normal ctor) →
          host.Construct ctor
            [.arrayBuffer buffer,
             NumberFromInt arch ((source.byte_offset
               + var_begin * GetTypedArrayElementSize source.elements_kind : Nat) : Int),
             .smi ((var_end - var_begin : Nat) : Int)] w4
            = (w5, .normal (.typedArray result)) →
          IsDetachedBuffer w5 result.buffer = true →
          TypedArrayPrototypeSubArray host arch (.typedArray source) args w
            = ⟨w5, ([.RuntimeTypedArrayGetBuffer source] ++ (tr2 ++ tr3)) ++
                [.SpeciesConstructor source (GetDefaultConstructor source),
                 .Construct ctor
                  [.arrayBuffer buffer,
                   NumberFromInt arch ((source.byte_offset
                     + var_begin * GetTypedArrayElementSize source.elements_kind : Nat) : Int),
                   .smi ((var_end - var_begin : Nat) : Int)]],
                .throw (.TypeError .kDetachedOperation)⟩)) := by
  have hget : GetBuffer host source w
      = fromHost (.RuntimeTypedArrayGetBuffer source)
          (host.RuntimeTypedArrayGetBuffer source w) := by
    simp [GetBuffer, hdetached]
  refine ⟨hget, ?_⟩
  intro w1 w2 w3 tr2 tr3 buffer var_begin var_end hruntime hbegin hend
  have hbuffer : GetBuffer host source w
      = ⟨w1, [.RuntimeTypedArrayGetBuffer source], .normal buffer⟩ := by
    rw [hget]
    simp [fromHost, hruntime]
  have hrun := TypedArrayPrototypeSubArray_run host arch source args w w1 w2 w3 _ tr2 tr3
    buffer var_begin var_end hbuffer hbegin hend
  refine ⟨hrun, ?_, ?_⟩
  · intro hproto hprotector w4 result hcreate
    have hfast : TypedArraySpeciesCreate host source
        [.arrayBuffer buffer,
         NumberFromInt arch ((source.byte_offset
           + var_begin * GetTypedArrayElementSize source.elements_kind : Nat) : Int),
         .smi ((var_end - var_begin : Nat) : Int)] w3
        = ⟨w4, [.CreateTypedArray (GetDefaultConstructor source)
              (GetDefaultConstructor source) (.arrayBuffer buffer)
              (NumberFromInt arch ((source.byte_offset
                + var_begin * GetTypedArrayElementSize source.elements_kind : Nat) : Int))
              (.smi ((var_end - var_begin : Nat) : Int))], .normal result⟩ := by
      unfold TypedArraySpeciesCreate
      simp only [hproto, hprotector, Bool.not_true, Bool.false_eq_true, if_false,
        List.getD_cons_zero, List.getD_cons_succ, fromHost, hcreate]
    rw [hrun, hfast]
    rfl
  · intro hslow w4 w5 ctor result hspecies hconstruct hdet
    have hvalidate : ValidateTypedArray (.typedArray result) w5
        = ⟨w5, [], .throw (.TypeError .kDetachedOperation)⟩ := by
      simp [ValidateTypedArray, ThrowIfNotInstanceType, ThrowIfArrayBufferViewBufferIsDetached,
        ThrowIfArrayBufferIsDetached, hdet, Outcome.andThen, Outcome.after, Return, Throw]
    rw [hrun, TypedArraySpeciesCreate_slow host source _ w3 w4 w5 ctor (.typedArray result)
      hslow hspecies hconstruct, hvalidate]
    rfl

/-- C17, amended, an instance: on the view over the detached buffer 7, `subarray(0, 2)` with
the default constructor returns the view `CreateTypedArray` bound over buffer 7, and with a
species constructor that returns a view over buffer 7 it throws the TypeError. -/
theorem subarray_detached_source_witness :
    TypedArrayPrototypeSubArray bindingHost .x64 (.typedArray (exampleInt8Array 1 7 0 4))
        [.smi 0, .smi 2] detachedWorld
      = ⟨detachedWorld,
          ([.RuntimeTypedArrayGetBuffer (exampleInt8Array 1 7 0 4)] ++ ([] ++ [])) ++
            [.CreateTypedArray (GetDefaultConstructor (exampleInt8Array 1 7 0 4))
              (GetDefaultConstructor (exampleInt8Array 1 7 0 4)) (.arrayBuffer 7)
              (NumberFromInt .x64 (((exampleInt8Array 1 7 0 4).byte_offset
                + 0 * GetTypedArrayElementSize (exampleInt8Array 1 7 0 4).elements_kind
                  : Nat) : Int))
              (.smi ((2 - 0 : Nat) : Int))],
          .normal (.typedArray (exampleTypedArray .INT8_ELEMENTS 100 7 0 2))⟩ ∧
    TypedArrayPrototypeSubArray sameBufferHost .x64 (.typedArray (exampleInt8Array 1 7 0 4))
        [.smi 0, .smi 2] customisedDetachedWorld
      = ⟨customisedDetachedWorld,
          ([.RuntimeTypedArrayGetBuffer (exampleInt8Array 1 7 0 4)] ++ ([] ++ [])) ++
            [.SpeciesConstructor (exampleInt8Array 1 7 0 4)
              (GetDefaultConstructor (exampleInt8Array 1 7 0 4)),
             .Construct (.heapObject 50)
              [.arrayBuffer 7,
               NumberFromInt .x64 (((exampleInt8Array 1 7 0 4).byte_offset
                 + 0 * GetTypedArrayElementSize (exampleInt8Array 1 7 0 4).elements_kind
                   : Nat) : Int),
               .smi ((2 - 0 : Nat) : Int)]],
          .throw (.TypeError .kDetachedOperation)⟩ :=
  ⟨((subarray_detached_source bindingHost .x64 (exampleInt8Array 1 7 0 4) [.smi 0, .smi 2]
      detachedWorld rfl).2 detachedWorld detachedWorld detachedWorld [] [] 7 0 2 rfl rfl
      rfl).2.1 rfl rfl detachedWorld (exampleTypedArray .INT8_ELEMENTS 100 7 0 2) rfl,
   ((subarray_detached_source sameBufferHost .x64 (exampleInt8Array 1 7 0 4)
      [.smi 0, .smi 2] customisedDetachedWorld rfl).2 customisedDetachedWorld
      customisedDetachedWorld customisedDetachedWorld [] [] 7 0 2 rfl rfl rfl).2.2
      (Or.inr rfl) customisedDetachedWorld customisedDetachedWorld (.heapObject 50)
      (exampleInt8Array 101 7 0 2) rfl rfl rfl⟩

/-! ## `subarray`: a view on the same buffer (C16) -/

theorem GetBuffer_trace (host : Host) (source : JSTypedArray) (w : World) (e : Event)
    (h : e ∈ (GetBuffer host source w).trace) : e.accessesElements = false := by
  unfold GetBuffer at h
  simp only [] at h
  split_ifs at h
  · rw [fromHost_trace_mem _ _ _ h]
    rfl
  · rw [fromHost_trace_mem _ _ _ h]
    rfl
  · simp [Return] at h

theorem ConvertToRelativeIndex_trace (host : Host) (index : Value) (length : Nat) (w : World)
    (e : Event) (h : e ∈ (ConvertToRelativeIndex host index length w).trace) :
    e.accessesElements = false := by
  unfold ConvertToRelativeIndex at h
  rcases Outcome.andThen_trace_mem _ _ _ h with h1 | ⟨v, h2⟩
  · unfold ToInteger_Inline at h1
    split at h1
    · simp [Return] at h1
    · simp [Return] at h1
    · rw [fromHost_trace_mem _ _ _ h1]
      rfl
  · cases v with
    | finite relative =>
      simp only at h2
      split_ifs at h2 <;> simp [Return] at h2
    | posInf => simp [Return] at h2
    | negInf => simp [Return] at h2

theorem ValidateTypedArray_trace (obj : Value) (w : World) :
    (ValidateTypedArray obj w).trace = [] := by
  cases obj with
  | typedArray a =>
    cases hd : IsDetachedBuffer w a.buffer <;>
      simp [ValidateTypedArray, ThrowIfNotInstanceType, ThrowIfArrayBufferViewBufferIsDetached,
        ThrowIfArrayBufferIsDetached, hd, Outcome.andThen, Outcome.after, Return, Throw]
  | _ => simp [ValidateTypedArray, ThrowIfNotInstanceType, Outcome.andThen, Throw]

theorem TypedArraySpeciesCreate_trace (host : Host) (exemplar : JSTypedArray)
    (args : List Value) (w : World) (e : Event)
    (h : e ∈ (TypedArraySpeciesCreate host exemplar args w).trace) :
    e.accessesElements = false := by
  have hslow : ∀ e, e ∈ ((fromHost (.SpeciesConstructor exemplar (GetDefaultConstructor exemplar))
        (host.SpeciesConstructor exemplar (GetDefaultConstructor exemplar) w)).andThen
        (fun ctor w =>
          (fromHost (.Construct ctor args) (host.Construct ctor args w)).andThen
            fun new_object w => ValidateTypedArray new_object w)).trace →
      e.accessesElements = false := by
    intro e h
    rcases Outcome.andThen_trace_mem _ _ _ h with h1 | ⟨ctor, h2⟩
    · rw [fromHost_trace_mem _ _ _ h1]
      rfl
    · rcases Outcome.andThen_trace_mem _ _ _ h2 with h3 | ⟨new_object, h4⟩
      · rw [fromHost_trace_mem _ _ _ h3]
        rfl
      · rw [ValidateTypedArray_trace] at h4
        simp at h4
  unfold TypedArraySpeciesCreate at h
  simp only [] at h
  split_ifs at h
  · exact hslow e h
  · exact hslow e h
  · rw [fromHost_trace_mem _ _ _ h]
    rfl

/-- C20, evaluated: `from(s, f)` on the `Int8Array` constructor, with `s` the attached
`Int8Array` `[5, 1]` that has the built-in iterator, an intact iterator protector, and `f` a
callable that returns its first argument and, called for index 0, writes 77 to `s[1]`. At the
call `s[1]` is 1 and `f(1, 1)` is 1; the code takes the typed-array shortcut (no
`IterableToList`), reads `s[1]` after `f` has run for index 0, calls `f(77, 1)` and returns the
view whose element 1 is 77. -/
theorem from_mapping_reads_written_source :
    LoadElementBytes filterWorld.memory (exampleInt8Array 1 1 0 2).data_ptr 1 1 = [1] ∧
    (∀ w, (writingHost.Call (.heapObject 75) .undefined [.smi 1, .smi 1] w).2
      = .normal (.smi 1)) ∧
    (TypedArrayFrom writingHost .x64 (.typedArrayFunction ⟨.INT8_ELEMENTS⟩)
        [.typedArray (exampleInt8Array 1 1 0 2), .heapObject 75] filterWorld).result
      = .normal (.typedArray (exampleInt8Array 100 9 0 2)) ∧
    (TypedArrayFrom writingHost .x64 (.typedArrayFunction ⟨.INT8_ELEMENTS⟩)
        [.typedArray (exampleInt8Array 1 1 0 2), .heapObject 75] filterWorld).trace
      = [.GetMethod (.typedArray (exampleInt8Array 1 1 0 2)),
         .Construct (.typedArrayFunction ⟨.INT8_ELEMENTS⟩) [.smi 2],
         .GetProperty (.typedArray (exampleInt8Array 1 1 0 2)) (.index 0),
         .Call (.heapObject 75) .undefined [.smi 5, .smi 0],
         .PrepareValueForWriteToTypedArray (.smi 5) .INT8_ELEMENTS,
         .StoreElement (exampleInt8Array 100 9 0 2) 0 [5],
         .GetProperty (.typedArray (exampleInt8Array 1 1 0 2)) (.index 1),
         .Call (.heapObject 75) .undefined [.smi 77, .smi 1],
         .PrepareValueForWriteToTypedArray (.smi 77) .INT8_ELEMENTS,
         .StoreElement (exampleInt8Array 100 9 0 2) 1 [77]] ∧
    LoadElementBytes
        (TypedArrayFrom writingHost .x64 (.typedArrayFunction ⟨.INT8_ELEMENTS⟩)
          [.typedArray (exampleInt8Array 1 1 0 2), .heapObject 75] filterWorld).world.memory
        (exampleInt8Array 100 9 0 2).data_ptr 1 1 = [77] := by
  exact ⟨rfl, fun _ => rfl, rfl, rfl, rfl⟩

/-! ## `slice`: the view returned and its isolation (C10) -/

/-- A `memmove` leaves an element that lies outside the destination range as it was. -/
theorem memmove_LoadElementBytes_disjoint (memory : Nat → Nat)
    (dest src byte_length q j size : Nat)
    (h : q + (j + 1) * size ≤ dest ∨ dest + byte_length ≤ q + j * size) :
    LoadElementBytes (memmove memory dest src byte_length) q j size
      = LoadElementBytes memory q j size := by
  unfold LoadElementBytes
  apply List.map_congr_left
  intro k hk
  have hk' : k < size := List.mem_range.mp hk
  have h2 : (j + 1) * size = j * size + size := by
    rw [Nat.add_mul, Nat.one_mul]
  have hout : ¬ (dest ≤ q + j * size + k ∧ q + j * size + k < dest + byte_length) := by
    rcases h with h | h <;> omega
  simp only [memmove, hout, if_false]

/-- Two views, each bound inside its own buffer, over two buffers whose storage lies apart,
have disjoint byte ranges. -/
theorem ByteRangesDisjoint_of_buffers (w : World) (a b : JSTypedArray)
    (ha : ViewBound w a) (hb : ViewBound w b) (hapart : BuffersApart w a.buffer b.buffer) :
    ByteRangesDisjoint a b := by
  unfold ByteRangesDisjoint
  unfold ViewBound at ha hb
  unfold BuffersApart at hapart
  rcases hapart with h | h
  · left
    omega
  · right
    omega

/-- The run of `slice` on an attached typed array once the indices are converted and the
result is created. -/
theorem TypedArrayPrototypeSlice_run (host : Host) (arch : Arch) (source result : JSTypedArray)
    (args : List Value) (w w1 w2 : World) (tr1 tr2 : List Event)
    (start_index end_index count : Nat)
    (hattached : IsDetachedBuffer w source.buffer = false)
    (hindices : SliceIndices host source.length args w
      = ⟨w1, tr1, .normal (start_index, end_index, count)⟩)
    (hcreate : TypedArraySpeciesCreateByLength host source count w1
      = ⟨w2, tr2, .normal result⟩) :
    TypedArrayPrototypeSlice host arch (.typedArray source) args w
      = Outcome.after (tr1 ++ tr2)
          (if count = 0 then Return (.typedArray result) w2
           else if IsDetachedBuffer w2 source.buffer then
             Throw (.TypeError .kDetachedOperation) w2
           else if source.elements_kind ≠ result.elements_kind then
             SliceCallC host source result start_index end_index w2
           else if source.buffer = result.buffer then
             SliceCallC host source result start_index end_index w2
           else if w2.force_slow_path then
             SliceCallC host source result start_index end_index w2
           else
             (CallCMemmove (LoadDataPtr result)
               (IntPtrAdd arch (LoadDataPtr source)
                 (IntPtrMul arch start_index (GetTypedArrayElementSize source.elements_kind)))
               (IntPtrMul arch count (GetTypedArrayElementSize source.elements_kind))
               w2).andThen fun _ w => Return (.typedArray result) w) := by
  by_cases hcount : count = 0
  · subst hcount
    simp [TypedArrayPrototypeSlice, ValidateTypedArray, ThrowIfNotInstanceType,
      ThrowIfArrayBufferViewBufferIsDetached, ThrowIfArrayBufferIsDetached, hattached,
      Outcome.andThen, Outcome.after, Return, hindices, hcreate]
  · have hpos : 0 < count := Nat.pos_of_ne_zero hcount
    cases hdetached : IsDetachedBuffer w2 source.buffer
    · simp [TypedArrayPrototypeSlice, ValidateTypedArray, ThrowIfNotInstanceType,
        ThrowIfArrayBufferViewBufferIsDetached, ThrowIfArrayBufferIsDetached, hattached,
        Outcome.andThen, Outcome.after, Return, hindices, hcreate, hpos, hcount, hdetached]
    · simp [TypedArrayPrototypeSlice, ValidateTypedArray, ThrowIfNotInstanceType,
        ThrowIfArrayBufferViewBufferIsDetached, ThrowIfArrayBufferIsDetached, hattached,
        Outcome.andThen, Outcome.after, Return, Throw, hindices, hcreate, hpos, hcount,
        hdetached]

/-- The label `call_c` of `slice` returns the result array when it returns. -/
theorem SliceCallC_result (host : Host) (source result : JSTypedArray)
    (start_index end_index : Nat) (w : World) (v : Value)
    (h : (SliceCallC host source result start_index end_index w).result = .normal v) :
    v = .typedArray result := by
  unfold SliceCallC at h
  split_ifs at h
  · simp [Throw] at h
  · simp [CallCCopyTypedArrayElementsSlice, Outcome.andThen, Outcome.after, Return] at h
    exact h.symm

/-- In `exampleWorld` different buffers own storage that lies apart. -/
theorem exampleWorld_buffers_apart (b1 b2 : Nat) (h : b1 ≠ b2) :
    BuffersApart exampleWorld b1 b2 := by
  unfold BuffersApart
  simp only [exampleWorld]
  omega

end TypedArrayBuiltins
